import Mathlib

/-!
# Shader resource cache of the Vulkan backend

A shallow embedding of `Graphics/GraphicsEngineVulkan/src/ShaderResourceCacheVk.cpp`:
the resource cache storage and its lifecycle, the transition pass
`TransitionResources<VerifyOnly>`, the descriptor writers and the dynamic offset
collector, followed by the properties proved about them.  Two smaller embeddings follow
the cache: the reflection consumer of
`Graphics/GraphicsEngineD3D12/src/ShaderResourcesD3D12.cpp` and the memory size
formatter of `Primitives/interface/FormatMessage.h`.

Conventions of the embedding.

* Buffers and textures carry shared mutable state (access flags, image layout), so
  they live in a store indexed by object identity; a cache slot refers to them by
  index.  Views and samplers are immutable and are embedded by value.
* Dereferencing an empty reference, casting a reference to the wrong class, reading a
  slot that was never constructed and a failed `VERIFY` are faults: the operation
  stops and the fault is returned together with the state reached so far.
* Diagnostics written with `LOG_ERROR_MESSAGE` are kept as structured records.
-/

namespace Diligent

/-! ## Constants of the Vulkan headers and of the engine interface -/

abbrev VkAccessFlags := Nat
abbrev VkImageLayout := Nat

def VK_ACCESS_UNIFORM_READ_BIT : VkAccessFlags := 0x00000008
def VK_ACCESS_SHADER_READ_BIT : VkAccessFlags := 0x00000020
def VK_ACCESS_SHADER_WRITE_BIT : VkAccessFlags := 0x00000040

def VK_IMAGE_LAYOUT_UNDEFINED : VkImageLayout := 0
def VK_IMAGE_LAYOUT_GENERAL : VkImageLayout := 1
def VK_IMAGE_LAYOUT_DEPTH_STENCIL_READ_ONLY_OPTIMAL : VkImageLayout := 4
def VK_IMAGE_LAYOUT_SHADER_READ_ONLY_OPTIMAL : VkImageLayout := 5

def VK_NULL_HANDLE : Nat := 0

/-- Modelled from the spec: the bind flag recording that a texture "was created with
depth/stencil usage".  The enumeration `BIND_FLAGS` is declared in a header outside
`src`; only the fact that it is a single non-zero bit is used. -/
def BIND_DEPTH_STENCIL : Nat := 0x40

/-- Modelled from the spec: the nine resource kinds of
`SPIRVShaderResourceAttribs::ResourceType`, whose declaration is outside `src`.  The
type is closed, so the `default: UNEXPECTED(...)` branch of each `switch` over it has
no input. -/
inductive ResourceType
  | UniformBuffer
  | StorageBuffer
  | UniformTexelBuffer
  | StorageTexelBuffer
  | StorageImage
  | SampledImage
  | AtomicCounter
  | SeparateImage
  | SeparateSampler
  deriving DecidableEq, Repr

inductive TEXTURE_VIEW_TYPE
  | TEXTURE_VIEW_UNDEFINED
  | TEXTURE_VIEW_SHADER_RESOURCE
  | TEXTURE_VIEW_RENDER_TARGET
  | TEXTURE_VIEW_DEPTH_STENCIL
  | TEXTURE_VIEW_UNORDERED_ACCESS
  deriving DecidableEq, Repr

inductive BUFFER_VIEW_TYPE
  | BUFFER_VIEW_UNDEFINED
  | BUFFER_VIEW_SHADER_RESOURCE
  | BUFFER_VIEW_UNORDERED_ACCESS
  deriving DecidableEq, Repr

/-! ## Device objects -/

/-- The members of `BufferVkImpl` that the cache reads: the description (`GetDesc()`),
the Vulkan handle, the access flags and the per-context dynamic offset. -/
structure BufferVkImpl where
  Name : String
  uiSizeInBytes : Nat
  BindFlags : Nat
  VkBuffer : Nat
  m_AccessFlags : VkAccessFlags
  DynamicOffset : Nat → Nat

/-- The members of `TextureVkImpl` that the cache reads. -/
structure TextureVkImpl where
  Name : String
  BindFlags : Nat
  m_Layout : VkImageLayout

structure SamplerVkImpl where
  VkSampler : Nat
  deriving DecidableEq, Repr

/-- A buffer view; `pBuffer` identifies the buffer it was created from. -/
structure BufferViewVkImpl where
  ViewType : BUFFER_VIEW_TYPE
  pBuffer : Nat
  VkBufferView : Nat
  deriving DecidableEq, Repr

/-- A texture view; `pTexture` identifies the texture it was created from and
`pSampler` is the sampler assigned to the view, if any. -/
structure TextureViewVkImpl where
  Name : String
  ViewType : TEXTURE_VIEW_TYPE
  pTexture : Nat
  pSampler : Option SamplerVkImpl
  VulkanImageView : Nat
  deriving DecidableEq, Repr

/-- What a slot's `RefCntAutoPtr<IDeviceObject>` may point to. -/
inductive DeviceObject
  | buffer (id : Nat)
  | bufferView (view : BufferViewVkImpl)
  | textureView (view : TextureViewVkImpl)
  | sampler (s : SamplerVkImpl)
  deriving DecidableEq, Repr

/-! ## Cache storage -/

/-- A slot, `ShaderResourceCacheVk::Resource`: the fixed type tag and the reference to
the bound object (`none` is the empty reference). -/
structure Resource where
  Type_ : ResourceType
  pObject : Option DeviceObject
  deriving DecidableEq, Repr

/-- A set header as `InitializeSets` constructs it: the number of slots and the
position of the first one in the resource array (`none` is `nullptr`). -/
structure DescriptorSet where
  m_NumResources : Nat
  m_pResources : Option Nat
  deriving DecidableEq, Repr

/-- The single allocation: all set headers, then all slots.  A slot that has not been
placement-constructed yet is `none`. -/
structure MemoryBlock where
  Sets : List DescriptorSet
  Resources : List (Option Resource)
  deriving DecidableEq, Repr

structure ShaderResourceCacheVk where
  m_pAllocator : Option Nat
  m_pMemory : Option MemoryBlock
  m_NumSets : Nat
  m_TotalResources : Nat
  deriving DecidableEq, Repr

/-- The slot array behind `GetFirstResourcePtr()`. -/
def ShaderResourceCacheVk.GetFirstResourcePtr (c : ShaderResourceCacheVk) :
    List (Option Resource) :=
  match c.m_pMemory with
  | none => []
  | some m => m.Resources

/-- The read `pResources[res]`: `none` when the index is outside the allocation. -/
def ShaderResourceCacheVk.slot (c : ShaderResourceCacheVk) (res : Nat) :
    Option (Option Resource) :=
  c.GetFirstResourcePtr[res]?

/-! ## Shared state, requests and diagnostics -/

/-- A request that reached the command-recording context. -/
inductive TransitionRequest
  | BufferMemoryBarrier (buffer : Nat) (NewAccessFlags : VkAccessFlags)
  | TransitionImageLayout (texture : Nat) (NewLayout : VkImageLayout)
  deriving DecidableEq, Repr

/-- A line written with `LOG_ERROR_MESSAGE`. -/
inductive Diagnostic
  | bufferState (name : String) (required actual : VkAccessFlags)
  | textureState (name : String) (required actual : VkImageLayout)
  | noSampler (viewName : String)
  deriving DecidableEq, Repr

inductive Fault
  | nullDereference
  | invalidCast
  | uninitializedSlot
  | outOfBounds
  | assertionFailed (msg : String)
  deriving DecidableEq, Repr

/-- Everything the pass can read or change outside the cache: the object store, the
requests received by the context (oldest first) and the diagnostic output (oldest
first). -/
structure State where
  Buffers : Nat → BufferVkImpl
  Textures : Nat → TextureVkImpl
  Requests : List TransitionRequest
  Log : List Diagnostic

abbrev Result (α : Type) := Except (Fault × State) α

/-- The state in which a call ended, whether it completed or stopped at a fault. -/
def Result.state : Result State → State
  | .ok s => s
  | .error (_, s) => s

/-- Modelled from the spec: `BufferVkImpl::CheckAccessFlags` (declared outside `src`):
the current access-flag bitmask satisfies a requirement when it includes every
required flag. -/
def BufferVkImpl.CheckAccessFlags (b : BufferVkImpl) (AccessFlags : VkAccessFlags) : Bool :=
  b.m_AccessFlags &&& AccessFlags == AccessFlags

/-- Modelled from the spec: `DeviceContextVkImpl::BufferMemoryBarrier` (defined outside
`src`): the request reaches the context and the buffer's state is updated to the new
value. -/
def BufferMemoryBarrier (s : State) (buffer : Nat) (NewAccessFlags : VkAccessFlags) : State :=
  { s with
    Buffers := fun i =>
      if i = buffer then { s.Buffers i with m_AccessFlags := NewAccessFlags } else s.Buffers i
    Requests := s.Requests ++ [.BufferMemoryBarrier buffer NewAccessFlags] }

/-- Modelled from the spec: `DeviceContextVkImpl::TransitionImageLayout` (defined
outside `src`): the request reaches the context and the texture's layout is updated to
the new value. -/
def TransitionImageLayout (s : State) (texture : Nat) (NewLayout : VkImageLayout) : State :=
  { s with
    Textures := fun i =>
      if i = texture then { s.Textures i with m_Layout := NewLayout } else s.Textures i
    Requests := s.Requests ++ [.TransitionImageLayout texture NewLayout] }

def LOG_ERROR_MESSAGE (s : State) (d : Diagnostic) : State :=
  { s with Log := s.Log ++ [d] }

/-- The cast-and-dereference `Res.pObject.RawPtr<BufferVkImpl>()->...`. -/
def derefBuffer (p : Option DeviceObject) (s : State) : Result Nat :=
  match p with
  | none => .error (.nullDereference, s)
  | some (.buffer b) => .ok b
  | some _ => .error (.invalidCast, s)

/-- The cast-and-dereference `Res.pObject.RawPtr<BufferViewVkImpl>()->...`. -/
def derefBufferView (p : Option DeviceObject) (s : State) : Result BufferViewVkImpl :=
  match p with
  | none => .error (.nullDereference, s)
  | some (.bufferView v) => .ok v
  | some _ => .error (.invalidCast, s)

/-- The cast-and-dereference `Res.pObject.RawPtr<TextureViewVkImpl>()->...`. -/
def derefTextureView (p : Option DeviceObject) (s : State) : Result TextureViewVkImpl :=
  match p with
  | none => .error (.nullDereference, s)
  | some (.textureView v) => .ok v
  | some _ => .error (.invalidCast, s)

/-! ## The transition pass -/

/-- The body of the `for` loop of `TransitionResources<VerifyOnly>`, applied to the
slot read at `pResources[res]`. -/
def TransitionResources.body (VerifyOnly : Bool) (slot : Option (Option Resource))
    (s : State) : Result State :=
  match slot with
  | none => .error (.outOfBounds, s)
  | some none => .error (.uninitializedSlot, s)
  | some (some Res) =>
    match Res.Type_ with
    | .UniformBuffer => do
        let pBufferVk ← derefBuffer Res.pObject s
        let RequiredAccessFlags := VK_ACCESS_UNIFORM_READ_BIT
        if !(s.Buffers pBufferVk).CheckAccessFlags RequiredAccessFlags then
          if VerifyOnly then
            pure (LOG_ERROR_MESSAGE s (.bufferState (s.Buffers pBufferVk).Name
              RequiredAccessFlags (s.Buffers pBufferVk).m_AccessFlags))
          else
            pure (BufferMemoryBarrier s pBufferVk RequiredAccessFlags)
        else
          pure s
    | .StorageBuffer | .UniformTexelBuffer | .StorageTexelBuffer => do
        let pBuffViewVk ← derefBufferView Res.pObject s
        let pBufferVk := pBuffViewVk.pBuffer
        let RequiredAccessFlags :=
          if Res.Type_ = .UniformTexelBuffer then
            VK_ACCESS_SHADER_READ_BIT
          else
            (VK_ACCESS_SHADER_READ_BIT ||| VK_ACCESS_SHADER_WRITE_BIT)
        if !(s.Buffers pBufferVk).CheckAccessFlags RequiredAccessFlags then
          if VerifyOnly then
            pure (LOG_ERROR_MESSAGE s (.bufferState (s.Buffers pBufferVk).Name
              RequiredAccessFlags (s.Buffers pBufferVk).m_AccessFlags))
          else
            pure (BufferMemoryBarrier s pBufferVk RequiredAccessFlags)
        else
          pure s
    | .SeparateImage | .SampledImage | .StorageImage => do
        let pTextureViewVk ← derefTextureView Res.pObject s
        let pTextureVk := pTextureViewVk.pTexture
        let RequiredLayout :=
          if Res.Type_ = .StorageImage then
            VK_IMAGE_LAYOUT_GENERAL
          else if (s.Textures pTextureVk).BindFlags &&& BIND_DEPTH_STENCIL ≠ 0 then
            VK_IMAGE_LAYOUT_DEPTH_STENCIL_READ_ONLY_OPTIMAL
          else
            VK_IMAGE_LAYOUT_SHADER_READ_ONLY_OPTIMAL
        if (s.Textures pTextureVk).m_Layout ≠ RequiredLayout then
          if VerifyOnly then
            pure (LOG_ERROR_MESSAGE s (.textureState (s.Textures pTextureVk).Name
              RequiredLayout (s.Textures pTextureVk).m_Layout))
          else
            pure (TransitionImageLayout s pTextureVk RequiredLayout)
        else
          pure s
    | .AtomicCounter => pure s
    | .SeparateSampler => pure s

/-- The state after the first `n` iterations of the loop of
`TransitionResources<VerifyOnly>`; iteration `res` handles `pResources[res]`. -/
def TransitionResources.iterations (VerifyOnly : Bool) (c : ShaderResourceCacheVk) :
    Nat → State → Result State
  | 0, s => pure s
  | res + 1, s => do
      let s' ← TransitionResources.iterations VerifyOnly c res s
      TransitionResources.body VerifyOnly (c.slot res) s'

/-- `ShaderResourceCacheVk::TransitionResources<VerifyOnly>`: the loop runs for
`res = 0 .. m_TotalResources - 1`. -/
def TransitionResources (VerifyOnly : Bool) (c : ShaderResourceCacheVk) (s : State) :
    Result State :=
  TransitionResources.iterations VerifyOnly c c.m_TotalResources s

/-! ## The image descriptor writer -/

structure VkDescriptorImageInfo where
  sampler : Nat
  imageView : Nat
  imageLayout : VkImageLayout
  deriving DecidableEq, Repr

/-- The debug assertion `VERIFY(cond, msg)` (and `VERIFY_EXPR(cond)`). -/
def VERIFY (cond : Bool) (msg : String) (s : State) : Result Unit :=
  if cond then pure () else .error (.assertionFailed msg, s)

/-- `ShaderResourceCacheVk::Resource::GetImageDescriptorWriteInfo`.  The second
component of the result is the state after the call (the function may log). -/
def Resource.GetImageDescriptorWriteInfo (Res : Resource) (IsImmutableSampler : Bool)
    (s : State) : Result (VkDescriptorImageInfo × State) := do
  VERIFY (Res.Type_ = .StorageImage ∨ Res.Type_ = .SeparateImage ∨ Res.Type_ = .SampledImage)
    "Storage image, separate image or sampled image resource is expected" s
  let IsStorageImage : Bool := Res.Type_ = .StorageImage
  let pTexViewVk ← derefTextureView Res.pObject s
  VERIFY (pTexViewVk.ViewType =
      (if IsStorageImage then TEXTURE_VIEW_TYPE.TEXTURE_VIEW_UNORDERED_ACCESS
       else TEXTURE_VIEW_TYPE.TEXTURE_VIEW_SHADER_RESOURCE))
    "pTexViewVk->GetDesc().ViewType == (IsStorageImage ? TEXTURE_VIEW_UNORDERED_ACCESS : TEXTURE_VIEW_SHADER_RESOURCE)" s
  let (sampler, s1) :=
    if Res.Type_ = .SampledImage ∧ !IsImmutableSampler then
      match pTexViewVk.pSampler with
      | some pSamplerVk => (pSamplerVk.VkSampler, s)
      | none => (VK_NULL_HANDLE, LOG_ERROR_MESSAGE s (.noSampler pTexViewVk.Name))
    else
      (VK_NULL_HANDLE, s)
  let imageLayout :=
    if IsStorageImage then
      VK_IMAGE_LAYOUT_GENERAL
    else if (s.Textures pTexViewVk.pTexture).BindFlags &&& BIND_DEPTH_STENCIL ≠ 0 then
      VK_IMAGE_LAYOUT_DEPTH_STENCIL_READ_ONLY_OPTIMAL
    else
      VK_IMAGE_LAYOUT_SHADER_READ_ONLY_OPTIMAL
  pure ({ sampler := sampler, imageView := pTexViewVk.VulkanImageView,
          imageLayout := imageLayout }, s1)

/-! ## The transition engine as the specification words it -/

/-- What a slot requires of the object bound to it. -/
inductive Requirement
  | nothing
  | access (buffer : Nat) (mask : VkAccessFlags)
  | layout (texture : Nat) (layout : VkImageLayout)
  deriving DecidableEq, Repr

/-- The table of section 4.3 of the specification: the state required by a slot, by
slot type, of the buffer or texture behind the bound object.  A slot with no object of
the matching class requires nothing. -/
def specRequirement (s : State) (r : Resource) : Requirement :=
  match r.Type_, r.pObject with
  | .UniformBuffer, some (.buffer b) => .access b VK_ACCESS_UNIFORM_READ_BIT
  | .StorageBuffer, some (.bufferView v) =>
      .access v.pBuffer (VK_ACCESS_SHADER_READ_BIT ||| VK_ACCESS_SHADER_WRITE_BIT)
  | .StorageTexelBuffer, some (.bufferView v) =>
      .access v.pBuffer (VK_ACCESS_SHADER_READ_BIT ||| VK_ACCESS_SHADER_WRITE_BIT)
  | .UniformTexelBuffer, some (.bufferView v) => .access v.pBuffer VK_ACCESS_SHADER_READ_BIT
  | .StorageImage, some (.textureView v) => .layout v.pTexture VK_IMAGE_LAYOUT_GENERAL
  | .SampledImage, some (.textureView v) =>
      .layout v.pTexture
        (if (s.Textures v.pTexture).BindFlags &&& BIND_DEPTH_STENCIL ≠ 0 then
          VK_IMAGE_LAYOUT_DEPTH_STENCIL_READ_ONLY_OPTIMAL
        else VK_IMAGE_LAYOUT_SHADER_READ_ONLY_OPTIMAL)
  | .SeparateImage, some (.textureView v) =>
      .layout v.pTexture
        (if (s.Textures v.pTexture).BindFlags &&& BIND_DEPTH_STENCIL ≠ 0 then
          VK_IMAGE_LAYOUT_DEPTH_STENCIL_READ_ONLY_OPTIMAL
        else VK_IMAGE_LAYOUT_SHADER_READ_ONLY_OPTIMAL)
  | _, _ => .nothing

/-- The object's current state already satisfies the requirement. -/
def Requirement.holds (s : State) : Requirement → Bool
  | .nothing => true
  | .access b m => (s.Buffers b).CheckAccessFlags m
  | .layout t l => (s.Textures t).m_Layout == l

/-- Section 4.3: no action when the requirement holds; otherwise a request to the
context in `Apply` mode, a validation failure and no mutation in `VerifyOnly` mode. -/
def specStep (VerifyOnly : Bool) (s : State) : Requirement → State
  | .nothing => s
  | .access b m =>
      if (s.Buffers b).CheckAccessFlags m then s
      else if VerifyOnly then
        LOG_ERROR_MESSAGE s (.bufferState (s.Buffers b).Name m (s.Buffers b).m_AccessFlags)
      else BufferMemoryBarrier s b m
  | .layout t l =>
      if (s.Textures t).m_Layout = l then s
      else if VerifyOnly then
        LOG_ERROR_MESSAGE s (.textureState (s.Textures t).Name l (s.Textures t).m_Layout)
      else TransitionImageLayout s t l

/-- Two requirements can be met together: on one buffer one mask includes the other,
on one texture the layouts are equal. -/
def Requirement.compatible : Requirement → Requirement → Prop
  | .access b m, .access b' m' => b = b' → (m &&& m' = m' ∨ m' &&& m = m)
  | .layout t l, .layout t' l' => t = t' → l = l'
  | _, _ => True

instance (q q' : Requirement) : Decidable (q.compatible q') := by
  cases q <;> cases q' <;> simp only [Requirement.compatible] <;> infer_instance

/-! ## Conditions on a cache -/

/-- The slot holds an object of the class its type tag casts it to.  Slots of type
`AtomicCounter` and `SeparateSampler` are not constrained. -/
def Resource.Ready (r : Resource) : Bool :=
  match r.Type_, r.pObject with
  | .UniformBuffer, some (.buffer _) => true
  | .StorageBuffer, some (.bufferView _) => true
  | .UniformTexelBuffer, some (.bufferView _) => true
  | .StorageTexelBuffer, some (.bufferView _) => true
  | .StorageImage, some (.textureView _) => true
  | .SampledImage, some (.textureView _) => true
  | .SeparateImage, some (.textureView _) => true
  | .AtomicCounter, _ => true
  | .SeparateSampler, _ => true
  | _, _ => false

def slotReady : Option (Option Resource) → Bool
  | some (some r) => r.Ready
  | _ => false

/-- Every slot the pass visits is constructed and bound (fully bound cache). -/
def ShaderResourceCacheVk.Ready (c : ShaderResourceCacheVk) : Prop :=
  ∀ res < c.m_TotalResources, slotReady (c.slot res) = true

instance (c : ShaderResourceCacheVk) : Decidable c.Ready :=
  inferInstanceAs (Decidable (∀ res < c.m_TotalResources, slotReady (c.slot res) = true))

/-- The buffer behind a buffer-typed slot. -/
def Resource.buffer? (r : Resource) : Option Nat :=
  match r.Type_, r.pObject with
  | .UniformBuffer, some (.buffer b) => some b
  | .StorageBuffer, some (.bufferView v) => some v.pBuffer
  | .UniformTexelBuffer, some (.bufferView v) => some v.pBuffer
  | .StorageTexelBuffer, some (.bufferView v) => some v.pBuffer
  | _, _ => none

/-- The texture behind an image-typed slot. -/
def Resource.texture? (r : Resource) : Option Nat :=
  match r.Type_, r.pObject with
  | .StorageImage, some (.textureView v) => some v.pTexture
  | .SampledImage, some (.textureView v) => some v.pTexture
  | .SeparateImage, some (.textureView v) => some v.pTexture
  | _, _ => none

/-- Two slots make incompatible demands on one object: one buffer behind a
`UniformBuffer` slot and a storage or texel buffer slot, or one texture behind a
`StorageImage` slot and a sampled or separate image slot. -/
def Resource.conflicts (r r' : Resource) : Bool :=
  (r.buffer?.isSome && r.buffer? == r'.buffer? &&
      (decide (r.Type_ = .UniformBuffer) != decide (r'.Type_ = .UniformBuffer))) ||
  (r.texture?.isSome && r.texture? == r'.texture? &&
      (decide (r.Type_ = .StorageImage) != decide (r'.Type_ = .StorageImage)))

def slotConflicts : Option (Option Resource) → Option (Option Resource) → Bool
  | some (some r), some (some r') => r.conflicts r'
  | _, _ => false

/-- No two visited slots make incompatible demands on one object. -/
def ShaderResourceCacheVk.ConflictFree (c : ShaderResourceCacheVk) : Prop :=
  ∀ i < c.m_TotalResources, ∀ j < c.m_TotalResources,
    slotConflicts (c.slot i) (c.slot j) = false

instance (c : ShaderResourceCacheVk) : Decidable c.ConflictFree :=
  inferInstanceAs (Decidable (∀ i < c.m_TotalResources, ∀ j < c.m_TotalResources,
    slotConflicts (c.slot i) (c.slot j) = false))

/-- The object bound to a visited slot already satisfies what the slot requires (slots
without an object of the matching class require nothing). -/
def slotHolds (s : State) : Option (Option Resource) → Bool
  | some (some r) => (specRequirement s r).holds s
  | _ => true

/-- The fault a call stopped at, if any. -/
def Result.fault : Result State → Option Fault
  | .ok _ => none
  | .error (f, _) => some f

/-! ## Concrete caches and states used in the examples -/

def exampleBuffer : BufferVkImpl :=
  { Name := "buffer", uiSizeInBytes := 256, BindFlags := 0, VkBuffer := 1,
    m_AccessFlags := 0, DynamicOffset := fun _ => 0 }

def exampleTexture : TextureVkImpl :=
  { Name := "texture", BindFlags := 0, m_Layout := VK_IMAGE_LAYOUT_UNDEFINED }

/-- A store in which every buffer has access flags 0 and every texture has the
undefined layout, with no request and no diagnostic recorded. -/
def exampleState : State :=
  { Buffers := fun _ => exampleBuffer, Textures := fun _ => exampleTexture,
    Requests := [], Log := [] }

/-- The example store with every buffer readable as a uniform buffer. -/
def uniformReadState : State :=
  { exampleState with
    Buffers := fun _ => { exampleBuffer with m_AccessFlags := VK_ACCESS_UNIFORM_READ_BIT } }

/-- A store for the end-to-end scenario: buffer 0 has access flags 0, every other
buffer is readable and writable from shaders, every texture is in the shader-read-only
layout. -/
def scenarioState : State :=
  { Buffers := fun i =>
      if i = 0 then exampleBuffer
      else { exampleBuffer with
             m_AccessFlags := VK_ACCESS_SHADER_READ_BIT ||| VK_ACCESS_SHADER_WRITE_BIT }
    Textures := fun _ => { exampleTexture with m_Layout := VK_IMAGE_LAYOUT_SHADER_READ_ONLY_OPTIMAL }
    Requests := []
    Log := [] }

def exampleUAView : TextureViewVkImpl :=
  { Name := "uav", ViewType := .TEXTURE_VIEW_UNORDERED_ACCESS, pTexture := 0,
    pSampler := none, VulkanImageView := 11 }

def exampleSRView : TextureViewVkImpl :=
  { Name := "srv", ViewType := .TEXTURE_VIEW_SHADER_RESOURCE, pTexture := 0,
    pSampler := some { VkSampler := 21 }, VulkanImageView := 12 }

def exampleBufferView : BufferViewVkImpl :=
  { ViewType := .BUFFER_VIEW_UNORDERED_ACCESS, pBuffer := 1, VkBufferView := 31 }

/-- A cache of one set whose slots are given. -/
def cacheOfSlots (slots : List Resource) : ShaderResourceCacheVk :=
  { m_pAllocator := some 0
    m_pMemory := some { Sets := [{ m_NumResources := slots.length,
                                   m_pResources := if slots.length > 0 then some 0 else none }]
                        Resources := slots.map some }
    m_NumSets := 1
    m_TotalResources := slots.length }

/-- One texture bound through two views to a `StorageImage` slot and to a
`SampledImage` slot. -/
def sharedTextureCache : ShaderResourceCacheVk :=
  cacheOfSlots [⟨.StorageImage, some (.textureView exampleUAView)⟩,
                ⟨.SampledImage, some (.textureView exampleSRView)⟩]

/-- The cache of the end-to-end scenario: two sets of sizes 2 and 1, set 0 holding a
`UniformBuffer` slot bound to `buffer` and a `SampledImage` slot holding `image`, set 1
holding a `StorageBuffer` slot holding `storage`. -/
def scenarioCache (buffer : Nat) (image storage : Option DeviceObject) :
    ShaderResourceCacheVk :=
  { m_pAllocator := some 0
    m_pMemory := some
      { Sets := [{ m_NumResources := 2, m_pResources := some 0 },
                 { m_NumResources := 1, m_pResources := some 2 }]
        Resources := [some ⟨.UniformBuffer, some (.buffer buffer)⟩,
                      some ⟨.SampledImage, image⟩,
                      some ⟨.StorageBuffer, storage⟩] }
    m_NumSets := 2
    m_TotalResources := 3 }

/-- A cache with a bound uniform buffer, an empty `AtomicCounter` slot and a
`SeparateSampler` slot. -/
def mixedCache : ShaderResourceCacheVk :=
  cacheOfSlots [⟨.UniformBuffer, some (.buffer 0)⟩, ⟨.AtomicCounter, none⟩,
                ⟨.SeparateSampler, some (.sampler { VkSampler := 21 })⟩]

/-! ## Cache construction -/

/-- The debug assertions `VERIFY(cond, msg)` and `VERIFY_EXPR(cond)` in code that does
not touch the object store. -/
def VERIFY_EXPR (cond : Bool) (msg : String) : Except Fault Unit :=
  if cond then pure () else throw (.assertionFailed msg)

/-- The loop `for (t = 0; t < NumSets; ++t) TotalResources += SetSizes[t]` on its
`Uint32` accumulator: the value after the first `t` iterations.  `SetSizes` is the
array the caller passes; a read past its end is a fault. -/
def TotalResourcesLoop (SetSizes : List Nat) : Nat → Except Fault Nat
  | 0 => pure 0
  | t + 1 => do
      let TotalResources ← TotalResourcesLoop SetSizes t
      match SetSizes[t]? with
      | none => throw .outOfBounds
      | some n => pure ((TotalResources + n) % 2 ^ 32)

/-- `ShaderResourceCacheVk::GetRequiredMemorySize`.  The two object sizes
`sizeof(DescriptorSet)` and `sizeof(Resource)` are fixed by a header outside `src` and
are parameters; `size_t` is 64 bits wide. -/
def GetRequiredMemorySize (sizeofDescriptorSet sizeofResource : Nat) (NumSets : Nat)
    (SetSizes : List Nat) : Except Fault Nat := do
  let TotalResources ← TotalResourcesLoop SetSizes NumSets
  let MemorySize := (NumSets * sizeofDescriptorSet + TotalResources * sizeofResource) % 2 ^ 64
  pure MemorySize

/-- The loop of `InitializeSets` that placement-constructs the set headers: the headers
constructed and the position of `pCurrResPtr`, counted in slots from the first slot of
the block, after the first `t` iterations. -/
def InitializeSets.headers (SetSizes : List Nat) : Nat → Except Fault (List DescriptorSet × Nat)
  | 0 => pure ([], 0)
  | t + 1 => do
      let (Sets, pCurrResPtr) ← InitializeSets.headers SetSizes t
      match SetSizes[t]? with
      | none => throw .outOfBounds
      | some n =>
          pure (Sets ++ [{ m_NumResources := n
                           m_pResources := if n > 0 then some pCurrResPtr else none }],
                pCurrResPtr + n)

/-- `ShaderResourceCacheVk::InitializeSets`.  `MemAllocator` identifies the allocator.
The allocated block holds the `NumSets` headers and `m_TotalResources` raw slots; the
last assertion compares the byte position of `pCurrResPtr` with the end of the block. -/
def InitializeSets (sizeofDescriptorSet sizeofResource : Nat) (c : ShaderResourceCacheVk)
    (MemAllocator : Nat) (NumSets : Nat) (SetSizes : List Nat) :
    Except Fault ShaderResourceCacheVk := do
  VERIFY_EXPR (c.m_pAllocator = none ∧ c.m_pMemory = none) "Cache already initialized"
  let m_TotalResources ← TotalResourcesLoop SetSizes NumSets
  let MemorySize :=
    (NumSets * sizeofDescriptorSet + m_TotalResources * sizeofResource) % 2 ^ 64
  let Required ← GetRequiredMemorySize sizeofDescriptorSet sizeofResource NumSets SetSizes
  VERIFY_EXPR (MemorySize = Required) "MemorySize == GetRequiredMemorySize(NumSets, SetSizes)"
  if MemorySize > 0 then do
    let (Sets, pCurrResPtr) ← InitializeSets.headers SetSizes NumSets
    VERIFY_EXPR (NumSets * sizeofDescriptorSet + pCurrResPtr * sizeofResource = MemorySize)
      "(char*)pCurrResPtr == (char*)m_pMemory + MemorySize"
    pure { m_pAllocator := some MemAllocator
           m_pMemory := some { Sets := Sets
                               Resources := List.replicate m_TotalResources none }
           m_NumSets := NumSets
           m_TotalResources := m_TotalResources }
  else
    pure { m_pAllocator := some MemAllocator
           m_pMemory := none
           m_NumSets := NumSets
           m_TotalResources := m_TotalResources }

/-- Modelled from the spec: `ShaderResourceCacheVk::GetDescriptorSet` (defined in the
header, outside `src`): the header number `Index` at the start of the block. -/
def ShaderResourceCacheVk.GetDescriptorSet (c : ShaderResourceCacheVk) (Index : Nat) :
    Except Fault DescriptorSet :=
  match c.m_pMemory with
  | none => throw .nullDereference
  | some m =>
    match m.Sets[Index]? with
    | none => throw .outOfBounds
    | some d => pure d

/-- Modelled from the spec: the position `DescriptorSet::GetResource(CacheOffset)`
refers to (the member is defined in the header, outside `src`): slot `CacheOffset` of the
slice the header was constructed with, an offset past the slice being a fault. -/
def DescriptorSet.resourceIndex (d : DescriptorSet) (CacheOffset : Nat) : Except Fault Nat :=
  if CacheOffset < d.m_NumResources then
    match d.m_pResources with
    | none => throw .nullDereference
    | some first => pure (first + CacheOffset)
  else throw .outOfBounds

/-- The read of a constructed slot through `DescrSet.GetResource(CacheOffset)`. -/
def ShaderResourceCacheVk.GetResource (c : ShaderResourceCacheVk) (DescrSet : DescriptorSet)
    (CacheOffset : Nat) : Except Fault Resource := do
  let i ← DescrSet.resourceIndex CacheOffset
  match c.GetFirstResourcePtr[i]? with
  | none => throw .outOfBounds
  | some none => throw .uninitializedSlot
  | some (some Res) => pure Res

/-- The placement construction `new(p) Resource{...}` at position `i` of the slot
array. -/
def ShaderResourceCacheVk.construct (c : ShaderResourceCacheVk) (i : Nat) (Res : Resource) :
    Except Fault ShaderResourceCacheVk :=
  match c.m_pMemory with
  | none => throw .nullDereference
  | some m =>
    if i < m.Resources.length then
      pure { c with m_pMemory := some { m with Resources := m.Resources.set i (some Res) } }
    else throw .outOfBounds

/-- The cache after the first `n` iterations of the loop of `InitializeResources`;
iteration `res` constructs slot `Offset + res` (a `Uint32` sum) of the set. -/
def InitializeResources.iterations (c : ShaderResourceCacheVk) (DescrSet : DescriptorSet)
    (Offset : Nat) (Type_ : ResourceType) : Nat → Except Fault ShaderResourceCacheVk
  | 0 => pure c
  | res + 1 => do
      let c' ← InitializeResources.iterations c DescrSet Offset Type_ res
      let i ← DescrSet.resourceIndex ((Offset + res) % 2 ^ 32)
      c'.construct i { Type_ := Type_, pObject := none }

/-- `ShaderResourceCacheVk::InitializeResources`. -/
def InitializeResources (c : ShaderResourceCacheVk) (Set Offset ArraySize : Nat)
    (Type_ : ResourceType) : Except Fault ShaderResourceCacheVk := do
  let DescrSet ← c.GetDescriptorSet Set
  InitializeResources.iterations c DescrSet Offset Type_ ArraySize

/-- A cache on which nothing has been called yet. -/
def emptyCache : ShaderResourceCacheVk :=
  { m_pAllocator := none, m_pMemory := none, m_NumSets := 0, m_TotalResources := 0 }

/-! ## The dynamic offset collector -/

/-- Turns a fault of a cache accessor into a fault of an operation that reads the
object store. -/
def liftFault {α : Type} (s : State) : Except Fault α → Result α
  | .ok a => .ok a
  | .error f => .error (f, s)

/-- The store `Offsets[OffsetInd] = Offset` into the caller's vector. -/
def writeOffset (Offsets : List Nat) (OffsetInd Offset : Nat) (s : State) : Result (List Nat) :=
  if OffsetInd < Offsets.length then pure (Offsets.set OffsetInd Offset)
  else .error (.outOfBounds, s)

/-- The first `while` loop of `GetDynamicBufferOffsets`, entered with `remaining` slots
of the set left, that is with `res = DescrSet.GetSize() - remaining`.  Returns `res`,
`OffsetInd` and the vector at the exit of the loop. -/
def GetDynamicBufferOffsets.uniformLoop (c : ShaderResourceCacheVk) (CtxId : Nat) (s : State)
    (DescrSet : DescriptorSet) : Nat → Nat → List Nat → Result (Nat × Nat × List Nat)
  | 0, OffsetInd, Offsets => pure (DescrSet.m_NumResources, OffsetInd, Offsets)
  | remaining + 1, OffsetInd, Offsets => do
      let res := DescrSet.m_NumResources - (remaining + 1)
      let Res ← liftFault s (c.GetResource DescrSet res)
      if Res.Type_ ≠ .UniformBuffer then
        pure (res, OffsetInd, Offsets)
      else do
        let pBufferVk ← derefBuffer Res.pObject s
        let Offset := (s.Buffers pBufferVk).DynamicOffset CtxId
        let Offsets' ← writeOffset Offsets OffsetInd Offset s
        GetDynamicBufferOffsets.uniformLoop c CtxId s DescrSet remaining
          ((OffsetInd + 1) % 2 ^ 32) Offsets'

/-- The second `while` loop of `GetDynamicBufferOffsets`, entered with `remaining`
slots of the set left. -/
def GetDynamicBufferOffsets.storageLoop (c : ShaderResourceCacheVk) (CtxId : Nat) (s : State)
    (DescrSet : DescriptorSet) : Nat → Nat → List Nat → Result (Nat × Nat × List Nat)
  | 0, OffsetInd, Offsets => pure (DescrSet.m_NumResources, OffsetInd, Offsets)
  | remaining + 1, OffsetInd, Offsets => do
      let res := DescrSet.m_NumResources - (remaining + 1)
      let Res ← liftFault s (c.GetResource DescrSet res)
      if Res.Type_ ≠ .StorageBuffer then
        pure (res, OffsetInd, Offsets)
      else do
        let pBufferVkView ← derefBufferView Res.pObject s
        let pBufferVk := pBufferVkView.pBuffer
        let Offset := (s.Buffers pBufferVk).DynamicOffset CtxId
        let Offsets' ← writeOffset Offsets OffsetInd Offset s
        GetDynamicBufferOffsets.storageLoop c CtxId s DescrSet remaining
          ((OffsetInd + 1) % 2 ^ 32) Offsets'

/-- The checking loop of `GetDynamicBufferOffsets` that exists in `_DEBUG` builds,
entered with `remaining` slots of the set left. -/
def GetDynamicBufferOffsets.debugLoop (c : ShaderResourceCacheVk) (s : State)
    (DescrSet : DescriptorSet) : Nat → Result Unit
  | 0 => pure ()
  | remaining + 1 => do
      let res := DescrSet.m_NumResources - (remaining + 1)
      let Res ← liftFault s (c.GetResource DescrSet res)
      VERIFY (Res.Type_ ≠ .UniformBuffer ∧ Res.Type_ ≠ .StorageBuffer)
        "All uniform and storage buffers are expected to go first in the beginning of each descriptor set" s
      GetDynamicBufferOffsets.debugLoop c s DescrSet remaining

/-- The body of the loop over the sets of `GetDynamicBufferOffsets`. -/
def GetDynamicBufferOffsets.body (DEBUG : Bool) (c : ShaderResourceCacheVk) (CtxId : Nat)
    (s : State) (set : Nat) (OffsetInd : Nat) (Offsets : List Nat) : Result (Nat × List Nat) := do
  let DescrSet ← liftFault s (c.GetDescriptorSet set)
  let (res, OffsetInd, Offsets) ←
    GetDynamicBufferOffsets.uniformLoop c CtxId s DescrSet DescrSet.m_NumResources
      OffsetInd Offsets
  let (res, OffsetInd, Offsets) ←
    GetDynamicBufferOffsets.storageLoop c CtxId s DescrSet (DescrSet.m_NumResources - res)
      OffsetInd Offsets
  if DEBUG then
    GetDynamicBufferOffsets.debugLoop c s DescrSet (DescrSet.m_NumResources - res)
  pure (OffsetInd, Offsets)

/-- The value of `OffsetInd` and the vector after the loop of `GetDynamicBufferOffsets`
has handled the first `n` sets. -/
def GetDynamicBufferOffsets.iterations (DEBUG : Bool) (c : ShaderResourceCacheVk)
    (CtxId : Nat) (s : State) (Offsets : List Nat) : Nat → Result (Nat × List Nat)
  | 0 => pure (0, Offsets)
  | set + 1 => do
      let (OffsetInd, Offsets') ← GetDynamicBufferOffsets.iterations DEBUG c CtxId s Offsets set
      GetDynamicBufferOffsets.body DEBUG c CtxId s set OffsetInd Offsets'

/-- `ShaderResourceCacheVk::GetDynamicBufferOffsets`: the return value and the caller's
vector after the call.  `DEBUG` tells whether the build defines `_DEBUG`. -/
def GetDynamicBufferOffsets (DEBUG : Bool) (c : ShaderResourceCacheVk) (CtxId : Nat)
    (Offsets : List Nat) (s : State) : Result (Nat × List Nat) :=
  GetDynamicBufferOffsets.iterations DEBUG c CtxId s Offsets c.m_NumSets

/-! ## The buffer descriptor writers -/

/-- Modelled from the spec: the bind flag of a buffer created for use as a uniform
buffer.  The enumeration `BIND_FLAGS` is declared in a header outside `src`; only the
fact that it is a single non-zero bit is used. -/
def BIND_UNIFORM_BUFFER : Nat := 0x4

/-- Modelled from the spec: the bind flag of a buffer created for unordered access,
declared with `BIND_FLAGS` in a header outside `src`. -/
def BIND_UNORDERED_ACCESS : Nat := 0x80

structure VkDescriptorBufferInfo where
  buffer : Nat
  offset : Nat
  range : Nat
  deriving DecidableEq, Repr

/-- `ShaderResourceCacheVk::Resource::GetUniformBufferDescriptorWriteInfo`. -/
def Resource.GetUniformBufferDescriptorWriteInfo (Res : Resource) (s : State) :
    Result VkDescriptorBufferInfo := do
  VERIFY (Res.Type_ = .UniformBuffer) "Uniform buffer resource is expected" s
  let pBuffVk ← derefBuffer Res.pObject s
  VERIFY ((s.Buffers pBuffVk).BindFlags &&& BIND_UNIFORM_BUFFER ≠ 0)
    "(pBuffVk->GetDesc().BindFlags & BIND_UNIFORM_BUFFER) != 0" s
  pure { buffer := (s.Buffers pBuffVk).VkBuffer
         offset := 0
         range := (s.Buffers pBuffVk).uiSizeInBytes }

/-- `ShaderResourceCacheVk::Resource::GetStorageBufferDescriptorWriteInfo`. -/
def Resource.GetStorageBufferDescriptorWriteInfo (Res : Resource) (s : State) :
    Result VkDescriptorBufferInfo := do
  VERIFY (Res.Type_ = .StorageBuffer) "Storage buffer resource is expected" s
  let pBuffViewVk ← derefBufferView Res.pObject s
  VERIFY (pBuffViewVk.ViewType = .BUFFER_VIEW_UNORDERED_ACCESS)
    "pBuffViewVk->GetDesc().ViewType == BUFFER_VIEW_UNORDERED_ACCESS" s
  let pBuffVk := pBuffViewVk.pBuffer
  VERIFY ((s.Buffers pBuffVk).BindFlags &&& BIND_UNORDERED_ACCESS ≠ 0)
    "(pBuffVk->GetDesc().BindFlags & BIND_UNORDERED_ACCESS) != 0" s
  pure { buffer := (s.Buffers pBuffVk).VkBuffer
         offset := 0
         range := (s.Buffers pBuffVk).uiSizeInBytes }

/-! ## Sets, canonical ordering and the layout as the specification words them -/

/-- The content of slot `j` of set `set`, read through the set header. -/
def ShaderResourceCacheVk.setSlot (c : ShaderResourceCacheVk) (set j : Nat) :
    Option (Option Resource) :=
  match c.GetDescriptorSet set with
  | .ok d =>
    match d.resourceIndex j with
    | .ok i => c.GetFirstResourcePtr[i]?
    | .error _ => none
  | .error _ => none

/-- The cache consists of the sets `sets`: it has that many sets, set `i` has the size
of `sets[i]` and its slots are constructed and hold the resources of `sets[i]`. -/
def ShaderResourceCacheVk.HasSets (c : ShaderResourceCacheVk) (sets : List (List Resource)) :
    Prop :=
  c.m_NumSets = sets.length ∧
  ∀ i < sets.length,
    (c.GetDescriptorSet i).toOption.map DescriptorSet.m_NumResources
      = some (sets.getD i []).length ∧
    ∀ j < (sets.getD i []).length, c.setSlot i j = ((sets.getD i [])[j]?).map some

instance (c : ShaderResourceCacheVk) (sets : List (List Resource)) : Decidable (c.HasSets sets) :=
  inferInstanceAs (Decidable (_ ∧ _))

/-- The rank of section 3: `UniformBuffer < StorageBuffer <` every other type. -/
def ResourceType.rank : ResourceType → Nat
  | .UniformBuffer => 0
  | .StorageBuffer => 1
  | _ => 2

/-- Canonical ordering of one set: the slot-type sequence is non-decreasing in rank. -/
def CanonicalOrder (L : List Resource) : Prop :=
  L.Pairwise (fun a b => a.Type_.rank ≤ b.Type_.rank)

instance (L : List Resource) : Decidable (CanonicalOrder L) :=
  inferInstanceAs (Decidable (L.Pairwise _))

/-- The slot bears a dynamic offset. -/
def Resource.isDynamic (r : Resource) : Bool :=
  r.Type_ = .UniformBuffer ∨ r.Type_ = .StorageBuffer

/-- Section 4.4: the dynamic slots enumerated set-major, then uniform buffers before
storage buffers, then by ascending slot index. -/
def specDynamicSlots (sets : List (List Resource)) : List Resource :=
  sets.flatMap (fun L =>
    L.filter (fun r => r.Type_ = .UniformBuffer) ++ L.filter (fun r => r.Type_ = .StorageBuffer))

/-- The per-context dynamic offset of the buffer behind a slot (for a storage slot, the
buffer underlying the bound view). -/
def Resource.dynamicOffset (s : State) (CtxId : Nat) (r : Resource) : Nat :=
  match r.buffer? with
  | some b => (s.Buffers b).DynamicOffset CtxId
  | none => 0

def specDynamicOffsets (s : State) (CtxId : Nat) (sets : List (List Resource)) : List Nat :=
  (specDynamicSlots sets).map (Resource.dynamicOffset s CtxId)

/-- The total count of `UniformBuffer` plus `StorageBuffer` slots across all sets. -/
def specDynamicCount (sets : List (List Resource)) : Nat :=
  (sets.map (fun L => L.countP (fun r => r.Type_ = .UniformBuffer)
    + L.countP (fun r => r.Type_ = .StorageBuffer))).sum

/-- The headers of the layout of section 3: set `i` has `SetSizes[i]` slots starting at
slot `sum(SetSizes[0..i-1])` of the block. -/
def specHeaders (SetSizes : List Nat) : List DescriptorSet :=
  (List.range SetSizes.length).map (fun i =>
    { m_NumResources := SetSizes.getD i 0
      m_pResources := if SetSizes.getD i 0 > 0 then some (SetSizes.take i).sum else none })

/-- The cache has the layout of section 3 for the set sizes `SetSizes`: the headers are
those of the layout and the block ends where the last slice ends. -/
def ShaderResourceCacheVk.HasLayout (c : ShaderResourceCacheVk) (SetSizes : List Nat) : Prop :=
  c.m_NumSets = SetSizes.length ∧
  c.m_TotalResources = SetSizes.sum ∧
  (c.m_pMemory.map MemoryBlock.Sets).getD [] = specHeaders SetSizes ∧
  c.GetFirstResourcePtr.length = SetSizes.sum ∧
  ∀ n ∈ SetSizes, n < 2 ^ 32

instance (c : ShaderResourceCacheVk) (SetSizes : List Nat) : Decidable (c.HasLayout SetSizes) :=
  inferInstanceAs (Decidable (_ ∧ _))

/-- One call of `InitializeResources`. -/
structure InitCall where
  Set : Nat
  Offset : Nat
  ArraySize : Nat
  Type_ : ResourceType
  deriving DecidableEq, Repr

/-- The call constructs slot `j` of set `set`. -/
def InitCall.covers (a : InitCall) (set j : Nat) : Prop :=
  a.Set = set ∧ a.Offset ≤ j ∧ j < a.Offset + a.ArraySize

instance (a : InitCall) (set j : Nat) : Decidable (a.covers set j) :=
  inferInstanceAs (Decidable (_ ∧ _))

/-- A sequence of calls of `InitializeResources`, in order. -/
def InitializeResourcesAll (c : ShaderResourceCacheVk) :
    List InitCall → Except Fault ShaderResourceCacheVk
  | [] => pure c
  | a :: rest => do
      let c' ← InitializeResources c a.Set a.Offset a.ArraySize a.Type_
      InitializeResourcesAll c' rest

/-! ## More concrete caches and states -/

/-- A fully bound cache of one set that is not canonically ordered. -/
def nonCanonicalCache : ShaderResourceCacheVk :=
  cacheOfSlots [⟨.SampledImage, some (.textureView exampleSRView)⟩,
                ⟨.UniformBuffer, some (.buffer 0)⟩]

/-- A store in which buffer 0 has dynamic offset 256 for context 0 and every other
dynamic offset is 0. -/
def offsetState : State :=
  { exampleState with
    Buffers := fun i =>
      { exampleBuffer with
        BindFlags := BIND_UNIFORM_BUFFER ||| BIND_UNORDERED_ACCESS
        DynamicOffset := fun CtxId => if i = 0 ∧ CtxId = 0 then 256 else 0 } }

/-- The store with the per-context dynamic offset of every buffer replaced by `f`. -/
def State.withDynamicOffsets (s : State) (f : Nat → Nat → Nat) : State :=
  { s with Buffers := fun i => { s.Buffers i with DynamicOffset := f i } }

/-- The slots of a set the two `while` loops of `GetDynamicBufferOffsets` collect an
offset for: the leading run of `UniformBuffer` slots, then the run of `StorageBuffer`
slots that follows it. -/
def leadingDynamicSlots (L : List Resource) : List Resource :=
  L.takeWhile (fun r => r.Type_ = .UniformBuffer)
    ++ (L.dropWhile (fun r => r.Type_ = .UniformBuffer)).takeWhile
        (fun r => r.Type_ = .StorageBuffer)

/-- The slots of a set that are left when the two loops have stopped. -/
def trailingSlots (L : List Resource) : List Resource :=
  (L.dropWhile (fun r => r.Type_ = .UniformBuffer)).dropWhile
    (fun r => r.Type_ = .StorageBuffer)

/-- Two caches with the same members, the same set headers and as many slots. -/
def SameHeaders (c' c : ShaderResourceCacheVk) : Prop :=
  c'.m_pAllocator = c.m_pAllocator ∧ c'.m_NumSets = c.m_NumSets ∧
  c'.m_TotalResources = c.m_TotalResources ∧
  c'.m_pMemory.map MemoryBlock.Sets = c.m_pMemory.map MemoryBlock.Sets ∧
  c'.GetFirstResourcePtr.length = c.GetFirstResourcePtr.length

instance (c' c : ShaderResourceCacheVk) : Decidable (SameHeaders c' c) :=
  inferInstanceAs (Decidable (_ ∧ _))

/-- The resources found in the slots of the sets of sizes `sizes`, read through the set
headers (a slot that is not constructed reads as an empty `UniformBuffer` slot). -/
def ShaderResourceCacheVk.readSets (c : ShaderResourceCacheVk) (sizes : List Nat) :
    List (List Resource) :=
  (List.range sizes.length).map (fun i =>
    (List.range (sizes.getD i 0)).map (fun j =>
      match c.setSlot i j with
      | some (some r) => r
      | _ => ⟨.UniformBuffer, none⟩))


/-! ## The remaining descriptor writers -/

/-- The cast-and-dereference `pObject.RawPtr<const SamplerVkImpl>()->...`. -/
def derefSampler (p : Option DeviceObject) (s : State) : Result SamplerVkImpl :=
  match p with
  | none => .error (.nullDereference, s)
  | some (.sampler sm) => .ok sm
  | some _ => .error (.invalidCast, s)

/-- `ShaderResourceCacheVk::Resource::GetBufferViewWriteInfo`: the `VkBufferView`
handle of the bound view. -/
def Resource.GetBufferViewWriteInfo (Res : Resource) (s : State) : Result Nat := do
  VERIFY (Res.Type_ = .UniformTexelBuffer ∨ Res.Type_ = .StorageTexelBuffer)
    "Uniform or storage buffer resource is expected" s
  let pBuffViewVk ← derefBufferView Res.pObject s
  pure pBuffViewVk.VkBufferView

/-- `ShaderResourceCacheVk::Resource::GetSamplerDescriptorWriteInfo`. -/
def Resource.GetSamplerDescriptorWriteInfo (Res : Resource) (s : State) :
    Result VkDescriptorImageInfo := do
  VERIFY (Res.Type_ = .SeparateSampler) "Separate sampler resource is expected" s
  let pSamplerVk ← derefSampler Res.pObject s
  pure { sampler := pSamplerVk.VkSampler
         imageView := VK_NULL_HANDLE
         imageLayout := VK_IMAGE_LAYOUT_UNDEFINED }

/-- What a call returned, or the fault it stopped at, without the state. -/
def Result.outcome {α : Type} : Result α → Except Fault α
  | .ok a => .ok a
  | .error (f, _) => .error f

/-- Two stores hold the same objects up to their access state: every buffer agrees in
everything but its access flags and every texture in everything but its layout. -/
def State.SameObjects (s t : State) : Prop :=
  (∀ i, { s.Buffers i with m_AccessFlags := 0 } = { t.Buffers i with m_AccessFlags := 0 }) ∧
  (∀ i, { s.Textures i with m_Layout := 0 } = { t.Textures i with m_Layout := 0 })

/-! ## Destruction of the cache -/

/-- What the destructor of the cache does, in order: the destructor call on a slot, the
destructor call on a set header, the release of the block through the allocator. -/
inductive Finalization
  | Resource (res : Nat)
  | DescriptorSet (t : Nat)
  | Free (allocator : Nat)
  deriving DecidableEq, Repr

/-- The slot read at `pResources[res]` lies in the block and has been constructed. -/
def slotConstructed : Option (Option Resource) → Bool
  | some (some _) => true
  | _ => false

/-- The loop `for (res = 0; res < m_TotalResources; ++res) pResources[res].~Resource()`:
the destructor calls made by the first `n` iterations.  Running the destructor of a slot
that was never constructed is a fault. -/
def ShaderResourceCacheVk.destructor.resources (c : ShaderResourceCacheVk) :
    Nat → Except Fault (List Finalization)
  | 0 => pure []
  | res + 1 => do
      let done ← ShaderResourceCacheVk.destructor.resources c res
      match c.slot res with
      | none => throw .outOfBounds
      | some none => throw .uninitializedSlot
      | some (some _) => pure (done ++ [.Resource res])

/-- The loop `for (t = 0; t < m_NumSets; ++t) GetDescriptorSet(t).~DescriptorSet()`: the
destructor calls made by the first `n` iterations. -/
def ShaderResourceCacheVk.destructor.sets (c : ShaderResourceCacheVk) :
    Nat → Except Fault (List Finalization)
  | 0 => pure []
  | t + 1 => do
      let done ← ShaderResourceCacheVk.destructor.sets c t
      let _ ← c.GetDescriptorSet t
      pure (done ++ [.DescriptorSet t])

/-- `ShaderResourceCacheVk::~ShaderResourceCacheVk`: the finalizations it performs,
oldest first. -/
def ShaderResourceCacheVk.destructor (c : ShaderResourceCacheVk) :
    Except Fault (List Finalization) :=
  match c.m_pMemory with
  | none => pure []
  | some _ => do
      let resources ← ShaderResourceCacheVk.destructor.resources c c.m_TotalResources
      let sets ← ShaderResourceCacheVk.destructor.sets c c.m_NumSets
      match c.m_pAllocator with
      | none => throw .nullDereference
      | some allocator => pure (resources ++ sets ++ [.Free allocator])

/-! ## Formatting of memory sizes (`Primitives/interface/FormatMessage.h`) -/

/-- The argument of the `FormatMsg` overload, `MemorySizeFormatter<Type>` for an
unsigned integer `Type`. -/
structure MemorySizeFormatter where
  size : Nat
  precision : Nat
  ref_size : Nat
  deriving DecidableEq, Repr

/-- `FormatMemorySize(_size, _precision = 0, _ref_size = 0)`. -/
def FormatMemorySize (size : Nat) (precision : Nat) (ref_size : Nat) : MemorySizeFormatter :=
  { size := size, precision := precision, ref_size := ref_size }

/-- `FormatMsg(SSType& ss, const MemorySizeFormatter<Type>& Arg)`: the content of the
stream after the call.  The three branches that print a quotient print a `double` in
fixed notation; `fixed precision size unit` stands for the text
`std::fixed << std::setprecision(precision) << double(size) / double(unit)` and is a
parameter. -/
def FormatMsg (fixed : Nat → Nat → Nat → String) (ss : String) (Arg : MemorySizeFormatter) :
    String :=
  let ref_size := if Arg.ref_size ≠ 0 then Arg.ref_size else Arg.size
  if ref_size ≥ 1 <<< 30 then
    ss ++ fixed Arg.precision Arg.size (1 <<< 30) ++ " GB"
  else if ref_size ≥ 1 <<< 20 then
    ss ++ fixed Arg.precision Arg.size (1 <<< 20) ++ " MB"
  else if ref_size ≥ 1 <<< 10 then
    ss ++ fixed Arg.precision Arg.size (1 <<< 10) ++ " KB"
  else
    ss ++ toString Arg.size ++ (if Arg.size > 1 then " Byte" else " Bytes")

/-! ## Sharing of objects between slots -/

/-- Two slots reach one object: the buffers behind them, or the textures behind them,
are the same. -/
def Resource.shares (r r' : Resource) : Bool :=
  (r.buffer?.isSome && r.buffer? == r'.buffer?) ||
  (r.texture?.isSome && r.texture? == r'.texture?)

def slotShares : Option (Option Resource) → Option (Option Resource) → Bool
  | some (some r), some (some r') => r.shares r'
  | _, _ => false

/-- No buffer and no texture is reachable from more than one visited slot. -/
def ShaderResourceCacheVk.Unshared (c : ShaderResourceCacheVk) : Prop :=
  ∀ i < c.m_TotalResources, ∀ j < c.m_TotalResources, i ≠ j →
    slotShares (c.slot i) (c.slot j) = false

instance (c : ShaderResourceCacheVk) : Decidable c.Unshared :=
  inferInstanceAs (Decidable (∀ i < c.m_TotalResources, ∀ j < c.m_TotalResources, i ≠ j →
    slotShares (c.slot i) (c.slot j) = false))

/-! ## The reflection consumer of the Direct3D 12 backend
(`Graphics/GraphicsEngineD3D12/src/ShaderResourcesD3D12.cpp`) -/

/-- Modelled from the spec: a reflected resource as the consumer receives and stores it
(`D3DShaderResourceAttribs`, declared outside `src`): its name and the identifier of the
sampler assigned to it. -/
structure D3DShaderResourceAttribs where
  Name : String
  SamplerId : Nat
  deriving DecidableEq, Repr

/-- The six categories of resources the consumer keeps. -/
inductive ResourceCategory
  | CB
  | TexSRV
  | TexUAV
  | BufSRV
  | BufUAV
  | Sampler
  deriving DecidableEq, Repr

/-- What the consumer uses of code outside `src` without fixing it: the number of bytes
of the name pool the copy of a name takes (`StringPool`), and the search for the sampler
assigned to a texture among the samplers stored so far
(`ShaderResources::FindAssignedSamplerId`). -/
structure ReflectionParams where
  CopyStringSize : String → Nat
  FindAssignedSamplerId : List (Option D3DShaderResourceAttribs) → D3DShaderResourceAttribs → Nat

/-- The object under construction.  `NumResources`, `Attribs` and `NamesRemainingSize`
are the state of the base class `ShaderResources` (the counts declared up front, the
storage of each category, a record that is not constructed yet being `none`, and
`m_ResourceNames.GetRemainingSize()`); `Curr` holds the six counters `CurrCB`,
`CurrTexSRV`, `CurrTexUAV`, `CurrBufSRV`, `CurrBufUAV`, `CurrSampler` of the
constructor. -/
structure ShaderResourcesD3D12 where
  NumResources : ResourceCategory → Nat
  Attribs : ResourceCategory → List (Option D3DShaderResourceAttribs)
  NamesRemainingSize : Nat
  Curr : ResourceCategory → Nat

def ShaderResourcesD3D12.GetNumCBs (st : ShaderResourcesD3D12) : Nat := st.NumResources .CB
def ShaderResourcesD3D12.GetNumTexSRV (st : ShaderResourcesD3D12) : Nat := st.NumResources .TexSRV
def ShaderResourcesD3D12.GetNumTexUAV (st : ShaderResourcesD3D12) : Nat := st.NumResources .TexUAV
def ShaderResourcesD3D12.GetNumBufSRV (st : ShaderResourcesD3D12) : Nat := st.NumResources .BufSRV
def ShaderResourcesD3D12.GetNumBufUAV (st : ShaderResourcesD3D12) : Nat := st.NumResources .BufUAV
def ShaderResourcesD3D12.GetNumSamplers (st : ShaderResourcesD3D12) : Nat :=
  st.NumResources .Sampler

/-- Modelled from the spec: the first callback, which forwards the counts and the byte
budget for name storage to `ShaderResources::Initialize` (defined outside `src`); the
six counters of the constructor start at 0. -/
def ShaderResourcesD3D12.Initialize
    (NumCBs NumTexSRVs NumTexUAVs NumBufSRVs NumBufUAVs NumSamplers ResourceNamesPoolSize : Nat) :
    ShaderResourcesD3D12 :=
  { NumResources := fun
      | .CB => NumCBs
      | .TexSRV => NumTexSRVs
      | .TexUAV => NumTexUAVs
      | .BufSRV => NumBufSRVs
      | .BufUAV => NumBufUAVs
      | .Sampler => NumSamplers
    Attribs := fun
      | .CB => List.replicate NumCBs none
      | .TexSRV => List.replicate NumTexSRVs none
      | .TexUAV => List.replicate NumTexUAVs none
      | .BufSRV => List.replicate NumBufSRVs none
      | .BufUAV => List.replicate NumBufUAVs none
      | .Sampler => List.replicate NumSamplers none
    NamesRemainingSize := ResourceNamesPoolSize
    Curr := fun _ => 0 }

/-- Modelled from the spec: the accessors `GetCB(n)`, `GetTexSRV(n)`, ... of the base
class (defined outside `src`): the position of record `n` of the category, an index that
is not below the declared count being a fault. -/
def ShaderResourcesD3D12.GetResAttribs (st : ShaderResourcesD3D12) (k : ResourceCategory)
    (n : Nat) : Except Fault Nat :=
  if n < st.NumResources k then pure n else throw .outOfBounds

/-- Modelled from the spec: the placement construction
`new (p) D3DShaderResourceAttribs(m_ResourceNames, rhs, SamplerId)` (the constructor is
defined outside `src`): the name is copied into the name pool, which must have room for
it, and the record is stored at position `p` of the category. -/
def ShaderResourcesD3D12.construct (P : ReflectionParams) (st : ShaderResourcesD3D12)
    (k : ResourceCategory) (p : Nat) (rhs : D3DShaderResourceAttribs) (SamplerId : Nat) :
    Except Fault ShaderResourcesD3D12 :=
  if P.CopyStringSize rhs.Name ≤ st.NamesRemainingSize then
    pure { st with
      Attribs := Function.update st.Attribs k
        ((st.Attribs k).set p (some { Name := rhs.Name, SamplerId := SamplerId }))
      NamesRemainingSize := st.NamesRemainingSize - P.CopyStringSize rhs.Name }
  else throw .outOfBounds

/-- The statement `new (&GetX(CurrX++)) D3DShaderResourceAttribs(m_ResourceNames, A, Id)`
shared by the six resource callbacks; `CurrX` is a `Uint32`. -/
def ShaderResourcesD3D12.placeNext (P : ReflectionParams) (st : ShaderResourcesD3D12)
    (k : ResourceCategory) (A : D3DShaderResourceAttribs) (SamplerId : Nat) :
    Except Fault ShaderResourcesD3D12 := do
  let p ← st.GetResAttribs k (st.Curr k)
  let st' := { st with Curr := Function.update st.Curr k ((st.Curr k + 1) % 2 ^ 32) }
  st'.construct P k p A SamplerId

/-- The callback for a constant buffer (lines 49-52). -/
def ShaderResourcesD3D12.OnNewCB (P : ReflectionParams) (st : ShaderResourcesD3D12)
    (CBAttribs : D3DShaderResourceAttribs) : Except Fault ShaderResourcesD3D12 :=
  st.placeNext P .CB CBAttribs CBAttribs.SamplerId

/-- The callback for a texture UAV (lines 54-57). -/
def ShaderResourcesD3D12.OnNewTexUAV (P : ReflectionParams) (st : ShaderResourcesD3D12)
    (TexUAV : D3DShaderResourceAttribs) : Except Fault ShaderResourcesD3D12 :=
  st.placeNext P .TexUAV TexUAV TexUAV.SamplerId

/-- The callback for a buffer UAV (lines 59-62). -/
def ShaderResourcesD3D12.OnNewBuffUAV (P : ReflectionParams) (st : ShaderResourcesD3D12)
    (BuffUAV : D3DShaderResourceAttribs) : Except Fault ShaderResourcesD3D12 :=
  st.placeNext P .BufUAV BuffUAV BuffUAV.SamplerId

/-- The callback for a buffer SRV (lines 64-67). -/
def ShaderResourcesD3D12.OnNewBuffSRV (P : ReflectionParams) (st : ShaderResourcesD3D12)
    (BuffSRV : D3DShaderResourceAttribs) : Except Fault ShaderResourcesD3D12 :=
  st.placeNext P .BufSRV BuffSRV BuffSRV.SamplerId

/-- The callback for a sampler (lines 69-72). -/
def ShaderResourcesD3D12.OnNewSampler (P : ReflectionParams) (st : ShaderResourcesD3D12)
    (SamplerAttribs : D3DShaderResourceAttribs) : Except Fault ShaderResourcesD3D12 :=
  st.placeNext P .Sampler SamplerAttribs SamplerAttribs.SamplerId

/-- The check at the start of the callback for a texture SRV (line 76). -/
def ShaderResourcesD3D12.samplersInitialized (st : ShaderResourcesD3D12) : Except Fault Unit :=
  VERIFY_EXPR (st.Curr .Sampler = st.GetNumSamplers)
    "All samplers must be initialized before texture SRVs"

/-- The callback for a texture SRV (lines 74-80). -/
def ShaderResourcesD3D12.OnNewTexSRV (P : ReflectionParams) (st : ShaderResourcesD3D12)
    (TexAttribs : D3DShaderResourceAttribs) : Except Fault ShaderResourcesD3D12 := do
  st.samplersInitialized
  let SamplerId := P.FindAssignedSamplerId (st.Attribs .Sampler) TexAttribs
  st.placeNext P .TexSRV TexAttribs SamplerId

/-- One resource streamed by the reflection, tagged with the callback it is passed to. -/
inductive ReflectedResource
  | CB (Attribs : D3DShaderResourceAttribs)
  | TexUAV (Attribs : D3DShaderResourceAttribs)
  | BufUAV (Attribs : D3DShaderResourceAttribs)
  | BufSRV (Attribs : D3DShaderResourceAttribs)
  | Sampler (Attribs : D3DShaderResourceAttribs)
  | TexSRV (Attribs : D3DShaderResourceAttribs)
  deriving DecidableEq, Repr

def ReflectedResource.category : ReflectedResource → ResourceCategory
  | .CB _ => .CB
  | .TexUAV _ => .TexUAV
  | .BufUAV _ => .BufUAV
  | .BufSRV _ => .BufSRV
  | .Sampler _ => .Sampler
  | .TexSRV _ => .TexSRV

def ReflectedResource.Attribs : ReflectedResource → D3DShaderResourceAttribs
  | .CB a => a
  | .TexUAV a => a
  | .BufUAV a => a
  | .BufSRV a => a
  | .Sampler a => a
  | .TexSRV a => a

/-- The call of the callback that belongs to a streamed resource. -/
def ShaderResourcesD3D12.OnNewResource (P : ReflectionParams) (st : ShaderResourcesD3D12) :
    ReflectedResource → Except Fault ShaderResourcesD3D12
  | .CB a => st.OnNewCB P a
  | .TexUAV a => st.OnNewTexUAV P a
  | .BufUAV a => st.OnNewBuffUAV P a
  | .BufSRV a => st.OnNewBuffSRV P a
  | .Sampler a => st.OnNewSampler P a
  | .TexSRV a => st.OnNewTexSRV P a

/-- Modelled from the spec: the part of `LoadD3DShaderResources` (defined outside `src`)
that follows the report of the counts: one callback per resource, in the order of the
stream. -/
def ShaderResourcesD3D12.stream (P : ReflectionParams) (st : ShaderResourcesD3D12) :
    List ReflectedResource → Except Fault ShaderResourcesD3D12
  | [] => pure st
  | r :: rest => do
      let st' ← st.OnNewResource P r
      ShaderResourcesD3D12.stream P st' rest

/-- The checks at the end of the constructor (lines 85-91). -/
def ShaderResourcesD3D12.finalChecks (st : ShaderResourcesD3D12) : Except Fault Unit := do
  VERIFY_EXPR (st.NamesRemainingSize = 0) "m_ResourceNames.GetRemainingSize() == 0"
  VERIFY_EXPR (st.Curr .CB = st.GetNumCBs)
    "Not all CBs are initialized, which will result in a crash when ~D3DShaderResourceAttribs() is called"
  VERIFY_EXPR (st.Curr .TexSRV = st.GetNumTexSRV)
    "Not all Tex SRVs are initialized, which will result in a crash when ~D3DShaderResourceAttribs() is called"
  VERIFY_EXPR (st.Curr .TexUAV = st.GetNumTexUAV)
    "Not all Tex UAVs are initialized, which will result in a crash when ~D3DShaderResourceAttribs() is called"
  VERIFY_EXPR (st.Curr .BufSRV = st.GetNumBufSRV)
    "Not all Buf SRVs are initialized, which will result in a crash when ~D3DShaderResourceAttribs() is called"
  VERIFY_EXPR (st.Curr .BufUAV = st.GetNumBufUAV)
    "Not all Buf UAVs are initialized, which will result in a crash when ~D3DShaderResourceAttribs() is called"
  VERIFY_EXPR (st.Curr .Sampler = st.GetNumSamplers)
    "Not all Samplers are initialized, which will result in a crash when ~D3DShaderResourceAttribs() is called"

/-- `ShaderResourcesD3D12::ShaderResourcesD3D12`: the counts are reported, the resources
are streamed, the final checks are made. -/
def ShaderResourcesD3D12.constructor (P : ReflectionParams)
    (NumCBs NumTexSRVs NumTexUAVs NumBufSRVs NumBufUAVs NumSamplers ResourceNamesPoolSize : Nat)
    (resources : List ReflectedResource) : Except Fault ShaderResourcesD3D12 := do
  let st ← ShaderResourcesD3D12.stream P
    (ShaderResourcesD3D12.Initialize NumCBs NumTexSRVs NumTexUAVs NumBufSRVs NumBufUAVs
      NumSamplers ResourceNamesPoolSize) resources
  st.finalChecks
  pure st

/-- The number of streamed resources of a category. -/
def streamedCount (k : ResourceCategory) (resources : List ReflectedResource) : Nat :=
  resources.countP (fun r => r.category = k)

/-- The bytes of the name pool the names of the streamed resources take. -/
def streamedNameBytes (P : ReflectionParams) (resources : List ReflectedResource) : Nat :=
  (resources.map (fun r => P.CopyStringSize r.Attribs.Name)).sum

/-- Parameters for the examples: a name takes its length and a terminator; no sampler is
assigned. -/
def exampleParams : ReflectionParams :=
  { CopyStringSize := fun n => n.length + 1, FindAssignedSamplerId := fun _ _ => 0 }

/-- The state in which streaming `resources` after the report of the counts ends (the
start state when it stops at a fault). -/
def streamedState (P : ReflectionParams)
    (NumCBs NumTexSRVs NumTexUAVs NumBufSRVs NumBufUAVs NumSamplers ResourceNamesPoolSize : Nat)
    (resources : List ReflectedResource) : ShaderResourcesD3D12 :=
  match ShaderResourcesD3D12.stream P
    (ShaderResourcesD3D12.Initialize NumCBs NumTexSRVs NumTexUAVs NumBufSRVs NumBufUAVs
      NumSamplers ResourceNamesPoolSize) resources with
  | .ok st => st
  | .error _ =>
      ShaderResourcesD3D12.Initialize NumCBs NumTexSRVs NumTexUAVs NumBufSRVs NumBufUAVs
        NumSamplers ResourceNamesPoolSize

/-! ## The loop body against the specification table -/

theorem body_ready (VerifyOnly : Bool) (r : Resource) (s : State) (h : r.Ready = true) :
    TransitionResources.body VerifyOnly (some (some r)) s
      = .ok (specStep VerifyOnly s (specRequirement s r)) := by
  obtain ⟨t, p⟩ := r
  cases t <;> rcases p with _ | (b | v | v | sm) <;>
    simp_all [Resource.Ready, TransitionResources.body, specStep, specRequirement, derefBuffer,
      derefBufferView, derefTextureView, bind, Except.bind, pure, Except.pure] <;>
    split_ifs <;> simp_all

theorem body_not_ready (VerifyOnly : Bool) (slot : Option (Option Resource)) (s : State)
    (h : slotReady slot = false) :
    ∃ f, TransitionResources.body VerifyOnly slot s = .error (f, s) := by
  rcases slot with _ | _ | ⟨t, p⟩
  · exact ⟨_, rfl⟩
  · exact ⟨_, rfl⟩
  · cases t <;> rcases p with _ | (b | v | v | sm) <;>
      simp_all [slotReady, Resource.Ready, TransitionResources.body, derefBuffer,
        derefBufferView, derefTextureView, bind, Except.bind, pure, Except.pure]

/-- Either the slot is ready and the body performs the step of the specification, or
the body stops at a fault without touching the state. -/
theorem body_cases (VerifyOnly : Bool) (slot : Option (Option Resource)) (s : State) :
    (∃ r, slot = some (some r) ∧ r.Ready = true ∧
        TransitionResources.body VerifyOnly slot s
          = .ok (specStep VerifyOnly s (specRequirement s r))) ∨
    (slotReady slot = false ∧ ∃ f, TransitionResources.body VerifyOnly slot s = .error (f, s)) := by
  cases h : slotReady slot
  · exact Or.inr ⟨rfl, body_not_ready VerifyOnly slot s h⟩
  · rcases slot with _ | _ | r
    · simp [slotReady] at h
    · simp [slotReady] at h
    · exact Or.inl ⟨r, rfl, h, body_ready VerifyOnly r s h⟩

theorem requirement_ready (s : State) (r : Resource) (h : specRequirement s r ≠ .nothing) :
    r.Ready = true := by
  obtain ⟨t, p⟩ := r
  cases t <;> rcases p with _ | (b | v | v | sm) <;>
    simp_all [Resource.Ready, specRequirement]

theorem specRequirement_congr (s t : State) (r : Resource) (h : s.Textures = t.Textures) :
    specRequirement s r = specRequirement t r := by
  obtain ⟨ty, p⟩ := r
  cases ty <;> rcases p with _ | (b | v | v | sm) <;> simp [specRequirement, h]

theorem specRequirement_of_BindFlags (s t : State) (r : Resource)
    (h : ∀ i, (s.Textures i).BindFlags = (t.Textures i).BindFlags) :
    specRequirement s r = specRequirement t r := by
  obtain ⟨ty, p⟩ := r
  cases ty <;> rcases p with _ | (b | v | v | sm) <;> simp [specRequirement, h]

/-! ## Properties of one step -/

theorem specStep_of_holds (VerifyOnly : Bool) (s : State) (q : Requirement)
    (h : q.holds s = true) : specStep VerifyOnly s q = s := by
  cases q <;> simp_all [specStep, Requirement.holds]

theorem specStep_verify_frame (s : State) (q : Requirement) :
    (specStep true s q).Buffers = s.Buffers ∧ (specStep true s q).Textures = s.Textures ∧
      (specStep true s q).Requests = s.Requests := by
  cases q <;> simp [specStep, LOG_ERROR_MESSAGE] <;> split_ifs <;> simp

theorem specStep_apply_log (s : State) (q : Requirement) :
    (specStep false s q).Log = s.Log := by
  cases q <;> simp [specStep, BufferMemoryBarrier, TransitionImageLayout] <;>
    split_ifs <;> simp

theorem specStep_BindFlags (VerifyOnly : Bool) (s : State) (q : Requirement) (i : Nat) :
    ((specStep VerifyOnly s q).Textures i).BindFlags = (s.Textures i).BindFlags := by
  cases q with
  | nothing => rfl
  | access b m =>
    simp only [specStep, BufferMemoryBarrier, LOG_ERROR_MESSAGE]
    split_ifs <;> rfl
  | layout t l =>
    simp only [specStep, TransitionImageLayout, LOG_ERROR_MESSAGE]
    split_ifs with h1 h2
    · rfl
    · rfl
    · by_cases hi : i = t <;> simp [hi]

/-! ## Unfolding the loop -/

theorem iterations_succ (VerifyOnly : Bool) (c : ShaderResourceCacheVk) (n : Nat) (s : State) :
    TransitionResources.iterations VerifyOnly c (n + 1) s =
      (match TransitionResources.iterations VerifyOnly c n s with
       | .ok s' => TransitionResources.body VerifyOnly (c.slot n) s'
       | .error e => .error e) := by
  simp only [TransitionResources.iterations, bind, Except.bind]
  cases TransitionResources.iterations VerifyOnly c n s <;> rfl

theorem iterations_succ_of_ok (VerifyOnly : Bool) (c : ShaderResourceCacheVk) (n : Nat)
    (s s' : State) (h : TransitionResources.iterations VerifyOnly c n s = .ok s') :
    TransitionResources.iterations VerifyOnly c (n + 1) s =
      TransitionResources.body VerifyOnly (c.slot n) s' := by
  rw [iterations_succ, h]

theorem iterations_succ_of_error (VerifyOnly : Bool) (c : ShaderResourceCacheVk) (n : Nat)
    (s : State) (e : Fault × State)
    (h : TransitionResources.iterations VerifyOnly c n s = .error e) :
    TransitionResources.iterations VerifyOnly c (n + 1) s = .error e := by
  rw [iterations_succ, h]

/-- A relation to the starting state that every step preserves holds of the state in
which the loop ends, whether it completes or stops at a fault. -/
theorem iterations_invariant (VerifyOnly : Bool) (c : ShaderResourceCacheVk) (s : State)
    (P : State → Prop) (h0 : P s)
    (hstep : ∀ s' q, P s' → P (specStep VerifyOnly s' q)) (n : Nat) :
    P (TransitionResources.iterations VerifyOnly c n s).state := by
  induction n with
  | zero => exact h0
  | succ n ih =>
    cases h : TransitionResources.iterations VerifyOnly c n s with
    | error e => rw [iterations_succ_of_error _ _ _ _ _ h]; rw [h] at ih; exact ih
    | ok s' =>
      rw [iterations_succ_of_ok _ _ _ _ _ h]
      rw [h] at ih
      rcases body_cases VerifyOnly (c.slot n) s' with ⟨r, _, _, hb⟩ | ⟨_, f, hb⟩
      · rw [hb]; exact hstep _ _ ih
      · rw [hb]; exact ih

/-! ## Verification runs from stores that agree on the objects -/

theorem body_fault_not_ready (VerifyOnly : Bool) (slot : Option (Option Resource))
    (h : slotReady slot = false) (s t : State) :
    (TransitionResources.body VerifyOnly slot s).fault
      = (TransitionResources.body VerifyOnly slot t).fault := by
  rcases slot with _ | _ | ⟨ty, p⟩
  · rfl
  · rfl
  · cases ty <;> rcases p with _ | (b | v | v | sm) <;>
      simp_all [slotReady, Resource.Ready, TransitionResources.body, derefBuffer,
        derefBufferView, derefTextureView, bind, Except.bind, pure, Except.pure, Result.fault]

theorem specStep_verify_log (s t : State) (q : Requirement) (hB : s.Buffers = t.Buffers)
    (hT : s.Textures = t.Textures) :
    ∃ d, (specStep true s q).Log = s.Log ++ d ∧ (specStep true t q).Log = t.Log ++ d := by
  cases q with
  | nothing => exact ⟨[], by simp [specStep], by simp [specStep]⟩
  | access b m =>
    by_cases h : (s.Buffers b).CheckAccessFlags m = true
    · exact ⟨[], by simp [specStep, h], by simp [specStep, ← hB, h]⟩
    · exact ⟨[.bufferState (s.Buffers b).Name m (s.Buffers b).m_AccessFlags],
        by simp [specStep, h, LOG_ERROR_MESSAGE], by simp [specStep, ← hB, h, LOG_ERROR_MESSAGE]⟩
  | layout x l =>
    by_cases h : (s.Textures x).m_Layout = l
    · exact ⟨[], by simp [specStep, h], by simp [specStep, ← hT, h]⟩
    · exact ⟨[.textureState (s.Textures x).Name l (s.Textures x).m_Layout],
        by simp [specStep, h, LOG_ERROR_MESSAGE], by simp [specStep, ← hT, h, LOG_ERROR_MESSAGE]⟩

theorem iterations_verify_frame (c : ShaderResourceCacheVk) (s : State) (n : Nat) :
    (TransitionResources.iterations true c n s).state.Buffers = s.Buffers ∧
    (TransitionResources.iterations true c n s).state.Textures = s.Textures ∧
    (TransitionResources.iterations true c n s).state.Requests = s.Requests :=
  iterations_invariant true c s
    (fun s' => s'.Buffers = s.Buffers ∧ s'.Textures = s.Textures ∧ s'.Requests = s.Requests)
    ⟨rfl, rfl, rfl⟩
    (fun s' q h => by
      obtain ⟨h1, h2, h3⟩ := specStep_verify_frame s' q
      exact ⟨h1.trans h.1, h2.trans h.2.1, h3.trans h.2.2⟩) n

theorem fault_eq_none_iff (r : Result State) : r.fault = none ↔ ∃ s, r = .ok s := by
  rcases r with ⟨f, s⟩ | s <;> simp [Result.fault]

/-- Two verification runs of the same cache from stores that agree on every buffer and
texture stop in the same way and write the same diagnostics. -/
theorem iterations_verify_agree (c : ShaderResourceCacheVk) (s t : State)
    (hB : s.Buffers = t.Buffers) (hT : s.Textures = t.Textures) (n : Nat) :
    (TransitionResources.iterations true c n s).fault
        = (TransitionResources.iterations true c n t).fault ∧
    ∃ D, (TransitionResources.iterations true c n s).state.Log = s.Log ++ D ∧
         (TransitionResources.iterations true c n t).state.Log = t.Log ++ D := by
  induction n with
  | zero => exact ⟨rfl, [], by simp [TransitionResources.iterations, Result.state, pure, Except.pure],
      by simp [TransitionResources.iterations, Result.state, pure, Except.pure]⟩
  | succ n ih =>
    obtain ⟨hf, D, hs, ht⟩ := ih
    have fs := iterations_verify_frame c s n
    have ft := iterations_verify_frame c t n
    cases h1 : TransitionResources.iterations true c n s with
    | error e1 =>
      cases h2 : TransitionResources.iterations true c n t with
      | error e2 =>
        rw [iterations_succ_of_error _ _ _ _ _ h1, iterations_succ_of_error _ _ _ _ _ h2]
        rw [h1, h2] at hf
        rw [h1] at hs
        rw [h2] at ht
        exact ⟨hf, D, hs, ht⟩
      | ok t1 => rw [h1, h2] at hf; simp [Result.fault] at hf
    | ok s1 =>
      cases h2 : TransitionResources.iterations true c n t with
      | error e2 => rw [h1, h2] at hf; simp [Result.fault] at hf
      | ok t1 =>
        rw [iterations_succ_of_ok _ _ _ _ _ h1, iterations_succ_of_ok _ _ _ _ _ h2]
        rw [h1] at hs fs
        rw [h2] at ht ft
        simp only [Result.state] at hs ht fs ft
        have hB1 : s1.Buffers = t1.Buffers := by rw [fs.1, ft.1, hB]
        have hT1 : s1.Textures = t1.Textures := by rw [fs.2.1, ft.2.1, hT]
        rcases body_cases true (c.slot n) s1 with ⟨r, hr, hrdy, hb⟩ | ⟨hn, f, hb⟩
        · have hb2 : TransitionResources.body true (c.slot n) t1
              = .ok (specStep true t1 (specRequirement s1 r)) := by
            rw [hr, body_ready true r t1 hrdy, specRequirement_congr s1 t1 r hT1]
          obtain ⟨d, hd1, hd2⟩ := specStep_verify_log s1 t1 (specRequirement s1 r) hB1 hT1
          rw [hb, hb2]
          refine ⟨rfl, D ++ d, ?_, ?_⟩
          · simp only [Result.state]; rw [hd1, hs, List.append_assoc]
          · simp only [Result.state]; rw [hd2, ht, List.append_assoc]
        · have hfe := body_fault_not_ready true (c.slot n) hn s1 t1
          obtain ⟨f2, hb2⟩ := body_not_ready true (c.slot n) t1 hn
          rw [hb, hb2] at hfe ⊢
          exact ⟨hfe, D, hs, ht⟩

/-! ## Runs in which every requirement already holds -/

theorem iterations_of_holds (VerifyOnly : Bool) (c : ShaderResourceCacheVk) (s : State)
    (h : ∀ res < c.m_TotalResources, slotHolds s (c.slot res) = true) (n : Nat)
    (hn : n ≤ c.m_TotalResources) :
    (TransitionResources.iterations VerifyOnly c n s).state = s ∧
    ((∀ res < n, slotReady (c.slot res) = true) →
      TransitionResources.iterations VerifyOnly c n s = .ok s) := by
  induction n with
  | zero => exact ⟨rfl, fun _ => rfl⟩
  | succ n ih =>
    obtain ⟨ih1, ih2⟩ := ih (Nat.le_of_succ_le hn)
    have hstep : ∀ r, c.slot n = some (some r) →
        specStep VerifyOnly s (specRequirement s r) = s := by
      intro r hr
      have := h n hn
      rw [hr] at this
      exact specStep_of_holds VerifyOnly s _ this
    constructor
    · cases h1 : TransitionResources.iterations VerifyOnly c n s with
      | error e =>
        rw [iterations_succ_of_error _ _ _ _ _ h1]; rw [h1] at ih1; exact ih1
      | ok s1 =>
        rw [h1] at ih1
        simp only [Result.state] at ih1
        subst ih1
        rw [iterations_succ_of_ok _ _ _ _ _ h1]
        rcases body_cases VerifyOnly (c.slot n) s1 with ⟨r, hr, _, hb⟩ | ⟨_, f, hb⟩
        · rw [hb, hstep r hr]; rfl
        · rw [hb]; rfl
    · intro hready
      have h1 := ih2 (fun res hres => hready res (Nat.lt_succ_of_lt hres))
      rw [iterations_succ_of_ok _ _ _ _ _ h1]
      have hr := hready n (Nat.lt_succ_self n)
      rcases body_cases VerifyOnly (c.slot n) s with ⟨r, hr, _, hb⟩ | ⟨hn, _⟩
      · rw [hb, hstep r hr]
      · rw [hn] at hr; cases hr

/-! ## Apply runs: what a step establishes and what it preserves -/

theorem requirement_access_inv (s : State) (r : Resource) (b : Nat) (m : VkAccessFlags)
    (h : specRequirement s r = .access b m) :
    r.buffer? = some b ∧
      ((r.Type_ = .UniformBuffer ∧ m = VK_ACCESS_UNIFORM_READ_BIT) ∨
       (r.Type_ ≠ .UniformBuffer ∧ (m = VK_ACCESS_SHADER_READ_BIT ∨
          m = VK_ACCESS_SHADER_READ_BIT ||| VK_ACCESS_SHADER_WRITE_BIT))) := by
  obtain ⟨ty, p⟩ := r
  cases ty <;> rcases p with _ | (b0 | v | v | sm) <;>
    simp_all [Resource.buffer?, specRequirement]

theorem requirement_layout_inv (s : State) (r : Resource) (t : Nat) (l : VkImageLayout)
    (h : specRequirement s r = .layout t l) :
    r.texture? = some t ∧
      ((r.Type_ = .StorageImage ∧ l = VK_IMAGE_LAYOUT_GENERAL) ∨
       (r.Type_ ≠ .StorageImage ∧
         l = (if (s.Textures t).BindFlags &&& BIND_DEPTH_STENCIL ≠ 0 then
                VK_IMAGE_LAYOUT_DEPTH_STENCIL_READ_ONLY_OPTIMAL
              else VK_IMAGE_LAYOUT_SHADER_READ_ONLY_OPTIMAL))) := by
  obtain ⟨ty, p⟩ := r
  cases ty <;> rcases p with _ | (b0 | v | v | sm) <;>
    simp_all [Resource.texture?, specRequirement] <;>
    (obtain ⟨rfl, rfl⟩ := h; rfl)

theorem compatible_of_not_conflicts (s : State) (r r' : Resource)
    (h : r.conflicts r' = false) :
    (specRequirement s r).compatible (specRequirement s r') := by
  cases hq : specRequirement s r with
  | nothing => simp [Requirement.compatible]
  | access b m =>
    cases hq' : specRequirement s r' with
    | nothing => simp [Requirement.compatible]
    | layout t l => simp [Requirement.compatible]
    | access b' m' =>
      intro hbb
      subst hbb
      obtain ⟨hb, hm⟩ := requirement_access_inv s r b m hq
      obtain ⟨hb', hm'⟩ := requirement_access_inv s r' b m' hq'
      simp only [Resource.conflicts, hb, hb', Option.isSome_some, beq_self_eq_true,
        Bool.and_self, Bool.true_and, Bool.or_eq_false_iff] at h
      have hty := h.1
      rcases hm with ⟨h1, rfl⟩ | ⟨h1, h2⟩ <;> rcases hm' with ⟨h3, rfl⟩ | ⟨h3, h4⟩
      · left; decide
      · simp [h1, h3] at hty
      · simp [h1, h3] at hty
      · rcases h2 with rfl | rfl <;> rcases h4 with rfl | rfl <;> decide
  | layout t l =>
    cases hq' : specRequirement s r' with
    | nothing => simp [Requirement.compatible]
    | access b m => simp [Requirement.compatible]
    | layout t' l' =>
      intro htt
      subst htt
      obtain ⟨ht, hl⟩ := requirement_layout_inv s r t l hq
      obtain ⟨ht', hl'⟩ := requirement_layout_inv s r' t l' hq'
      simp only [Resource.conflicts, ht, ht', Option.isSome_some, beq_self_eq_true,
        Bool.and_self, Bool.true_and, Bool.or_eq_false_iff] at h
      have hty := h.2
      rcases hl with ⟨h1, rfl⟩ | ⟨h1, h2⟩ <;> rcases hl' with ⟨h3, rfl⟩ | ⟨h3, h4⟩
      · rfl
      · simp [h1, h3] at hty
      · simp [h1, h3] at hty
      · rw [h2, h4]

theorem holds_after_step (s : State) (q : Requirement) :
    q.holds (specStep false s q) = true := by
  cases q with
  | nothing => rfl
  | access b m =>
    by_cases h : (s.Buffers b).CheckAccessFlags m = true
    · simp [specStep, h, Requirement.holds]
    · have h' : (s.Buffers b).CheckAccessFlags m = false := by simpa using h
      simp only [specStep, h', Bool.false_eq_true, if_false, Requirement.holds,
        BufferMemoryBarrier]
      simp [BufferVkImpl.CheckAccessFlags]
  | layout t l =>
    by_cases h : (s.Textures t).m_Layout = l
    · simp [specStep, h, Requirement.holds]
    · simp [specStep, h, Requirement.holds, TransitionImageLayout]

theorem land_of_land_includes (f m m' : Nat) (h1 : f &&& m' = m') (h2 : m' &&& m = m) :
    f &&& m = m := by
  rw [← h2, ← Nat.land_assoc, h1]

theorem holds_preserved (s : State) (q q' : Requirement) (hc : q.compatible q')
    (h : q'.holds s = true) : q'.holds (specStep false s q) = true := by
  cases q with
  | nothing => exact h
  | access b m =>
    by_cases hchk : (s.Buffers b).CheckAccessFlags m = true
    · simpa [specStep, hchk] using h
    · cases q' with
      | nothing => rfl
      | layout t l => simpa [specStep, hchk, Requirement.holds, BufferMemoryBarrier] using h
      | access b' m' =>
        by_cases hb : b' = b
        · subst hb
          simp only [Requirement.holds, BufferVkImpl.CheckAccessFlags, beq_iff_eq] at h
          simp only [BufferVkImpl.CheckAccessFlags, beq_iff_eq] at hchk
          rcases hc rfl with hm | hm
          · simp [specStep, BufferVkImpl.CheckAccessFlags, hchk, Requirement.holds,
              BufferMemoryBarrier, hm]
          · exact absurd (land_of_land_includes _ _ _ h hm) hchk
        · simpa [specStep, hchk, Requirement.holds, BufferMemoryBarrier, hb] using h
  | layout t l =>
    by_cases hchk : (s.Textures t).m_Layout = l
    · simpa [specStep, hchk] using h
    · cases q' with
      | nothing => rfl
      | access b m => simpa [specStep, hchk, Requirement.holds, TransitionImageLayout] using h
      | layout t' l' =>
        by_cases ht : t' = t
        · subst ht
          have hl := hc rfl
          subst hl
          simp [specStep, hchk, Requirement.holds, TransitionImageLayout]
        · simpa [specStep, hchk, Requirement.holds, TransitionImageLayout, ht] using h

/-- In a fully bound cache without conflicting slots, an Apply run completes and, after
`n` iterations, the first `n` slots all have what they require. -/
theorem iterations_apply_holds (c : ShaderResourceCacheVk) (s : State) (hready : c.Ready)
    (hfree : c.ConflictFree) (n : Nat) (hn : n ≤ c.m_TotalResources) :
    ∃ s', TransitionResources.iterations false c n s = .ok s' ∧
      ∀ res < n, slotHolds s' (c.slot res) = true := by
  induction n with
  | zero => exact ⟨s, rfl, fun res hres => absurd hres (Nat.not_lt_zero res)⟩
  | succ n ih =>
    obtain ⟨s1, h1, hall⟩ := ih (Nat.le_of_succ_le hn)
    have hrn := hready n hn
    rcases body_cases false (c.slot n) s1 with ⟨r, hr, _, hb⟩ | ⟨hnr, _⟩
    · refine ⟨_, by rw [iterations_succ_of_ok _ _ _ _ _ h1, hb], ?_⟩
      intro res hres
      have hcongr : ∀ r', specRequirement (specStep false s1 (specRequirement s1 r)) r'
          = specRequirement s1 r' := fun r' =>
        specRequirement_of_BindFlags _ _ r' (fun i => specStep_BindFlags false s1 _ i)
      rcases Nat.lt_succ_iff_lt_or_eq.mp hres with hlt | heq
      · have hprev := hall res hlt
        have hconf := hfree n hn res (Nat.lt_of_lt_of_le hlt (Nat.le_of_succ_le hn))
        rcases hs : c.slot res with _ | _ | r'
        · rfl
        · rfl
        · rw [hs] at hprev
          rw [hr, hs] at hconf
          simp only [slotHolds] at hprev ⊢
          simp only [slotConflicts] at hconf
          rw [hcongr]
          exact holds_preserved s1 _ _ (compatible_of_not_conflicts s1 r r' hconf) hprev
      · subst heq
        rw [hr]
        simp only [slotHolds]
        rw [hcongr]
        exact holds_after_step s1 _
    · rw [hnr] at hrn; cases hrn

/-! ## The image descriptor writer against the transition pass -/

theorem GetImageDescriptorWriteInfo_layout (r : Resource) (imm : Bool) (s st : State)
    (info : VkDescriptorImageInfo)
    (h : r.GetImageDescriptorWriteInfo imm s = .ok (info, st)) :
    ∃ v, r.pObject = some (.textureView v) ∧ r.texture? = some v.pTexture ∧
      specRequirement s r = .layout v.pTexture info.imageLayout := by
  obtain ⟨ty, p⟩ := r
  cases ty <;> rcases p with _ | (b | v | v | sm) <;>
    simp [Resource.GetImageDescriptorWriteInfo, VERIFY, derefTextureView, bind, Except.bind,
      pure, Except.pure] at h <;>
    (split_ifs at h <;> simp at h) <;>
    (obtain ⟨h1, h2⟩ := h; subst h1; simp_all [Resource.texture?, specRequirement])

theorem GetImageDescriptorWriteInfo_returns (r : Resource) (imm : Bool) (s : State)
    (v : TextureViewVkImpl) (hobj : r.pObject = some (.textureView v))
    (hty : r.texture?.isSome = true)
    (hview : v.ViewType = (if r.Type_ = .StorageImage then
        TEXTURE_VIEW_TYPE.TEXTURE_VIEW_UNORDERED_ACCESS
      else TEXTURE_VIEW_TYPE.TEXTURE_VIEW_SHADER_RESOURCE)) :
    ∃ info st, r.GetImageDescriptorWriteInfo imm s = .ok (info, st) := by
  obtain ⟨ty, p⟩ := r
  simp only at hobj
  subst hobj
  cases ty <;> simp [Resource.texture?] at hty <;>
    simp [Resource.GetImageDescriptorWriteInfo, VERIFY, derefTextureView, bind, Except.bind,
      pure, Except.pure, hview] at hview ⊢

/-! ## The transition engine: claims about `TransitionResources` -/

/-- C1: `TransitionResources` in `VerifyOnly` mode makes no mutation.  For every cache
and every starting store, the state in which the call ends (completed or stopped at a
fault) has the same buffers, hence the same access flags, the same textures, hence the
same layouts, and the same list of requests received by the context. -/
theorem TransitionResources_VerifyOnly_no_mutation (c : ShaderResourceCacheVk) (s : State) :
    (TransitionResources true c s).state.Buffers = s.Buffers ∧
    (TransitionResources true c s).state.Textures = s.Textures ∧
    (TransitionResources true c s).state.Requests = s.Requests :=
  iterations_verify_frame c s c.m_TotalResources

/-- C2, as stated, fails: with one texture bound through two views to a `StorageImage`
slot and to a `SampledImage` slot of a fully bound cache, the second `Apply` call emits
two layout transitions again. -/
theorem Apply_twice_shared_texture_emits_again :
    sharedTextureCache.Ready ∧
    ∃ s1 s2, TransitionResources false sharedTextureCache exampleState = .ok s1 ∧
      TransitionResources false sharedTextureCache s1 = .ok s2 ∧
      s2.Requests = s1.Requests ++
        [.TransitionImageLayout 0 VK_IMAGE_LAYOUT_GENERAL,
         .TransitionImageLayout 0 VK_IMAGE_LAYOUT_SHADER_READ_ONLY_OPTIMAL] :=
  ⟨by decide, _, _, rfl, rfl, rfl⟩

/-- C2, amended: for every fully bound cache in which no two slots make incompatible
demands on one object, and every starting store, one `Apply` call completes and a second
`Apply` call on the same cache completes, emits no request and changes nothing. -/
theorem Apply_idempotent_of_conflict_free (c : ShaderResourceCacheVk) (s : State)
    (hready : c.Ready) (hfree : c.ConflictFree) :
    ∃ s1 s2, TransitionResources false c s = .ok s1 ∧
      TransitionResources false c s1 = .ok s2 ∧
      s2.Requests = s1.Requests ∧ s2 = s1 := by
  obtain ⟨s1, h1, hall⟩ := iterations_apply_holds c s hready hfree c.m_TotalResources le_rfl
  have h2 := (iterations_of_holds false c s1 hall c.m_TotalResources le_rfl).2
    (fun res hres => hready res hres)
  exact ⟨s1, s1, h1, h2, rfl, rfl⟩

theorem Apply_idempotent_of_conflict_free_witness :
    (scenarioCache 0 (some (.textureView exampleSRView))
        (some (.bufferView exampleBufferView))).Ready ∧
    (scenarioCache 0 (some (.textureView exampleSRView))
        (some (.bufferView exampleBufferView))).ConflictFree ∧
    ∃ s1 s2, TransitionResources false (scenarioCache 0 (some (.textureView exampleSRView))
        (some (.bufferView exampleBufferView))) exampleState = .ok s1 ∧
      TransitionResources false (scenarioCache 0 (some (.textureView exampleSRView))
        (some (.bufferView exampleBufferView))) s1 = .ok s2 ∧
      s2.Requests = s1.Requests ∧ s2 = s1 :=
  ⟨by decide, by decide,
    Apply_idempotent_of_conflict_free _ exampleState (by decide) (by decide)⟩

/-- C3, as stated, fails: with one texture bound to a `StorageImage` slot and to a
`SampledImage` slot, after `Apply` the texture is in the shader-read-only layout, which
is not the layout (general) that `GetImageDescriptorWriteInfo` writes for the
`StorageImage` slot. -/
theorem Apply_shared_texture_leaves_slot_unsatisfied :
    sharedTextureCache.Ready ∧
    sharedTextureCache.slot 0 = some (some ⟨.StorageImage, some (.textureView exampleUAView)⟩) ∧
    ∃ s1, TransitionResources false sharedTextureCache exampleState = .ok s1 ∧
      slotHolds s1 (sharedTextureCache.slot 0) = false ∧
      ∃ info st, (Resource.mk .StorageImage (some (.textureView exampleUAView))).GetImageDescriptorWriteInfo
          false s1 = .ok (info, st) ∧
        info.imageLayout = VK_IMAGE_LAYOUT_GENERAL ∧
        (s1.Textures exampleUAView.pTexture).m_Layout = VK_IMAGE_LAYOUT_SHADER_READ_ONLY_OPTIMAL ∧
        (s1.Textures exampleUAView.pTexture).m_Layout ≠ info.imageLayout :=
  ⟨by decide, rfl, _, rfl, by decide, _, _, rfl, rfl, rfl, by decide⟩

/-- C3, amended: for every fully bound cache in which no two slots make incompatible
demands on one object, `TransitionResources` in `Apply` mode returns and afterwards
every slot has what it requires: the buffer behind each buffer slot passes
`CheckAccessFlags` for the slot's mask, the texture behind each image slot is in the
slot's layout, and that layout is the one `GetImageDescriptorWriteInfo` writes for the
slot (which it does write whenever the view has the type the writer asserts). -/
theorem Apply_establishes_required_states (c : ShaderResourceCacheVk) (s : State)
    (hready : c.Ready) (hfree : c.ConflictFree) :
    ∃ s1, TransitionResources false c s = .ok s1 ∧
      ∀ res < c.m_TotalResources, ∀ r, c.slot res = some (some r) →
        (∀ b m, specRequirement s1 r = .access b m →
          (s1.Buffers b).CheckAccessFlags m = true) ∧
        (∀ t l, specRequirement s1 r = .layout t l → (s1.Textures t).m_Layout = l) ∧
        (∀ imm info st, r.GetImageDescriptorWriteInfo imm s1 = .ok (info, st) →
          ∃ t, r.texture? = some t ∧ (s1.Textures t).m_Layout = info.imageLayout) ∧
        (∀ v, r.pObject = some (.textureView v) → r.texture?.isSome = true →
          v.ViewType = (if r.Type_ = .StorageImage then
              TEXTURE_VIEW_TYPE.TEXTURE_VIEW_UNORDERED_ACCESS
            else TEXTURE_VIEW_TYPE.TEXTURE_VIEW_SHADER_RESOURCE) →
          ∀ imm, ∃ info st, r.GetImageDescriptorWriteInfo imm s1 = .ok (info, st)) := by
  obtain ⟨s1, h1, hall⟩ := iterations_apply_holds c s hready hfree c.m_TotalResources le_rfl
  refine ⟨s1, h1, ?_⟩
  intro res hres r hr
  have hh := hall res hres
  rw [hr] at hh
  simp only [slotHolds] at hh
  refine ⟨?_, ?_, ?_, ?_⟩
  · intro b m hq
    rw [hq] at hh
    exact hh
  · intro t l hq
    rw [hq] at hh
    simpa [Requirement.holds] using hh
  · intro imm info st hg
    obtain ⟨v, _, htex, hq⟩ := GetImageDescriptorWriteInfo_layout r imm s1 st info hg
    rw [hq] at hh
    exact ⟨v.pTexture, htex, by simpa [Requirement.holds] using hh⟩
  · intro v hobj hty hview imm
    exact GetImageDescriptorWriteInfo_returns r imm s1 v hobj hty hview

theorem Apply_establishes_required_states_witness :
    (scenarioCache 0 (some (.textureView exampleSRView))
        (some (.bufferView exampleBufferView))).Ready ∧
    (scenarioCache 0 (some (.textureView exampleSRView))
        (some (.bufferView exampleBufferView))).ConflictFree ∧
    ∃ s1, TransitionResources false (scenarioCache 0 (some (.textureView exampleSRView))
        (some (.bufferView exampleBufferView))) exampleState = .ok s1 ∧
      ∀ res < 3, ∀ r, (scenarioCache 0 (some (.textureView exampleSRView))
          (some (.bufferView exampleBufferView))).slot res = some (some r) →
        (∀ b m, specRequirement s1 r = .access b m →
          (s1.Buffers b).CheckAccessFlags m = true) ∧
        (∀ t l, specRequirement s1 r = .layout t l → (s1.Textures t).m_Layout = l) ∧
        (∀ imm info st, r.GetImageDescriptorWriteInfo imm s1 = .ok (info, st) →
          ∃ t, r.texture? = some t ∧ (s1.Textures t).m_Layout = info.imageLayout) ∧
        (∀ v, r.pObject = some (.textureView v) → r.texture?.isSome = true →
          v.ViewType = (if r.Type_ = .StorageImage then
              TEXTURE_VIEW_TYPE.TEXTURE_VIEW_UNORDERED_ACCESS
            else TEXTURE_VIEW_TYPE.TEXTURE_VIEW_SHADER_RESOURCE) →
          ∀ imm, ∃ info st, r.GetImageDescriptorWriteInfo imm s1 = .ok (info, st)) :=
  ⟨by decide, by decide,
    Apply_establishes_required_states
      (scenarioCache 0 (some (.textureView exampleSRView)) (some (.bufferView exampleBufferView)))
      exampleState (by decide) (by decide)⟩

/-- C4: the access mask required of a buffer-typed slot.  When the loop visits a slot
(after `res` iterations, in state `s_res`), the iteration is the step of the
specification for the requirement: uniform-read for `UniformBuffer`, shader-read |
shader-write for `StorageBuffer` and `StorageTexelBuffer`, shader-read only for
`UniformTexelBuffer`; the mask is checked against, and requested for, the buffer
itself, which for view-typed slots is the buffer underlying the bound view. -/
theorem TransitionResources_buffer_requirement (VerifyOnly : Bool)
    (c : ShaderResourceCacheVk) (s s_res : State) (res : Nat)
    (hvisit : TransitionResources.iterations VerifyOnly c res s = .ok s_res) :
    (∀ b, c.slot res = some (some ⟨.UniformBuffer, some (.buffer b)⟩) →
      TransitionResources.iterations VerifyOnly c (res + 1) s =
        .ok (specStep VerifyOnly s_res (.access b VK_ACCESS_UNIFORM_READ_BIT))) ∧
    (∀ v, c.slot res = some (some ⟨.StorageBuffer, some (.bufferView v)⟩) →
      TransitionResources.iterations VerifyOnly c (res + 1) s =
        .ok (specStep VerifyOnly s_res
          (.access v.pBuffer (VK_ACCESS_SHADER_READ_BIT ||| VK_ACCESS_SHADER_WRITE_BIT)))) ∧
    (∀ v, c.slot res = some (some ⟨.StorageTexelBuffer, some (.bufferView v)⟩) →
      TransitionResources.iterations VerifyOnly c (res + 1) s =
        .ok (specStep VerifyOnly s_res
          (.access v.pBuffer (VK_ACCESS_SHADER_READ_BIT ||| VK_ACCESS_SHADER_WRITE_BIT)))) ∧
    (∀ v, c.slot res = some (some ⟨.UniformTexelBuffer, some (.bufferView v)⟩) →
      TransitionResources.iterations VerifyOnly c (res + 1) s =
        .ok (specStep VerifyOnly s_res (.access v.pBuffer VK_ACCESS_SHADER_READ_BIT))) := by
  refine ⟨?_, ?_, ?_, ?_⟩ <;> intro x hx <;>
    rw [iterations_succ_of_ok _ _ _ _ _ hvisit, hx] <;> exact body_ready _ _ _ rfl

theorem TransitionResources_buffer_requirement_witness :
    TransitionResources.iterations false (scenarioCache 0 none none) 0 exampleState
        = .ok exampleState ∧
    TransitionResources.iterations false (scenarioCache 0 none none) 1 exampleState
        = .ok (BufferMemoryBarrier exampleState 0 VK_ACCESS_UNIFORM_READ_BIT) :=
  ⟨rfl, (TransitionResources_buffer_requirement false (scenarioCache 0 none none)
    exampleState exampleState 0 rfl).1 0 rfl⟩

/-- C5: the layout required of an image-typed slot.  When the loop visits a slot, the
iteration is the step of the specification for the requirement: layout general for
`StorageImage`; for `SampledImage` and `SeparateImage`, depth-stencil-read-only when the
underlying texture has the depth/stencil bind flag and shader-read-only otherwise. -/
theorem TransitionResources_image_requirement (VerifyOnly : Bool)
    (c : ShaderResourceCacheVk) (s s_res : State) (res : Nat)
    (hvisit : TransitionResources.iterations VerifyOnly c res s = .ok s_res) :
    (∀ v, c.slot res = some (some ⟨.StorageImage, some (.textureView v)⟩) →
      TransitionResources.iterations VerifyOnly c (res + 1) s =
        .ok (specStep VerifyOnly s_res (.layout v.pTexture VK_IMAGE_LAYOUT_GENERAL))) ∧
    (∀ v, c.slot res = some (some ⟨.SampledImage, some (.textureView v)⟩) →
      TransitionResources.iterations VerifyOnly c (res + 1) s =
        .ok (specStep VerifyOnly s_res (.layout v.pTexture
          (if (s_res.Textures v.pTexture).BindFlags &&& BIND_DEPTH_STENCIL ≠ 0 then
            VK_IMAGE_LAYOUT_DEPTH_STENCIL_READ_ONLY_OPTIMAL
          else VK_IMAGE_LAYOUT_SHADER_READ_ONLY_OPTIMAL)))) ∧
    (∀ v, c.slot res = some (some ⟨.SeparateImage, some (.textureView v)⟩) →
      TransitionResources.iterations VerifyOnly c (res + 1) s =
        .ok (specStep VerifyOnly s_res (.layout v.pTexture
          (if (s_res.Textures v.pTexture).BindFlags &&& BIND_DEPTH_STENCIL ≠ 0 then
            VK_IMAGE_LAYOUT_DEPTH_STENCIL_READ_ONLY_OPTIMAL
          else VK_IMAGE_LAYOUT_SHADER_READ_ONLY_OPTIMAL)))) := by
  refine ⟨?_, ?_, ?_⟩ <;> intro x hx <;>
    rw [iterations_succ_of_ok _ _ _ _ _ hvisit, hx] <;> exact body_ready _ _ _ rfl

theorem TransitionResources_image_requirement_witness :
    TransitionResources.iterations true sharedTextureCache 0 exampleState = .ok exampleState ∧
    TransitionResources.iterations true sharedTextureCache 1 exampleState
      = .ok (LOG_ERROR_MESSAGE exampleState
          (.textureState "texture" VK_IMAGE_LAYOUT_GENERAL VK_IMAGE_LAYOUT_UNDEFINED)) :=
  ⟨rfl, (TransitionResources_image_requirement true sharedTextureCache
    exampleState exampleState 0 rfl).1 exampleUAView rfl⟩

/-- C6: in `Apply` mode, when the loop visits a slot whose bound object does not
satisfy the slot's requirement, the iteration emits exactly one request to the context
carrying that object and the required state, sets the object's state to the required
value, leaves every other object alone and writes no diagnostic. -/
theorem Apply_emits_one_request (c : ShaderResourceCacheVk) (s s_res : State) (res : Nat)
    (r : Resource) (hslot : c.slot res = some (some r))
    (hvisit : TransitionResources.iterations false c res s = .ok s_res)
    (hunsat : (specRequirement s_res r).holds s_res = false) :
    ∃ s', TransitionResources.iterations false c (res + 1) s = .ok s' ∧
      s'.Log = s_res.Log ∧
      ((∃ b m, specRequirement s_res r = .access b m ∧
          s'.Requests = s_res.Requests ++ [.BufferMemoryBarrier b m] ∧
          (s'.Buffers b).m_AccessFlags = m ∧
          (∀ i, i ≠ b → s'.Buffers i = s_res.Buffers i) ∧
          s'.Textures = s_res.Textures) ∨
       (∃ t l, specRequirement s_res r = .layout t l ∧
          s'.Requests = s_res.Requests ++ [.TransitionImageLayout t l] ∧
          (s'.Textures t).m_Layout = l ∧
          (∀ i, i ≠ t → s'.Textures i = s_res.Textures i) ∧
          s'.Buffers = s_res.Buffers)) := by
  have hne : specRequirement s_res r ≠ .nothing := by
    intro h; rw [h] at hunsat; cases hunsat
  have hb := body_ready false r s_res (requirement_ready s_res r hne)
  refine ⟨_, by rw [iterations_succ_of_ok _ _ _ _ _ hvisit, hslot, hb],
    specStep_apply_log _ _, ?_⟩
  cases hq : specRequirement s_res r with
  | nothing => exact absurd hq hne
  | access b m =>
    rw [hq] at hunsat
    simp only [Requirement.holds] at hunsat
    refine Or.inl ⟨b, m, rfl, ?_, ?_, ?_, ?_⟩ <;>
      simp [specStep, hunsat, BufferMemoryBarrier]
    intro i hi
    simp [hi]
  | layout t l =>
    rw [hq] at hunsat
    simp only [Requirement.holds, beq_eq_false_iff_ne, ne_eq] at hunsat
    refine Or.inr ⟨t, l, rfl, ?_, ?_, ?_, ?_⟩ <;>
      simp [specStep, hunsat, TransitionImageLayout]
    intro i hi
    simp [hi]

theorem Apply_emits_one_request_witness :
    (scenarioCache 0 none none).slot 0 = some (some ⟨.UniformBuffer, some (.buffer 0)⟩) ∧
    TransitionResources.iterations false (scenarioCache 0 none none) 0 exampleState
      = .ok exampleState ∧
    (specRequirement exampleState ⟨.UniformBuffer, some (.buffer 0)⟩).holds exampleState
      = false ∧
    ∃ s', TransitionResources.iterations false (scenarioCache 0 none none) 1 exampleState
        = .ok s' ∧
      s'.Log = exampleState.Log ∧
      ((∃ b m, specRequirement exampleState ⟨.UniformBuffer, some (.buffer 0)⟩ = .access b m ∧
          s'.Requests = exampleState.Requests ++ [.BufferMemoryBarrier b m] ∧
          (s'.Buffers b).m_AccessFlags = m ∧
          (∀ i, i ≠ b → s'.Buffers i = exampleState.Buffers i) ∧
          s'.Textures = exampleState.Textures) ∨
       (∃ t l, specRequirement exampleState ⟨.UniformBuffer, some (.buffer 0)⟩ = .layout t l ∧
          s'.Requests = exampleState.Requests ++ [.TransitionImageLayout t l] ∧
          (s'.Textures t).m_Layout = l ∧
          (∀ i, i ≠ t → s'.Textures i = exampleState.Textures i) ∧
          s'.Buffers = exampleState.Buffers)) :=
  ⟨rfl, rfl, by decide,
    Apply_emits_one_request (scenarioCache 0 none none) exampleState exampleState 0
      ⟨.UniformBuffer, some (.buffer 0)⟩ rfl rfl (by decide)⟩

/-- C7, as stated, fails: in the scenario with only set 0 slot 0 bound, the `Apply` pass
emits the barrier for the uniform buffer and then stops at the empty `SampledImage`
slot, whose empty reference it dereferences; it does not skip the slot and does not
complete. -/
theorem scenario_empty_slot_is_dereferenced :
    (exampleState.Buffers 0).m_AccessFlags = 0 ∧
    (scenarioCache 0 none none).slot 1 = some (some ⟨.SampledImage, none⟩) ∧
    TransitionResources false (scenarioCache 0 none none) exampleState =
      .error (.nullDereference,
        BufferMemoryBarrier exampleState 0 VK_ACCESS_UNIFORM_READ_BIT) ∧
    (TransitionResources false (scenarioCache 0 none none) exampleState).fault
      = some .nullDereference :=
  ⟨rfl, rfl, rfl, rfl⟩

/-- C7, amended: in the scenario cache (two sets of sizes 2 and 1, set 0 =
`UniformBuffer`, `SampledImage`, set 1 = `StorageBuffer`) with set 0 slot 0 bound to a
buffer whose access flags are 0 and the two other slots bound to objects already in
their required state, `TransitionResources` in `Apply` mode completes without failure,
emits exactly one request, a barrier requiring uniform-read access on that buffer, and
leaves the buffer's state including the uniform-read flag.  With the two other slots
empty the pass emits that barrier and stops at the empty `SampledImage` slot. -/
theorem scenario_Apply_one_barrier (b : Nat) (tv : TextureViewVkImpl)
    (bv : BufferViewVkImpl) (s : State)
    (hflags : (s.Buffers b).m_AccessFlags = 0)
    (himg : slotHolds s (some (some ⟨.SampledImage, some (.textureView tv)⟩)) = true)
    (hsto : slotHolds s (some (some ⟨.StorageBuffer, some (.bufferView bv)⟩)) = true) :
    (∃ s', TransitionResources false
        (scenarioCache b (some (.textureView tv)) (some (.bufferView bv))) s = .ok s' ∧
      s'.Requests = s.Requests ++ [.BufferMemoryBarrier b VK_ACCESS_UNIFORM_READ_BIT] ∧
      s'.Log = s.Log ∧
      (s'.Buffers b).CheckAccessFlags VK_ACCESS_UNIFORM_READ_BIT = true) ∧
    TransitionResources false (scenarioCache b none none) s =
      .error (.nullDereference, BufferMemoryBarrier s b VK_ACCESS_UNIFORM_READ_BIT) := by
  have hchk : (s.Buffers b).CheckAccessFlags VK_ACCESS_UNIFORM_READ_BIT = false := by
    simp [BufferVkImpl.CheckAccessFlags, hflags, VK_ACCESS_UNIFORM_READ_BIT]
  have hstep : specStep false s (.access b VK_ACCESS_UNIFORM_READ_BIT)
      = BufferMemoryBarrier s b VK_ACCESS_UNIFORM_READ_BIT := by
    simp [specStep, hchk]
  have h1 : ∀ img sto, TransitionResources.iterations false (scenarioCache b img sto) 1 s
      = .ok (BufferMemoryBarrier s b VK_ACCESS_UNIFORM_READ_BIT) := by
    intro img sto
    rw [iterations_succ_of_ok false _ 0 s s rfl, ← hstep]
    exact body_ready false ⟨.UniformBuffer, some (.buffer b)⟩ s rfl
  have hne : bv.pBuffer ≠ b := by
    intro h
    simp [slotHolds, specRequirement, Requirement.holds, BufferVkImpl.CheckAccessFlags, h,
      hflags, VK_ACCESS_SHADER_READ_BIT, VK_ACCESS_SHADER_WRITE_BIT] at hsto
  constructor
  · have himg1 : specStep false (BufferMemoryBarrier s b VK_ACCESS_UNIFORM_READ_BIT)
        (specRequirement (BufferMemoryBarrier s b VK_ACCESS_UNIFORM_READ_BIT)
          ⟨.SampledImage, some (.textureView tv)⟩)
        = BufferMemoryBarrier s b VK_ACCESS_UNIFORM_READ_BIT := by
      apply specStep_of_holds
      simpa [slotHolds, specRequirement, Requirement.holds, BufferMemoryBarrier] using himg
    have hsto1 : specStep false (BufferMemoryBarrier s b VK_ACCESS_UNIFORM_READ_BIT)
        (specRequirement (BufferMemoryBarrier s b VK_ACCESS_UNIFORM_READ_BIT)
          ⟨.StorageBuffer, some (.bufferView bv)⟩)
        = BufferMemoryBarrier s b VK_ACCESS_UNIFORM_READ_BIT := by
      apply specStep_of_holds
      simpa [slotHolds, specRequirement, Requirement.holds, BufferMemoryBarrier,
        BufferVkImpl.CheckAccessFlags, hne] using hsto
    have h2 : TransitionResources.iterations false
        (scenarioCache b (some (.textureView tv)) (some (.bufferView bv))) 2 s
        = .ok (BufferMemoryBarrier s b VK_ACCESS_UNIFORM_READ_BIT) := by
      rw [iterations_succ_of_ok false _ 1 s _ (h1 _ _)]
      exact (body_ready false ⟨.SampledImage, some (.textureView tv)⟩ _ rfl).trans
        (congrArg Except.ok himg1)
    have h3 : TransitionResources.iterations false
        (scenarioCache b (some (.textureView tv)) (some (.bufferView bv))) 3 s
        = .ok (BufferMemoryBarrier s b VK_ACCESS_UNIFORM_READ_BIT) := by
      rw [iterations_succ_of_ok false _ 2 s _ h2]
      exact (body_ready false ⟨.StorageBuffer, some (.bufferView bv)⟩ _ rfl).trans
        (congrArg Except.ok hsto1)
    refine ⟨_, h3, rfl, rfl, ?_⟩
    simp [BufferMemoryBarrier, BufferVkImpl.CheckAccessFlags]
  · have h2 : TransitionResources.iterations false (scenarioCache b none none) 2 s
        = .error (.nullDereference, BufferMemoryBarrier s b VK_ACCESS_UNIFORM_READ_BIT) := by
      rw [iterations_succ_of_ok false _ 1 s _ (h1 _ _)]
      rfl
    exact iterations_succ_of_error false _ 2 s _ h2

theorem scenario_Apply_one_barrier_witness :
    (scenarioState.Buffers 0).m_AccessFlags = 0 ∧
    slotHolds scenarioState (some (some ⟨.SampledImage, some (.textureView exampleSRView)⟩))
      = true ∧
    slotHolds scenarioState (some (some ⟨.StorageBuffer, some (.bufferView exampleBufferView)⟩))
      = true ∧
    (∃ s', TransitionResources false
        (scenarioCache 0 (some (.textureView exampleSRView))
          (some (.bufferView exampleBufferView))) scenarioState = .ok s' ∧
      s'.Requests = scenarioState.Requests ++
        [.BufferMemoryBarrier 0 VK_ACCESS_UNIFORM_READ_BIT] ∧
      s'.Log = scenarioState.Log ∧
      (s'.Buffers 0).CheckAccessFlags VK_ACCESS_UNIFORM_READ_BIT = true) ∧
    TransitionResources false (scenarioCache 0 none none) scenarioState =
      .error (.nullDereference,
        BufferMemoryBarrier scenarioState 0 VK_ACCESS_UNIFORM_READ_BIT) :=
  ⟨rfl, by decide, by decide,
    scenario_Apply_one_barrier 0 exampleSRView exampleBufferView scenarioState rfl
      (by decide) (by decide)⟩

/-- C8: when every bound object already satisfies the required state of every slot it
is bound to, `TransitionResources` takes no action in either mode: the state in which
the call ends is the starting state (no request, no validation failure, no change of an
object), and on a fully bound cache the call completes. -/
theorem TransitionResources_noop_when_satisfied (VerifyOnly : Bool)
    (c : ShaderResourceCacheVk) (s : State)
    (h : ∀ res < c.m_TotalResources, slotHolds s (c.slot res) = true) :
    (TransitionResources VerifyOnly c s).state = s ∧
    (c.Ready → TransitionResources VerifyOnly c s = .ok s) := by
  have := iterations_of_holds VerifyOnly c s h c.m_TotalResources le_rfl
  exact ⟨this.1, fun hready => this.2 (fun res hres => hready res hres)⟩

theorem TransitionResources_noop_when_satisfied_witness :
    (∀ res < mixedCache.m_TotalResources, slotHolds uniformReadState (mixedCache.slot res) = true) ∧
    mixedCache.Ready ∧
    (TransitionResources true mixedCache uniformReadState).state = uniformReadState ∧
    TransitionResources true mixedCache uniformReadState = .ok uniformReadState :=
  ⟨by decide, by decide,
    (TransitionResources_noop_when_satisfied true mixedCache uniformReadState (by decide)).1,
    (TransitionResources_noop_when_satisfied true mixedCache uniformReadState (by decide)).2
      (by decide)⟩

/-- C9: for a slot of type `AtomicCounter` or `SeparateSampler` the iteration of
`TransitionResources` that visits it is a no-op in either mode, whatever the slot holds
(an empty reference included): the loop is after the iteration where it was before it,
and the body returns the state it was given for every object reference, so the
reference is not inspected. -/
theorem AtomicCounter_SeparateSampler_noop (VerifyOnly : Bool) (c : ShaderResourceCacheVk)
    (s : State) (res : Nat) (r : Resource) (hslot : c.slot res = some (some r))
    (hty : r.Type_ = .AtomicCounter ∨ r.Type_ = .SeparateSampler) :
    TransitionResources.iterations VerifyOnly c (res + 1) s
      = TransitionResources.iterations VerifyOnly c res s ∧
    ∀ (p : Option DeviceObject) (s' : State),
      TransitionResources.body VerifyOnly (some (some ⟨r.Type_, p⟩)) s' = .ok s' := by
  have hbody : ∀ (p : Option DeviceObject) (s' : State),
      TransitionResources.body VerifyOnly (some (some ⟨r.Type_, p⟩)) s' = .ok s' := by
    intro p s'
    rcases hty with h | h <;> rw [h] <;> rfl
  refine ⟨?_, hbody⟩
  rw [iterations_succ, hslot]
  cases TransitionResources.iterations VerifyOnly c res s with
  | error e => rfl
  | ok s' => exact hbody r.pObject s'

theorem AtomicCounter_SeparateSampler_noop_witness :
    mixedCache.slot 1 = some (some ⟨.AtomicCounter, none⟩) ∧
    TransitionResources.iterations false mixedCache 2 exampleState
      = TransitionResources.iterations false mixedCache 1 exampleState ∧
    ∀ (p : Option DeviceObject) (s' : State),
      TransitionResources.body false (some (some ⟨.AtomicCounter, p⟩)) s' = .ok s' :=
  ⟨rfl, AtomicCounter_SeparateSampler_noop false mixedCache exampleState 1
    ⟨.AtomicCounter, none⟩ rfl (Or.inl rfl)⟩

/-- C10: invoking `TransitionResources` in `VerifyOnly` mode twice in a row on an
unmodified cache gives the same object states both times (those of the start), stops
the same way, and writes the same sequence of validation-failure diagnostics: the
second call appends to the log exactly the list `D` the first call appended. -/
theorem VerifyOnly_twice_identical (c : ShaderResourceCacheVk) (s : State) :
    (TransitionResources true c s).state.Buffers = s.Buffers ∧
    (TransitionResources true c s).state.Textures = s.Textures ∧
    (TransitionResources true c (TransitionResources true c s).state).state.Buffers
      = s.Buffers ∧
    (TransitionResources true c (TransitionResources true c s).state).state.Textures
      = s.Textures ∧
    (TransitionResources true c (TransitionResources true c s).state).fault
      = (TransitionResources true c s).fault ∧
    ∃ D, (TransitionResources true c s).state.Log = s.Log ++ D ∧
      (TransitionResources true c (TransitionResources true c s).state).state.Log
        = (TransitionResources true c s).state.Log ++ D := by
  obtain ⟨hB, hT, _⟩ := iterations_verify_frame c s c.m_TotalResources
  obtain ⟨hB2, hT2, _⟩ := iterations_verify_frame c
    (TransitionResources true c s).state c.m_TotalResources
  obtain ⟨hf, D, hD1, hD2⟩ := iterations_verify_agree c s (TransitionResources true c s).state
    hB.symm hT.symm c.m_TotalResources
  exact ⟨hB, hT, hB2.trans hB, hT2.trans hT, hf.symm, D, hD1, hD2⟩

/-! ## The memory size and the construction of the sets -/

theorem except_bind_eq_ok {ε α β : Type} (x : Except ε α) (f : α → Except ε β) (b : β) :
    (x >>= f) = .ok b ↔ ∃ a, x = .ok a ∧ f a = .ok b := by
  cases x with
  | error e => simp [bind, Except.bind]
  | ok a => simp [bind, Except.bind]

theorem VERIFY_EXPR_eq_ok (cond : Bool) (msg : String) (u : Unit) :
    VERIFY_EXPR cond msg = .ok u ↔ cond = true := by
  cases cond <;> simp [VERIFY_EXPR, pure, Except.pure, throw, throwThe, MonadExceptOf.throw]

theorem TotalResourcesLoop_eq (SetSizes : List Nat) (t : Nat) (ht : t ≤ SetSizes.length) :
    TotalResourcesLoop SetSizes t = .ok ((SetSizes.take t).sum % 2 ^ 32) := by
  induction t with
  | zero => rfl
  | succ t ih =>
    have hlt : t < SetSizes.length := ht
    simp only [TotalResourcesLoop, ih (Nat.le_of_succ_le ht), bind, Except.bind,
      List.getElem?_eq_getElem hlt, pure, Except.pure]
    rw [List.sum_take_succ SetSizes t hlt, Nat.mod_add_mod]

theorem headers_eq (SetSizes : List Nat) (t : Nat) (ht : t ≤ SetSizes.length) :
    InitializeSets.headers SetSizes t
      = .ok ((specHeaders SetSizes).take t, (SetSizes.take t).sum) := by
  induction t with
  | zero => rfl
  | succ t ih =>
    have hlt : t < SetSizes.length := ht
    simp only [InitializeSets.headers, ih (Nat.le_of_succ_le ht), bind, Except.bind,
      List.getElem?_eq_getElem hlt, pure, Except.pure]
    have hlen : t < (specHeaders SetSizes).length := by simpa [specHeaders] using hlt
    rw [List.sum_take_succ SetSizes t hlt, List.take_succ, List.getElem?_eq_getElem hlen]
    simp [specHeaders, List.getD_eq_getElem?_getD, List.getElem?_eq_getElem hlt]

theorem InitializeSets_allocator (sizeofDescriptorSet sizeofResource : Nat)
    (c c1 : ShaderResourceCacheVk) (MemAllocator NumSets : Nat) (SetSizes : List Nat)
    (h : InitializeSets sizeofDescriptorSet sizeofResource c MemAllocator NumSets SetSizes
      = .ok c1) :
    c1.m_pAllocator = some MemAllocator := by
  simp only [InitializeSets, except_bind_eq_ok] at h
  obtain ⟨_, _, T, _, R, _, _, _, h⟩ := h
  split at h
  · simp only [except_bind_eq_ok] at h
    obtain ⟨⟨Sets, p⟩, _, _, _, h⟩ := h
    injection h with h
    rw [← h]
  · injection h with h
    rw [← h]

/-- When the block for the headers and any 32-bit number of slots fits `size_t`, a call
of `InitializeSets` that completes leaves the layout of section 3. -/
theorem InitializeSets_HasLayout (sizeofDescriptorSet sizeofResource : Nat)
    (c c1 : ShaderResourceCacheVk) (MemAllocator NumSets : Nat) (SetSizes : List Nat)
    (hN : NumSets = SetSizes.length) (hU32 : ∀ n ∈ SetSizes, n < 2 ^ 32)
    (hDS : 0 < sizeofDescriptorSet) (hRes : 0 < sizeofResource)
    (hfit : NumSets * sizeofDescriptorSet + 2 ^ 32 * sizeofResource ≤ 2 ^ 64)
    (h : InitializeSets sizeofDescriptorSet sizeofResource c MemAllocator NumSets SetSizes
      = .ok c1) :
    c1.HasLayout SetSizes := by
  subst hN
  have hT := TotalResourcesLoop_eq SetSizes SetSizes.length le_rfl
  have hH := headers_eq SetSizes SetSizes.length le_rfl
  rw [List.take_length] at hT hH
  have hlenH : (specHeaders SetSizes).length = SetSizes.length := by simp [specHeaders]
  rw [List.take_of_length_le (le_of_eq hlenH)] at hH
  have hTlt : SetSizes.sum % 2 ^ 32 < 2 ^ 32 := Nat.mod_lt _ (by norm_num)
  have hMlt : SetSizes.length * sizeofDescriptorSet
      + SetSizes.sum % 2 ^ 32 * sizeofResource < 2 ^ 64 := by
    have : SetSizes.sum % 2 ^ 32 * sizeofResource < 2 ^ 32 * sizeofResource :=
      Nat.mul_lt_mul_of_pos_right hTlt hRes
    omega
  simp only [InitializeSets, GetRequiredMemorySize, except_bind_eq_ok, hT, hH,
    Nat.mod_eq_of_lt hMlt] at h
  obtain ⟨_, _, T, hT', R, _, _, _, h⟩ := h
  injection hT' with hT'
  subst hT'
  simp only [Nat.mod_eq_of_lt hMlt] at h
  split at h
  · rename_i hpos
    simp only [except_bind_eq_ok, VERIFY_EXPR_eq_ok, pure, Except.pure] at h
    obtain ⟨⟨Sets, p⟩, hSp, _, hassert, h⟩ := h
    injection hSp with hSp
    injection hSp with hS hp
    subst hS hp
    simp only [decide_eq_true_eq] at hassert
    have hsum : SetSizes.sum = SetSizes.sum % 2 ^ 32 := by
      have := Nat.add_left_cancel hassert
      exact Nat.eq_of_mul_eq_mul_right hRes this
    injection h with h
    subst h
    refine ⟨rfl, hsum.symm, rfl, ?_, hU32⟩
    simp only [ShaderResourceCacheVk.GetFirstResourcePtr, List.length_replicate]
    exact hsum.symm
  · rename_i hpos
    simp only [pure, Except.pure] at h
    injection h with h
    subst h
    have hzero : SetSizes.length * sizeofDescriptorSet
        + SetSizes.sum % 2 ^ 32 * sizeofResource = 0 := by omega
    have hlen0 : SetSizes.length = 0 := by
      rcases Nat.eq_zero_or_pos SetSizes.length with h0 | hp
      · exact h0
      · have := Nat.mul_pos hp hDS
        omega
    have hnil : SetSizes = [] := List.length_eq_zero.mp hlen0
    subst hnil
    exact ⟨rfl, rfl, rfl, rfl, hU32⟩

/-! ## Claims about the memory size and `InitializeSets` -/

/-- C13, at a failing input: for two sets of sizes 4294967295 and 1 the 32-bit
accumulator of `GetRequiredMemorySize` wraps to 0, so the function returns the size of
the two set headers only, which is less than the size with the true sum of the set
sizes, `2*sizeof(DescriptorSet) + 4294967296*sizeof(Resource)`. -/
theorem GetRequiredMemorySize_wraps (sizeofDescriptorSet sizeofResource : Nat)
    (hRes : 0 < sizeofResource) :
    ∃ v, GetRequiredMemorySize sizeofDescriptorSet sizeofResource 2 [4294967295, 1] = .ok v ∧
      v = (2 * sizeofDescriptorSet) % 2 ^ 64 ∧
      v < 2 * sizeofDescriptorSet + (4294967295 + 1) * sizeofResource := by
  refine ⟨(2 * sizeofDescriptorSet) % 2 ^ 64, ?_, rfl, ?_⟩
  · have hT : TotalResourcesLoop [4294967295, 1] 2 = .ok 0 := rfl
    simp [GetRequiredMemorySize, hT, bind, Except.bind, pure, Except.pure]
  · have : (2 * sizeofDescriptorSet) % 2 ^ 64 ≤ 2 * sizeofDescriptorSet := Nat.mod_le _ _
    omega

theorem GetRequiredMemorySize_wraps_witness :
    ∃ v, GetRequiredMemorySize 24 16 2 [4294967295, 1] = .ok v ∧
      v = (2 * 24) % 2 ^ 64 ∧ v < 2 * 24 + (4294967295 + 1) * 16 :=
  GetRequiredMemorySize_wraps 24 16 (by decide)

/-- C14, at a failing input: for two sets of sizes 4294967295 and 1 the block that
`InitializeSets` allocates holds the two headers and no slot, the slices end 4294967296
slots further, and the assertion on the final resource pointer fails. -/
theorem InitializeSets_final_assertion_fails (sizeofDescriptorSet sizeofResource : Nat)
    (MemAllocator : Nat) (hDS : 0 < sizeofDescriptorSet) (hDS' : sizeofDescriptorSet < 2 ^ 63)
    (hRes : 0 < sizeofResource) :
    InitializeSets sizeofDescriptorSet sizeofResource emptyCache MemAllocator 2
        [4294967295, 1]
      = .error (.assertionFailed "(char*)pCurrResPtr == (char*)m_pMemory + MemorySize") := by
  have hT : TotalResourcesLoop [4294967295, 1] 2 = .ok 0 := rfl
  have hH : InitializeSets.headers [4294967295, 1] 2
      = .ok ([⟨4294967295, some 0⟩, ⟨1, some 4294967295⟩], 4294967296) := by
    simp [InitializeSets.headers, bind, Except.bind, pure, Except.pure]
  have hM : (2 * sizeofDescriptorSet + 0 * sizeofResource) % 2 ^ 64
      = 2 * sizeofDescriptorSet := by
    rw [Nat.zero_mul, Nat.add_zero]
    exact Nat.mod_eq_of_lt (by omega)
  have hne : ¬ (2 * sizeofDescriptorSet + 4294967296 * sizeofResource
      = 2 * sizeofDescriptorSet) := by omega
  have hpos : 2 * sizeofDescriptorSet > 0 := by omega
  have hV : VERIFY_EXPR (decide (emptyCache.m_pAllocator = none ∧ emptyCache.m_pMemory = none))
      "Cache already initialized" = .ok () := rfl
  unfold InitializeSets GetRequiredMemorySize
  rw [hV, hT]
  simp only [bind, Except.bind, pure, Except.pure, hM]
  rw [hH]
  simp only [VERIFY_EXPR, decide_True, if_true, hpos, hne, decide_False, pure, Except.pure]
  rfl

theorem InitializeSets_final_assertion_fails_witness :
    InitializeSets 24 16 emptyCache 1 2 [4294967295, 1]
      = .error (.assertionFailed "(char*)pCurrResPtr == (char*)m_pMemory + MemorySize") :=
  InitializeSets_final_assertion_fails 24 16 1 (by norm_num) (by norm_num) (by norm_num)

/-- C15: `InitializeSets` succeeds at most once per cache instance.  After a call that
completed, for whatever arguments (zero sets included, when no memory was allocated),
every further call on the cache trips the assertion `Cache already initialized`. -/
theorem InitializeSets_at_most_once (sizeofDescriptorSet sizeofResource : Nat)
    (c c1 : ShaderResourceCacheVk) (MemAllocator NumSets : Nat) (SetSizes : List Nat)
    (h : InitializeSets sizeofDescriptorSet sizeofResource c MemAllocator NumSets SetSizes
      = .ok c1)
    (MemAllocator' NumSets' : Nat) (SetSizes' : List Nat) :
    InitializeSets sizeofDescriptorSet sizeofResource c1 MemAllocator' NumSets' SetSizes'
      = .error (.assertionFailed "Cache already initialized") := by
  have ha := InitializeSets_allocator _ _ _ _ _ _ _ h
  simp [InitializeSets, VERIFY_EXPR, ha, bind, Except.bind, throw, throwThe,
    MonadExceptOf.throw]

theorem InitializeSets_at_most_once_witness :
    InitializeSets 24 16 emptyCache 1 0 []
      = .ok { m_pAllocator := some 1, m_pMemory := none, m_NumSets := 0,
              m_TotalResources := 0 } ∧
    InitializeSets 24 16 { m_pAllocator := some 1, m_pMemory := none, m_NumSets := 0,
                           m_TotalResources := 0 } 2 3 [1, 2, 3]
      = .error (.assertionFailed "Cache already initialized") :=
  ⟨rfl, InitializeSets_at_most_once 24 16 emptyCache _ 1 0 [] rfl 2 3 [1, 2, 3]⟩

/-! ## Claims about the descriptor writers -/

theorem GetImageDescriptorWriteInfo_eq (r : Resource) (v : TextureViewVkImpl) (imm : Bool)
    (s : State) (hty : r.texture?.isSome = true) (hobj : r.pObject = some (.textureView v))
    (hview : v.ViewType = (if r.Type_ = .StorageImage then
        TEXTURE_VIEW_TYPE.TEXTURE_VIEW_UNORDERED_ACCESS
      else TEXTURE_VIEW_TYPE.TEXTURE_VIEW_SHADER_RESOURCE)) :
    r.GetImageDescriptorWriteInfo imm s = .ok
      ({ sampler :=
           if r.Type_ = .SampledImage ∧ imm = false then
             (match v.pSampler with
              | some pSamplerVk => pSamplerVk.VkSampler
              | none => VK_NULL_HANDLE)
           else VK_NULL_HANDLE
         imageView := v.VulkanImageView
         imageLayout :=
           if r.Type_ = .StorageImage then VK_IMAGE_LAYOUT_GENERAL
           else if (s.Textures v.pTexture).BindFlags &&& BIND_DEPTH_STENCIL ≠ 0 then
             VK_IMAGE_LAYOUT_DEPTH_STENCIL_READ_ONLY_OPTIMAL
           else VK_IMAGE_LAYOUT_SHADER_READ_ONLY_OPTIMAL },
       if r.Type_ = .SampledImage ∧ imm = false ∧ v.pSampler = none then
         LOG_ERROR_MESSAGE s (.noSampler v.Name)
       else s) := by
  obtain ⟨ty, p⟩ := r
  simp only at hobj
  subst hobj
  cases ty <;> simp [Resource.texture?] at hty <;>
    cases imm <;> rcases hs : v.pSampler with _ | sm <;>
    simp [Resource.GetImageDescriptorWriteInfo, VERIFY, derefTextureView, bind, Except.bind,
      pure, Except.pure, hs] at hview ⊢ <;>
    simp [hview]

/-- C18: the layout in the image write info is the layout the transition pass requires
for the same slot.  For an image slot (`StorageImage`, `SampledImage`, `SeparateImage`)
holding a texture view there is one layout `L`, the requirement of the slot, such that
the loop body of `TransitionResources` compares the texture's layout against `L` and
requests `L`; every write info `GetImageDescriptorWriteInfo` returns for the slot has
`imageLayout = L`, also from a store in which the textures are in other layouts; and the
writer does return one when the view has the type it asserts. -/
theorem image_write_layout_is_required_layout (r : Resource) (v : TextureViewVkImpl)
    (s : State) (hty : r.texture?.isSome = true) (hobj : r.pObject = some (.textureView v)) :
    ∃ L, specRequirement s r = .layout v.pTexture L ∧
      (∀ VerifyOnly, TransitionResources.body VerifyOnly (some (some r)) s
        = .ok (specStep VerifyOnly s (.layout v.pTexture L))) ∧
      (∀ imm info st, r.GetImageDescriptorWriteInfo imm s = .ok (info, st) →
        info.imageLayout = L) ∧
      (∀ (layouts : Nat → VkImageLayout) imm info st,
        r.GetImageDescriptorWriteInfo imm
            { s with Textures := fun i => { s.Textures i with m_Layout := layouts i } }
          = .ok (info, st) →
        info.imageLayout = L) ∧
      (v.ViewType = (if r.Type_ = .StorageImage then
            TEXTURE_VIEW_TYPE.TEXTURE_VIEW_UNORDERED_ACCESS
          else TEXTURE_VIEW_TYPE.TEXTURE_VIEW_SHADER_RESOURCE) →
        ∀ imm, ∃ info st, r.GetImageDescriptorWriteInfo imm s = .ok (info, st) ∧
          info.imageLayout = L) := by
  have hready : r.Ready = true := by
    obtain ⟨ty, p⟩ := r
    simp only at hobj
    subst hobj
    cases ty <;> simp_all [Resource.texture?, Resource.Ready]
  have hreq : ∃ L, specRequirement s r = .layout v.pTexture L := by
    obtain ⟨ty, p⟩ := r
    simp only at hobj
    subst hobj
    cases ty <;> simp_all [Resource.texture?, specRequirement]
  obtain ⟨L, hL⟩ := hreq
  have hwrite : ∀ imm info st, r.GetImageDescriptorWriteInfo imm s = .ok (info, st) →
      info.imageLayout = L := by
    intro imm info st hg
    obtain ⟨v', hv', _, hq⟩ := GetImageDescriptorWriteInfo_layout r imm s st info hg
    rw [hL] at hq
    injection hq with _ h2
    exact h2.symm
  refine ⟨L, hL, ?_, hwrite, ?_, ?_⟩
  · intro VerifyOnly
    rw [body_ready VerifyOnly r s hready, hL]
  · intro layouts imm info st hg
    obtain ⟨v', hv', _, hq⟩ := GetImageDescriptorWriteInfo_layout r imm _ st info hg
    have h3 : specRequirement s r = .layout v'.pTexture info.imageLayout := by
      rw [← hq]
      exact specRequirement_of_BindFlags _ _ r (fun i => rfl)
    rw [hL] at h3
    injection h3 with _ h2
    exact h2.symm
  · intro hview imm
    obtain ⟨info, st, hg⟩ := GetImageDescriptorWriteInfo_returns r imm s v hobj hty hview
    exact ⟨info, st, hg, hwrite imm info st hg⟩

theorem image_write_layout_is_required_layout_witness :
    ∃ L, specRequirement exampleState ⟨.SampledImage, some (.textureView exampleSRView)⟩
        = .layout exampleSRView.pTexture L ∧
      (∀ VerifyOnly, TransitionResources.body VerifyOnly
          (some (some ⟨.SampledImage, some (.textureView exampleSRView)⟩)) exampleState
        = .ok (specStep VerifyOnly exampleState (.layout exampleSRView.pTexture L))) ∧
      (∀ imm info st, (Resource.mk .SampledImage (some (.textureView exampleSRView))).GetImageDescriptorWriteInfo
          imm exampleState = .ok (info, st) → info.imageLayout = L) ∧
      (∀ (layouts : Nat → VkImageLayout) imm info st,
        (Resource.mk .SampledImage (some (.textureView exampleSRView))).GetImageDescriptorWriteInfo imm
            { exampleState with
              Textures := fun i => { exampleState.Textures i with m_Layout := layouts i } }
          = .ok (info, st) →
        info.imageLayout = L) ∧
      (exampleSRView.ViewType =
          (if (Resource.mk .SampledImage (some (.textureView exampleSRView))).Type_ = .StorageImage
            then TEXTURE_VIEW_TYPE.TEXTURE_VIEW_UNORDERED_ACCESS
          else TEXTURE_VIEW_TYPE.TEXTURE_VIEW_SHADER_RESOURCE) →
        ∀ imm, ∃ info st,
          (Resource.mk .SampledImage (some (.textureView exampleSRView))).GetImageDescriptorWriteInfo
            imm exampleState = .ok (info, st) ∧
          info.imageLayout = L) :=
  image_write_layout_is_required_layout ⟨.SampledImage, some (.textureView exampleSRView)⟩
    exampleSRView exampleState rfl rfl

/-- C19: the sampler, the view handle and the logging of `GetImageDescriptorWriteInfo`.
For an image slot holding a texture view of the type the writer asserts, the call
returns; the sampler written is the handle of the view's sampler when the slot is a
`SampledImage`, does not use an immutable sampler, and a sampler is assigned to the
view, and the null handle in every other case; the view handle is the bound view's
image view; and the store after the call is the store before it, with one `no sampler`
diagnostic added exactly for a non-immutable `SampledImage` whose view has no sampler. -/
theorem image_write_sampler_and_view (r : Resource) (v : TextureViewVkImpl) (imm : Bool)
    (s : State) (hty : r.texture?.isSome = true) (hobj : r.pObject = some (.textureView v))
    (hview : v.ViewType = (if r.Type_ = .StorageImage then
        TEXTURE_VIEW_TYPE.TEXTURE_VIEW_UNORDERED_ACCESS
      else TEXTURE_VIEW_TYPE.TEXTURE_VIEW_SHADER_RESOURCE)) :
    ∃ info st, r.GetImageDescriptorWriteInfo imm s = .ok (info, st) ∧
      info.sampler =
        (if r.Type_ = .SampledImage ∧ imm = false then
          (match v.pSampler with
           | some pSamplerVk => pSamplerVk.VkSampler
           | none => VK_NULL_HANDLE)
        else VK_NULL_HANDLE) ∧
      info.imageView = v.VulkanImageView ∧
      st = (if r.Type_ = .SampledImage ∧ imm = false ∧ v.pSampler = none then
          LOG_ERROR_MESSAGE s (.noSampler v.Name)
        else s) :=
  ⟨_, _, GetImageDescriptorWriteInfo_eq r v imm s hty hobj hview, rfl, rfl, rfl⟩

theorem image_write_sampler_and_view_witness :
    ∃ info st, (Resource.mk .SampledImage (some (.textureView exampleSRView))).GetImageDescriptorWriteInfo
        false exampleState = .ok (info, st) ∧
      info.sampler =
        (if (Resource.mk .SampledImage (some (.textureView exampleSRView))).Type_ = .SampledImage
            ∧ false = false then
          (match exampleSRView.pSampler with
           | some pSamplerVk => pSamplerVk.VkSampler
           | none => VK_NULL_HANDLE)
        else VK_NULL_HANDLE) ∧
      info.imageView = exampleSRView.VulkanImageView ∧
      st = (if (Resource.mk .SampledImage (some (.textureView exampleSRView))).Type_ = .SampledImage
            ∧ false = false ∧ exampleSRView.pSampler = none then
          LOG_ERROR_MESSAGE exampleState (.noSampler exampleSRView.Name)
        else exampleState) :=
  image_write_sampler_and_view ⟨.SampledImage, some (.textureView exampleSRView)⟩
    exampleSRView false exampleState rfl rfl rfl

/-- C20: the buffer write info.  For a `UniformBuffer` slot holding a buffer and for a
`StorageBuffer` slot holding an unordered-access view, on buffers created with the bind
flag the writer asserts, the write info is the handle of the underlying buffer, offset 0
and the buffer's size in bytes as range; it is the same whatever per-context dynamic
offsets `f` the buffers have. -/
theorem buffer_write_info (s : State) (b : Nat) (v : BufferViewVkImpl) (f : Nat → Nat → Nat)
    (hU : (s.Buffers b).BindFlags &&& BIND_UNIFORM_BUFFER ≠ 0)
    (hV : v.ViewType = .BUFFER_VIEW_UNORDERED_ACCESS)
    (hS : (s.Buffers v.pBuffer).BindFlags &&& BIND_UNORDERED_ACCESS ≠ 0) :
    (Resource.mk .UniformBuffer (some (.buffer b))).GetUniformBufferDescriptorWriteInfo s
      = .ok { buffer := (s.Buffers b).VkBuffer, offset := 0,
              range := (s.Buffers b).uiSizeInBytes } ∧
    (Resource.mk .StorageBuffer (some (.bufferView v))).GetStorageBufferDescriptorWriteInfo s
      = .ok { buffer := (s.Buffers v.pBuffer).VkBuffer, offset := 0,
              range := (s.Buffers v.pBuffer).uiSizeInBytes } ∧
    (Resource.mk .UniformBuffer (some (.buffer b))).GetUniformBufferDescriptorWriteInfo
        (s.withDynamicOffsets f)
      = .ok { buffer := (s.Buffers b).VkBuffer, offset := 0,
               range := (s.Buffers b).uiSizeInBytes } ∧
    (Resource.mk .StorageBuffer (some (.bufferView v))).GetStorageBufferDescriptorWriteInfo
        (s.withDynamicOffsets f)
      = .ok { buffer := (s.Buffers v.pBuffer).VkBuffer, offset := 0,
               range := (s.Buffers v.pBuffer).uiSizeInBytes } := by
  refine ⟨?_, ?_, ?_, ?_⟩ <;>
    simp [Resource.GetUniformBufferDescriptorWriteInfo,
      Resource.GetStorageBufferDescriptorWriteInfo, VERIFY, derefBuffer, derefBufferView,
      State.withDynamicOffsets, bind, Except.bind, pure, Except.pure, hU, hV, hS]

theorem buffer_write_info_witness :
    (Resource.mk .UniformBuffer (some (.buffer 0))).GetUniformBufferDescriptorWriteInfo
        offsetState
      = .ok { buffer := 1, offset := 0, range := 256 } ∧
    (Resource.mk .StorageBuffer
        (some (.bufferView exampleBufferView))).GetStorageBufferDescriptorWriteInfo offsetState
      = .ok { buffer := 1, offset := 0, range := 256 } ∧
    (Resource.mk .UniformBuffer (some (.buffer 0))).GetUniformBufferDescriptorWriteInfo
        (offsetState.withDynamicOffsets (fun _ _ => 4096))
      = .ok { buffer := 1, offset := 0, range := 256 } ∧
    (Resource.mk .StorageBuffer
        (some (.bufferView exampleBufferView))).GetStorageBufferDescriptorWriteInfo
        (offsetState.withDynamicOffsets (fun _ _ => 4096))
      = .ok { buffer := 1, offset := 0, range := 256 } :=
  buffer_write_info offsetState 0 exampleBufferView (fun _ _ => 4096) (by decide) rfl
    (by decide)

/-! ## The dynamic offset collector on a cache that consists of given sets -/

theorem HasSets_get (c : ShaderResourceCacheVk) (sets : List (List Resource))
    (h : c.HasSets sets) (i : Nat) (hi : i < sets.length) :
    ∃ d, c.GetDescriptorSet i = .ok d ∧ d.m_NumResources = sets[i].length ∧
      ∀ j (hj : j < sets[i].length), c.GetResource d j = .ok (sets[i][j]) := by
  obtain ⟨hsz, hslots⟩ := h.2 i hi
  have hgetD : sets.getD i [] = sets[i] := by
    simp [List.getD_eq_getElem?_getD, List.getElem?_eq_getElem hi]
  rw [hgetD] at hsz hslots
  cases hd : c.GetDescriptorSet i with
  | error e => rw [hd] at hsz; simp [Except.toOption] at hsz
  | ok d =>
    rw [hd] at hsz
    simp only [Except.toOption, Option.map_some', Option.some.injEq] at hsz
    refine ⟨d, rfl, hsz, ?_⟩
    intro j hj
    have hs := hslots j hj
    simp only [ShaderResourceCacheVk.setSlot, hd, List.getElem?_eq_getElem hj,
      Option.map_some'] at hs
    simp only [ShaderResourceCacheVk.GetResource, bind, Except.bind]
    cases hidx : d.resourceIndex j with
    | error e => rw [hidx] at hs; cases hs
    | ok idx =>
      rw [hidx] at hs
      simp only at hs
      simp only [hs, pure, Except.pure]

theorem take_set_succ (offs : List Nat) (ind v : Nat) (h : ind < offs.length) :
    (offs.set ind v).take (ind + 1) = offs.take ind ++ [v] := by
  rw [List.set_eq_take_append_cons_drop, if_pos h]
  have hlen : (List.take ind offs).length = ind := by simp [Nat.min_eq_left (le_of_lt h)]
  rw [List.take_append_eq_append_take, hlen, List.take_of_length_le (by omega)]
  simp

theorem drop_set_succ (offs : List Nat) (ind v k : Nat) :
    (offs.set ind v).drop (ind + 1 + k) = offs.drop (ind + 1 + k) := by
  rw [List.drop_set, if_pos (by omega)]

/-- Writing `v` at `ind` and then the values `vals` from `ind + 1` on. -/
theorem write_step (offs : List Nat) (ind v n : Nat) (vals : List Nat) (h : ind < offs.length) :
    (offs.set ind v).take (ind + 1) ++ vals ++ (offs.set ind v).drop (ind + 1 + n)
      = offs.take ind ++ (v :: vals) ++ offs.drop (ind + (n + 1)) := by
  rw [take_set_succ offs ind v h, drop_set_succ]
  have : ind + 1 + n = ind + (n + 1) := by omega
  rw [this]
  simp

theorem uniform_ready (r : Resource) (hty : r.Type_ = .UniformBuffer) (hr : r.Ready = true) :
    ∃ b, r.pObject = some (.buffer b) ∧ r.buffer? = some b := by
  obtain ⟨ty, p⟩ := r
  simp only at hty
  subst hty
  rcases p with _ | (b | v | v | sm) <;> simp_all [Resource.Ready, Resource.buffer?]

theorem storage_ready (r : Resource) (hty : r.Type_ = .StorageBuffer) (hr : r.Ready = true) :
    ∃ v, r.pObject = some (.bufferView v) ∧ r.buffer? = some v.pBuffer := by
  obtain ⟨ty, p⟩ := r
  simp only at hty
  subst hty
  rcases p with _ | (b | v | v | sm) <;> simp_all [Resource.Ready, Resource.buffer?]

/-- The first loop collects the offsets of the leading run of `UniformBuffer` slots
among the slots that are left. -/
theorem uniformLoop_eq (c : ShaderResourceCacheVk) (CtxId : Nat) (s : State)
    (d : DescriptorSet) (L : List Resource) (hsize : d.m_NumResources = L.length)
    (hget : ∀ j (hj : j < L.length), c.GetResource d j = .ok (L[j]))
    (k : Nat) (hk : k ≤ L.length) (ind : Nat) (offs : List Nat)
    (hready : ∀ r ∈ (L.drop (L.length - k)).takeWhile (fun r => r.Type_ = .UniformBuffer),
      r.Ready = true)
    (hroom : ind + ((L.drop (L.length - k)).takeWhile
      (fun r => r.Type_ = .UniformBuffer)).length ≤ offs.length)
    (h32 : ind + ((L.drop (L.length - k)).takeWhile
      (fun r => r.Type_ = .UniformBuffer)).length < 2 ^ 32) :
    GetDynamicBufferOffsets.uniformLoop c CtxId s d k ind offs
      = .ok (L.length - k + ((L.drop (L.length - k)).takeWhile
                (fun r => r.Type_ = .UniformBuffer)).length,
             ind + ((L.drop (L.length - k)).takeWhile
                (fun r => r.Type_ = .UniformBuffer)).length,
             offs.take ind
               ++ ((L.drop (L.length - k)).takeWhile
                    (fun r => r.Type_ = .UniformBuffer)).map (Resource.dynamicOffset s CtxId)
               ++ offs.drop (ind + ((L.drop (L.length - k)).takeWhile
                    (fun r => r.Type_ = .UniformBuffer)).length)) := by
  induction k generalizing ind offs with
  | zero =>
    simp [GetDynamicBufferOffsets.uniformLoop, hsize, pure, Except.pure]
  | succ k ih =>
    have hres : L.length - (k + 1) < L.length := by omega
    have hdrop : L.drop (L.length - (k + 1))
        = L[L.length - (k + 1)] :: L.drop (L.length - k) := by
      rw [List.drop_eq_getElem_cons hres]
      congr 2
      omega
    rw [hdrop] at hready hroom h32 ⊢
    simp only [GetDynamicBufferOffsets.uniformLoop, hsize, hget _ hres, liftFault, bind,
      Except.bind]
    by_cases hty : (L[L.length - (k + 1)]).Type_ = .UniformBuffer
    · simp only [List.takeWhile_cons, hty, decide_True, if_true, List.length_cons,
        List.map_cons] at hready hroom h32 ⊢
      obtain ⟨b, hobj, hbuf⟩ := uniform_ready _ hty (hready _ (List.mem_cons_self _ _))
      have hind : ind < offs.length := by omega
      have hmod : (ind + 1) % 2 ^ 32 = ind + 1 := Nat.mod_eq_of_lt (by omega)
      simp only [ne_eq, not_true_eq_false, if_false, hobj, derefBuffer, writeOffset, hind,
        if_true, pure, Except.pure, hmod]
      rw [ih (by omega) (ind + 1) (offs.set ind _)
        (fun r hr => hready r (List.mem_cons_of_mem _ hr))
        (by simp only [List.length_set]; omega) (by omega)]
      rw [write_step offs ind _ _ _ hind]
      refine congrArg Except.ok (Prod.ext ?_ (Prod.ext ?_ ?_))
      · simp only; omega
      · simp only; omega
      · simp only [Resource.dynamicOffset, hbuf]
    · simp [List.takeWhile_cons, hty, pure, Except.pure]

/-- The second loop collects the offsets of the leading run of `StorageBuffer` slots
among the slots that are left. -/
theorem storageLoop_eq (c : ShaderResourceCacheVk) (CtxId : Nat) (s : State)
    (d : DescriptorSet) (L : List Resource) (hsize : d.m_NumResources = L.length)
    (hget : ∀ j (hj : j < L.length), c.GetResource d j = .ok (L[j]))
    (k : Nat) (hk : k ≤ L.length) (ind : Nat) (offs : List Nat)
    (hready : ∀ r ∈ (L.drop (L.length - k)).takeWhile (fun r => r.Type_ = .StorageBuffer),
      r.Ready = true)
    (hroom : ind + ((L.drop (L.length - k)).takeWhile
      (fun r => r.Type_ = .StorageBuffer)).length ≤ offs.length)
    (h32 : ind + ((L.drop (L.length - k)).takeWhile
      (fun r => r.Type_ = .StorageBuffer)).length < 2 ^ 32) :
    GetDynamicBufferOffsets.storageLoop c CtxId s d k ind offs
      = .ok (L.length - k + ((L.drop (L.length - k)).takeWhile
                (fun r => r.Type_ = .StorageBuffer)).length,
             ind + ((L.drop (L.length - k)).takeWhile
                (fun r => r.Type_ = .StorageBuffer)).length,
             offs.take ind
               ++ ((L.drop (L.length - k)).takeWhile
                    (fun r => r.Type_ = .StorageBuffer)).map (Resource.dynamicOffset s CtxId)
               ++ offs.drop (ind + ((L.drop (L.length - k)).takeWhile
                    (fun r => r.Type_ = .StorageBuffer)).length)) := by
  induction k generalizing ind offs with
  | zero =>
    simp [GetDynamicBufferOffsets.storageLoop, hsize, pure, Except.pure]
  | succ k ih =>
    have hres : L.length - (k + 1) < L.length := by omega
    have hdrop : L.drop (L.length - (k + 1))
        = L[L.length - (k + 1)] :: L.drop (L.length - k) := by
      rw [List.drop_eq_getElem_cons hres]
      congr 2
      omega
    rw [hdrop] at hready hroom h32 ⊢
    simp only [GetDynamicBufferOffsets.storageLoop, hsize, hget _ hres, liftFault, bind,
      Except.bind]
    by_cases hty : (L[L.length - (k + 1)]).Type_ = .StorageBuffer
    · simp only [List.takeWhile_cons, hty, decide_True, if_true, List.length_cons,
        List.map_cons] at hready hroom h32 ⊢
      obtain ⟨v, hobj, hbuf⟩ := storage_ready _ hty (hready _ (List.mem_cons_self _ _))
      have hind : ind < offs.length := by omega
      have hmod : (ind + 1) % 2 ^ 32 = ind + 1 := Nat.mod_eq_of_lt (by omega)
      simp only [ne_eq, not_true_eq_false, if_false, hobj, derefBufferView, writeOffset, hind,
        if_true, pure, Except.pure, hmod]
      rw [ih (by omega) (ind + 1) (offs.set ind _)
        (fun r hr => hready r (List.mem_cons_of_mem _ hr))
        (by simp only [List.length_set]; omega) (by omega)]
      rw [write_step offs ind _ _ _ hind]
      refine congrArg Except.ok (Prod.ext ?_ (Prod.ext ?_ ?_))
      · simp only; omega
      · simp only; omega
      · simp only [Resource.dynamicOffset, hbuf]
    · simp [List.takeWhile_cons, hty, pure, Except.pure]

theorem debugLoop_ok (c : ShaderResourceCacheVk) (s : State)
    (d : DescriptorSet) (L : List Resource) (hsize : d.m_NumResources = L.length)
    (hget : ∀ j (hj : j < L.length), c.GetResource d j = .ok (L[j]))
    (k : Nat) (hk : k ≤ L.length)
    (hrest : ∀ r ∈ L.drop (L.length - k),
      r.Type_ ≠ .UniformBuffer ∧ r.Type_ ≠ .StorageBuffer) :
    GetDynamicBufferOffsets.debugLoop c s d k = .ok () := by
  induction k with
  | zero => rfl
  | succ k ih =>
    have hres : L.length - (k + 1) < L.length := by omega
    have hdrop : L.drop (L.length - (k + 1))
        = L[L.length - (k + 1)] :: L.drop (L.length - k) := by
      rw [List.drop_eq_getElem_cons hres]
      congr 2
      omega
    rw [hdrop] at hrest
    have h1 := hrest _ (List.mem_cons_self _ _)
    simp only [GetDynamicBufferOffsets.debugLoop, hsize, hget _ hres, liftFault, bind,
      Except.bind, VERIFY, h1, ne_eq, not_false_eq_true, and_self, decide_True, if_true, pure,
      Except.pure]
    exact ih (by omega) (fun r hr => hrest r (List.mem_cons_of_mem _ hr))

theorem drop_length_takeWhile {α : Type} (p : α → Bool) (L : List α) :
    L.drop (L.takeWhile p).length = L.dropWhile p := by
  induction L with
  | nil => rfl
  | cons a L ih =>
    by_cases h : p a = true
    · simp [List.takeWhile_cons, List.dropWhile_cons, h, ih]
    · simp [List.takeWhile_cons, List.dropWhile_cons, h]

theorem length_takeWhile_add_dropWhile {α : Type} (p : α → Bool) (L : List α) :
    (L.takeWhile p).length + (L.dropWhile p).length = L.length := by
  rw [← List.length_append, List.takeWhile_append_dropWhile]

/-- Writing the block `B` right after the block `A` that was written at `ind`. -/
theorem write_block (W : List Nat) (ind a n : Nat) (A B : List Nat) (ha : A.length = a)
    (hroom : ind + a ≤ W.length) :
    (W.take ind ++ A ++ W.drop (ind + a)).take (ind + a) ++ B
        ++ (W.take ind ++ A ++ W.drop (ind + a)).drop (ind + a + n)
      = W.take ind ++ (A ++ B) ++ W.drop (ind + a + n) := by
  have hlen : (W.take ind ++ A).length = ind + a := by
    simp [ha, Nat.min_eq_left (show ind ≤ W.length by omega)]
  have h1 : (W.take ind ++ A ++ W.drop (ind + a)).take (ind + a) = W.take ind ++ A :=
    List.take_left' hlen
  have h2 : (W.take ind ++ A ++ W.drop (ind + a)).drop (ind + a + n)
      = W.drop (ind + a + n) := by
    have e : ind + a + n = (W.take ind ++ A).length + n := by omega
    rw [e, List.drop_append, List.drop_drop, hlen]
  rw [h1, h2]
  simp

theorem length_write (W : List Nat) (ind a : Nat) (A : List Nat) (ha : A.length = a)
    (hroom : ind + a ≤ W.length) :
    (W.take ind ++ A ++ W.drop (ind + a)).length = W.length := by
  simp [ha]
  omega

/-- One iteration of the loop over the sets: the offsets of the leading dynamic slots of
the set are written from `ind` on, in slot order. -/
theorem GetDynamicBufferOffsets_body_eq (DEBUG : Bool) (c : ShaderResourceCacheVk)
    (CtxId : Nat) (s : State) (i : Nat) (d : DescriptorSet) (L : List Resource)
    (hd : c.GetDescriptorSet i = .ok d) (hsize : d.m_NumResources = L.length)
    (hget : ∀ j (hj : j < L.length), c.GetResource d j = .ok (L[j]))
    (hready : ∀ r ∈ leadingDynamicSlots L, r.Ready = true)
    (hdebug : DEBUG = true →
      ∀ r ∈ trailingSlots L, r.Type_ ≠ .UniformBuffer ∧ r.Type_ ≠ .StorageBuffer)
    (W : List Nat) (ind : Nat) (hroom : ind + (leadingDynamicSlots L).length ≤ W.length)
    (h32 : ind + (leadingDynamicSlots L).length < 2 ^ 32) :
    GetDynamicBufferOffsets.body DEBUG c CtxId s i ind W
      = .ok (ind + (leadingDynamicSlots L).length,
             W.take ind ++ (leadingDynamicSlots L).map (Resource.dynamicOffset s CtxId)
               ++ W.drop (ind + (leadingDynamicSlots L).length)) := by
  simp only [leadingDynamicSlots, trailingSlots, List.length_append, List.mem_append,
    List.map_append] at hready hdebug hroom h32 ⊢
  generalize hU : L.takeWhile (fun r => decide (r.Type_ = .UniformBuffer)) = U at *
  generalize hD : L.dropWhile (fun r => decide (r.Type_ = .UniformBuffer)) = D at *
  generalize hS : D.takeWhile (fun r => decide (r.Type_ = .StorageBuffer)) = S at *
  have hUD : U.length + D.length = L.length := by
    rw [← hU, ← hD]; exact length_takeWhile_add_dropWhile _ L
  have hSD : S.length + (D.dropWhile (fun r => decide (r.Type_ = .StorageBuffer))).length
      = D.length := by
    rw [← hS]; exact length_takeWhile_add_dropWhile _ D
  have hdropU : L.drop U.length = D := by
    rw [← hU, ← hD]; exact drop_length_takeWhile _ L
  have hdropS : L.drop (U.length + S.length)
      = D.dropWhile (fun r => decide (r.Type_ = .StorageBuffer)) := by
    rw [← List.drop_drop, hdropU, ← hS]
    exact drop_length_takeWhile _ D
  have h1 := uniformLoop_eq c CtxId s d L hsize hget L.length le_rfl ind W
    (by simpa [hU] using fun r hr => hready r (Or.inl hr))
    (by simp only [Nat.sub_self, List.drop_zero, hU]; omega)
    (by simp only [Nat.sub_self, List.drop_zero, hU]; omega)
  simp only [Nat.sub_self, List.drop_zero, hU, Nat.zero_add] at h1
  have hk2 : L.length - (L.length - U.length) = U.length := by omega
  have hlenW1 := length_write W ind U.length (U.map (Resource.dynamicOffset s CtxId))
    (by simp) (by omega)
  have h2 := storageLoop_eq c CtxId s d L hsize hget (L.length - U.length) (by omega)
    (ind + U.length)
    (W.take ind ++ U.map (Resource.dynamicOffset s CtxId) ++ W.drop (ind + U.length))
    (by rw [hk2, hdropU, hS]; exact fun r hr => hready r (Or.inr hr))
    (by rw [hk2, hdropU, hS, hlenW1]; omega) (by rw [hk2, hdropU, hS]; omega)
  rw [hk2, hdropU, hS] at h2
  have h3 : DEBUG = true →
      GetDynamicBufferOffsets.debugLoop c s d (L.length - (U.length + S.length)) = .ok () := by
    intro hdbg
    apply debugLoop_ok c s d L hsize hget _ (by omega)
    rw [show L.length - (L.length - (U.length + S.length)) = U.length + S.length by omega,
      hdropS]
    exact hdebug hdbg
  simp only [GetDynamicBufferOffsets.body, hd, liftFault, bind, Except.bind, hsize, h1, h2]
  have hwb := write_block W ind U.length S.length (U.map (Resource.dynamicOffset s CtxId))
    (S.map (Resource.dynamicOffset s CtxId)) (by simp) (by omega)
  cases DEBUG with
  | false =>
    simp only [Bool.false_eq_true, if_false, pure, Except.pure]
    refine congrArg Except.ok (Prod.ext ?_ ?_)
    · simp only; omega
    · simp only
      rw [← Nat.add_assoc]
      exact hwb
  | true =>
    simp only [if_true]
    rw [show L.length - (U.length + S.length) = L.length - (U.length + S.length) from rfl,
      h3 rfl]
    simp only [pure, Except.pure]
    refine congrArg Except.ok (Prod.ext ?_ ?_)
    · simp only; omega
    · simp only
      rw [← Nat.add_assoc]
      exact hwb

theorem flatMap_take_succ (sets : List (List Resource)) (n : Nat) (hn : n < sets.length) :
    (sets.take (n + 1)).flatMap leadingDynamicSlots
      = (sets.take n).flatMap leadingDynamicSlots ++ leadingDynamicSlots sets[n] := by
  rw [List.take_succ, List.getElem?_eq_getElem hn]
  simp only [Option.toList_some, List.flatMap_append, List.flatMap_cons, List.flatMap_nil,
    List.append_nil]

theorem flatMap_take_length_le (sets : List (List Resource)) (n : Nat) :
    ((sets.take n).flatMap leadingDynamicSlots).length
      ≤ (sets.flatMap leadingDynamicSlots).length := by
  conv_rhs => rw [← List.take_append_drop n sets]
  rw [List.flatMap_append, List.length_append]
  omega

/-- The loop over the sets, on a cache that consists of the sets `sets`: after `n` sets
the vector starts with the offsets of the leading dynamic slots of the first `n` sets, in
order, the rest of it is untouched, and `OffsetInd` is their number. -/
theorem GetDynamicBufferOffsets_iterations_eq (DEBUG : Bool) (c : ShaderResourceCacheVk)
    (CtxId : Nat) (s : State) (sets : List (List Resource)) (offs : List Nat)
    (hsets : c.HasSets sets)
    (hready : ∀ L ∈ sets, ∀ r ∈ leadingDynamicSlots L, r.Ready = true)
    (hdebug : DEBUG = true → ∀ L ∈ sets, ∀ r ∈ trailingSlots L,
      r.Type_ ≠ .UniformBuffer ∧ r.Type_ ≠ .StorageBuffer)
    (hroom : (sets.flatMap leadingDynamicSlots).length ≤ offs.length)
    (h32 : (sets.flatMap leadingDynamicSlots).length < 2 ^ 32) (n : Nat) (hn : n ≤ sets.length) :
    GetDynamicBufferOffsets.iterations DEBUG c CtxId s offs n
      = .ok (((sets.take n).flatMap leadingDynamicSlots).length,
             ((sets.take n).flatMap leadingDynamicSlots).map (Resource.dynamicOffset s CtxId)
               ++ offs.drop ((sets.take n).flatMap leadingDynamicSlots).length) := by
  induction n with
  | zero => simp [GetDynamicBufferOffsets.iterations, pure, Except.pure]
  | succ n ih =>
    have hlt : n < sets.length := hn
    have ihn := ih (Nat.le_of_succ_le hn)
    obtain ⟨d, hd, hsize, hget⟩ := HasSets_get c sets hsets n hlt
    have hmem : sets[n] ∈ sets := List.getElem_mem _
    have hsucc := flatMap_take_succ sets n hlt
    have hle := flatMap_take_length_le sets (n + 1)
    rw [hsucc, List.length_append] at hle
    generalize hV : (sets.take n).flatMap leadingDynamicSlots = V at *
    have hWlen : (V.map (Resource.dynamicOffset s CtxId) ++ offs.drop V.length).length
        = offs.length := by
      simp only [List.length_append, List.length_map, List.length_drop]
      omega
    have hb := GetDynamicBufferOffsets_body_eq DEBUG c CtxId s n d sets[n] hd hsize hget
      (hready _ hmem) (fun h => hdebug h _ hmem)
      (V.map (Resource.dynamicOffset s CtxId) ++ offs.drop V.length) V.length
      (by rw [hWlen]; omega) (by omega)
    simp only [GetDynamicBufferOffsets.iterations, ihn, bind, Except.bind, hb, hsucc]
    refine congrArg Except.ok (Prod.ext ?_ ?_)
    · simp only [List.length_append]
    · simp only [List.length_append, List.map_append]
      have e1 : List.take V.length
          (V.map (Resource.dynamicOffset s CtxId) ++ offs.drop V.length)
          = V.map (Resource.dynamicOffset s CtxId) :=
        List.take_left' (by simp)
      have e2 : List.drop (V.length + (leadingDynamicSlots sets[n]).length)
          (V.map (Resource.dynamicOffset s CtxId) ++ offs.drop V.length)
          = offs.drop (V.length + (leadingDynamicSlots sets[n]).length) := by
        have e : V.length + (leadingDynamicSlots sets[n]).length
            = (V.map (Resource.dynamicOffset s CtxId)).length
              + (leadingDynamicSlots sets[n]).length := by simp
        rw [e, List.drop_append, List.drop_drop]
        simp
      rw [e1, e2]

/-- On a cache that consists of the sets `sets`, whose leading dynamic slots are bound,
with a vector that has room, `GetDynamicBufferOffsets` returns the number of leading
dynamic slots and has written their offsets to the start of the vector. -/
theorem GetDynamicBufferOffsets_eq (DEBUG : Bool) (c : ShaderResourceCacheVk)
    (CtxId : Nat) (s : State) (sets : List (List Resource)) (offs : List Nat)
    (hsets : c.HasSets sets)
    (hready : ∀ L ∈ sets, ∀ r ∈ leadingDynamicSlots L, r.Ready = true)
    (hdebug : DEBUG = true → ∀ L ∈ sets, ∀ r ∈ trailingSlots L,
      r.Type_ ≠ .UniformBuffer ∧ r.Type_ ≠ .StorageBuffer)
    (hroom : (sets.flatMap leadingDynamicSlots).length ≤ offs.length)
    (h32 : (sets.flatMap leadingDynamicSlots).length < 2 ^ 32) :
    GetDynamicBufferOffsets DEBUG c CtxId offs s
      = .ok ((sets.flatMap leadingDynamicSlots).length,
             (sets.flatMap leadingDynamicSlots).map (Resource.dynamicOffset s CtxId)
               ++ offs.drop (sets.flatMap leadingDynamicSlots).length) := by
  have h := GetDynamicBufferOffsets_iterations_eq DEBUG c CtxId s sets offs hsets hready
    hdebug hroom h32 sets.length le_rfl
  rw [List.take_length] at h
  rw [GetDynamicBufferOffsets, hsets.1]
  exact h

/-! ## Canonically ordered sets -/

theorem rank_eq_zero_iff (t : ResourceType) : t.rank = 0 ↔ t = .UniformBuffer := by
  cases t <;> simp [ResourceType.rank]

theorem rank_eq_one_iff (t : ResourceType) : t.rank = 1 ↔ t = .StorageBuffer := by
  cases t <;> simp [ResourceType.rank]

theorem rank_le_two (t : ResourceType) : t.rank ≤ 2 := by
  cases t <;> simp [ResourceType.rank]

/-- In a list sorted by rank whose elements all have rank at least `k`, the leading run
of rank `k` is all of the elements of rank `k`, and what follows has a higher rank. -/
theorem canonical_run (k : Nat) (L : List Resource) (hc : CanonicalOrder L)
    (hk : ∀ r ∈ L, k ≤ r.Type_.rank) :
    L.takeWhile (fun r => r.Type_.rank = k) = L.filter (fun r => r.Type_.rank = k) ∧
    (∀ r ∈ L.dropWhile (fun r => r.Type_.rank = k), k + 1 ≤ r.Type_.rank) ∧
    CanonicalOrder (L.dropWhile (fun r => r.Type_.rank = k)) := by
  induction L with
  | nil => exact ⟨rfl, fun r hr => absurd hr (List.not_mem_nil r), List.Pairwise.nil⟩
  | cons a L ih =>
    have hc' : CanonicalOrder L := (List.pairwise_cons.mp hc).2
    have hle : ∀ r ∈ L, a.Type_.rank ≤ r.Type_.rank := (List.pairwise_cons.mp hc).1
    by_cases ha : a.Type_.rank = k
    · obtain ⟨h1, h2, h3⟩ := ih hc' (fun r hr => hk r (List.mem_cons_of_mem _ hr))
      simp only [List.takeWhile_cons, List.dropWhile_cons, List.filter_cons, ha, decide_True,
        if_true]
      exact ⟨by rw [h1], h2, h3⟩
    · have hgt : k + 1 ≤ a.Type_.rank := by
        have := hk a (List.mem_cons_self _ _)
        omega
      have hnone : L.filter (fun r => decide (r.Type_.rank = k)) = [] := by
        rw [List.filter_eq_nil_iff]
        intro r hr
        have := hle r hr
        simp only [decide_eq_true_eq]
        omega
      simp only [List.takeWhile_cons, List.dropWhile_cons, List.filter_cons, ha, decide_False,
        Bool.false_eq_true, if_false, hnone]
      refine ⟨by first | rfl | trivial, ?_, hc⟩
      intro r hr
      rcases List.mem_cons.mp hr with rfl | hr
      · exact hgt
      · exact le_trans hgt (hle r hr)

theorem isUniform_eq_rank :
    (fun r : Resource => decide (r.Type_ = .UniformBuffer))
      = (fun r : Resource => decide (r.Type_.rank = 0)) := by
  funext r
  simp [rank_eq_zero_iff]

theorem isStorage_eq_rank :
    (fun r : Resource => decide (r.Type_ = .StorageBuffer))
      = (fun r : Resource => decide (r.Type_.rank = 1)) := by
  funext r
  simp [rank_eq_one_iff]

/-- In a canonically ordered set the two loops collect every `UniformBuffer` slot, then
every `StorageBuffer` slot, and no dynamic slot is left behind them. -/
theorem canonical_leading (L : List Resource) (hc : CanonicalOrder L) :
    leadingDynamicSlots L
      = L.filter (fun r => r.Type_ = .UniformBuffer)
        ++ L.filter (fun r => r.Type_ = .StorageBuffer) ∧
    ∀ r ∈ trailingSlots L, r.Type_ ≠ .UniformBuffer ∧ r.Type_ ≠ .StorageBuffer := by
  obtain ⟨h1, h2, h3⟩ := canonical_run 0 L hc (fun r _ => Nat.zero_le _)
  obtain ⟨h4, h5, _⟩ := canonical_run 1 _ h3 h2
  have hsplit : L.filter (fun r => decide (r.Type_.rank = 1))
      = (L.dropWhile (fun r => decide (r.Type_.rank = 0))).filter
          (fun r => decide (r.Type_.rank = 1)) := by
    conv_lhs => rw [← List.takeWhile_append_dropWhile (fun r => decide (r.Type_.rank = 0)) L]
    rw [List.filter_append, h1, List.filter_filter]
    have : L.filter (fun r => decide (r.Type_.rank = 1) && decide (r.Type_.rank = 0)) = [] := by
      rw [List.filter_eq_nil_iff]
      intro r _
      simp only [Bool.and_eq_true, decide_eq_true_eq, not_and]
      omega
    rw [this, List.nil_append]
  simp only [leadingDynamicSlots, trailingSlots, isUniform_eq_rank, isStorage_eq_rank]
  refine ⟨by rw [h1, h4, hsplit], ?_⟩
  intro r hr
  have := h5 r hr
  constructor
  · intro h
    rw [h] at this
    simp [ResourceType.rank] at this
  · intro h
    rw [h] at this
    simp [ResourceType.rank] at this

theorem canonical_flatMap (sets : List (List Resource)) (hc : ∀ L ∈ sets, CanonicalOrder L) :
    sets.flatMap leadingDynamicSlots = specDynamicSlots sets := by
  induction sets with
  | nil => rfl
  | cons L sets ih =>
    simp only [specDynamicSlots, List.flatMap_cons] at ih ⊢
    rw [ih (fun M hM => hc M (List.mem_cons_of_mem _ hM)),
      (canonical_leading L (hc L (List.mem_cons_self _ _))).1]

theorem length_specDynamicSlots (sets : List (List Resource)) :
    (specDynamicSlots sets).length = specDynamicCount sets := by
  induction sets with
  | nil => rfl
  | cons L sets ih =>
    simp only [specDynamicSlots, specDynamicCount, List.flatMap_cons, List.length_append,
      List.map_cons, List.sum_cons, List.countP_eq_length_filter] at ih ⊢
    rw [ih]

/-- The collector on a canonically ordered, fully bound cache. -/
theorem GetDynamicBufferOffsets_canonical_eq (DEBUG : Bool) (c : ShaderResourceCacheVk)
    (CtxId : Nat) (s : State) (sets : List (List Resource)) (offs : List Nat)
    (hsets : c.HasSets sets) (hcanon : ∀ L ∈ sets, CanonicalOrder L)
    (hready : ∀ L ∈ sets, ∀ r ∈ L, r.Ready = true)
    (hroom : (specDynamicSlots sets).length ≤ offs.length)
    (h32 : (specDynamicSlots sets).length < 2 ^ 32) :
    GetDynamicBufferOffsets DEBUG c CtxId offs s
      = .ok ((specDynamicSlots sets).length,
             specDynamicOffsets s CtxId sets ++ offs.drop (specDynamicSlots sets).length) := by
  have hfm := canonical_flatMap sets hcanon
  have h := GetDynamicBufferOffsets_eq DEBUG c CtxId s sets offs hsets
    (fun L hL r hr => by
      apply hready L hL
      simp only [leadingDynamicSlots, List.mem_append] at hr
      rcases hr with hr | hr
      · exact (List.takeWhile_sublist _).subset hr
      · exact (List.dropWhile_sublist _).subset ((List.takeWhile_sublist _).subset hr))
    (fun _ L hL => (canonical_leading L (hcanon L hL)).2)
    (by rw [hfm]; exact hroom) (by rw [hfm]; exact h32)
  rw [hfm] at h
  exact h

/-! ## Claims about the dynamic offset collector -/

/-- C11, as stated, fails: on a fully bound cache whose only set is `SampledImage`,
`UniformBuffer`, the set has one dynamic slot, but the collector stops at the first slot:
a release build returns 0 and writes nothing, a debug build trips the assertion on the
order of the slots. -/
theorem GetDynamicBufferOffsets_misses_unordered_slot :
    nonCanonicalCache.HasSets [[⟨.SampledImage, some (.textureView exampleSRView)⟩,
                                ⟨.UniformBuffer, some (.buffer 0)⟩]] ∧
    nonCanonicalCache.Ready ∧
    specDynamicCount [[⟨.SampledImage, some (.textureView exampleSRView)⟩,
                       ⟨.UniformBuffer, some (.buffer 0)⟩]] = 1 ∧
    GetDynamicBufferOffsets false nonCanonicalCache 0 [7] exampleState = .ok (0, [7]) ∧
    GetDynamicBufferOffsets true nonCanonicalCache 0 [7] exampleState
      = .error (.assertionFailed
          "All uniform and storage buffers are expected to go first in the beginning of each descriptor set",
          exampleState) :=
  ⟨by decide, by decide, rfl, rfl, rfl⟩

/-- C11, amended: for every canonically ordered, fully bound cache, and a vector with
room for the offsets, the return value of `GetDynamicBufferOffsets` is the total count of
`UniformBuffer` plus `StorageBuffer` slots across all sets. -/
theorem GetDynamicBufferOffsets_returns_count (DEBUG : Bool) (c : ShaderResourceCacheVk)
    (CtxId : Nat) (s : State) (sets : List (List Resource)) (offs : List Nat)
    (hsets : c.HasSets sets) (hcanon : ∀ L ∈ sets, CanonicalOrder L)
    (hready : ∀ L ∈ sets, ∀ r ∈ L, r.Ready = true)
    (hroom : specDynamicCount sets ≤ offs.length) (h32 : specDynamicCount sets < 2 ^ 32) :
    ∃ W, GetDynamicBufferOffsets DEBUG c CtxId offs s = .ok (specDynamicCount sets, W) := by
  have hlen := length_specDynamicSlots sets
  have h := GetDynamicBufferOffsets_canonical_eq DEBUG c CtxId s sets offs hsets hcanon hready
    (by rw [hlen]; exact hroom) (by rw [hlen]; exact h32)
  rw [hlen] at h
  exact ⟨_, h⟩

theorem GetDynamicBufferOffsets_returns_count_witness :
    ∃ W, GetDynamicBufferOffsets true
        (scenarioCache 0 (some (.textureView exampleSRView))
          (some (.bufferView exampleBufferView))) 0 [7, 7, 7] offsetState
      = .ok (specDynamicCount
          [[⟨.UniformBuffer, some (.buffer 0)⟩,
            ⟨.SampledImage, some (.textureView exampleSRView)⟩],
           [⟨.StorageBuffer, some (.bufferView exampleBufferView)⟩]], W) :=
  GetDynamicBufferOffsets_returns_count true
    (scenarioCache 0 (some (.textureView exampleSRView)) (some (.bufferView exampleBufferView)))
    0 offsetState
    [[⟨.UniformBuffer, some (.buffer 0)⟩, ⟨.SampledImage, some (.textureView exampleSRView)⟩],
     [⟨.StorageBuffer, some (.bufferView exampleBufferView)⟩]] [7, 7, 7]
    (by decide) (by decide) (by decide) (by decide) (by decide)

/-- C12: for every canonically ordered, fully bound cache and every context id, with a
vector that has room, `GetDynamicBufferOffsets` returns the number of dynamic slots and
leaves in the vector, at position `k`, the per-context dynamic offset of the buffer
behind the `k`-th dynamic slot, the slots being enumerated set-major, then uniform
buffers before storage buffers, then by ascending slot index (for a storage slot the
buffer is the one underlying the bound view); the rest of the vector is untouched. -/
theorem GetDynamicBufferOffsets_order (DEBUG : Bool) (c : ShaderResourceCacheVk)
    (CtxId : Nat) (s : State) (sets : List (List Resource)) (offs : List Nat)
    (hsets : c.HasSets sets) (hcanon : ∀ L ∈ sets, CanonicalOrder L)
    (hready : ∀ L ∈ sets, ∀ r ∈ L, r.Ready = true)
    (hroom : (specDynamicSlots sets).length ≤ offs.length)
    (h32 : (specDynamicSlots sets).length < 2 ^ 32) :
    ∃ W, GetDynamicBufferOffsets DEBUG c CtxId offs s
        = .ok ((specDynamicSlots sets).length, W) ∧
      W = specDynamicOffsets s CtxId sets ++ offs.drop (specDynamicSlots sets).length ∧
      ∀ (k : Nat) (r : Resource), (specDynamicSlots sets)[k]? = some r →
        W[k]? = some (r.dynamicOffset s CtxId) := by
  refine ⟨_, GetDynamicBufferOffsets_canonical_eq DEBUG c CtxId s sets offs hsets hcanon
    hready hroom h32, rfl, ?_⟩
  intro k r hk
  have hlt : k < (specDynamicSlots sets).length := by
    rcases Nat.lt_or_ge k (specDynamicSlots sets).length with h | h
    · exact h
    · rw [List.getElem?_eq_none h] at hk; cases hk
  rw [List.getElem?_append_left (by simpa [specDynamicOffsets] using hlt)]
  simp [specDynamicOffsets, hk]

theorem GetDynamicBufferOffsets_order_witness :
    ∃ W, GetDynamicBufferOffsets true
        (scenarioCache 0 (some (.textureView exampleSRView))
          (some (.bufferView exampleBufferView))) 0 [7, 7] offsetState
        = .ok (2, W) ∧
      W = [256, 0] ∧
      ∀ (k : Nat) (r : Resource), (specDynamicSlots
          [[⟨.UniformBuffer, some (.buffer 0)⟩,
            ⟨.SampledImage, some (.textureView exampleSRView)⟩],
           [⟨.StorageBuffer, some (.bufferView exampleBufferView)⟩]])[k]? = some r →
        W[k]? = some (r.dynamicOffset offsetState 0) :=
  GetDynamicBufferOffsets_order true
    (scenarioCache 0 (some (.textureView exampleSRView)) (some (.bufferView exampleBufferView)))
    0 offsetState
    [[⟨.UniformBuffer, some (.buffer 0)⟩, ⟨.SampledImage, some (.textureView exampleSRView)⟩],
     [⟨.StorageBuffer, some (.bufferView exampleBufferView)⟩]] [7, 7]
    (by decide) (by decide) (by decide) (by decide) (by decide)

/-! ## The layout of section 3 and `InitializeResources` -/

theorem sum_take_le_sum_take (sizes : List Nat) (a b : Nat) (hab : a ≤ b) :
    (sizes.take a).sum ≤ (sizes.take b).sum := by
  have h := List.sum_take_add_sum_drop (sizes.take b) a
  rw [List.take_take, Nat.min_eq_left hab] at h
  omega

theorem slice_end_le (sizes : List Nat) (i k : Nat) (hi : i < sizes.length) (hik : i < k) :
    (sizes.take i).sum + sizes.getD i 0 ≤ (sizes.take k).sum := by
  have h1 := List.sum_take_succ sizes i hi
  have h2 := sum_take_le_sum_take sizes (i + 1) k hik
  have h3 : sizes.getD i 0 = sizes[i] := by
    simp [List.getD_eq_getElem?_getD, List.getElem?_eq_getElem hi]
  omega

theorem slice_end_le_sum (sizes : List Nat) (i : Nat) (hi : i < sizes.length) :
    (sizes.take i).sum + sizes.getD i 0 ≤ sizes.sum := by
  have h := slice_end_le sizes i sizes.length hi hi
  rwa [List.take_length] at h

/-- The slices of two different slots of the layout do not meet. -/
theorem slice_index_ne (sizes : List Nat) (i j i' j' : Nat) (hi : i < sizes.length)
    (hi' : i' < sizes.length) (hj : j < sizes.getD i 0) (hj' : j' < sizes.getD i' 0)
    (hne : ¬ (i = i' ∧ j = j')) :
    (sizes.take i).sum + j ≠ (sizes.take i').sum + j' := by
  rcases Nat.lt_trichotomy i i' with h | h | h
  · have := slice_end_le sizes i i' hi h
    omega
  · subst h
    intro heq
    exact hne ⟨rfl, by omega⟩
  · have := slice_end_le sizes i' i hi' h
    omega

theorem HasLayout_GetDescriptorSet (c : ShaderResourceCacheVk) (sizes : List Nat)
    (h : c.HasLayout sizes) (i : Nat) (hi : i < sizes.length) :
    c.GetDescriptorSet i = .ok
      { m_NumResources := sizes.getD i 0
        m_pResources := if sizes.getD i 0 > 0 then some (sizes.take i).sum else none } := by
  obtain ⟨_, _, hS, _, _⟩ := h
  cases hm : c.m_pMemory with
  | none =>
    rw [hm] at hS
    have hlen := congrArg List.length hS
    simp [specHeaders] at hlen
    omega
  | some m =>
    rw [hm] at hS
    simp only [Option.map_some', Option.getD_some] at hS
    simp only [ShaderResourceCacheVk.GetDescriptorSet, hm, hS, specHeaders]
    rw [List.getElem?_eq_getElem (by simpa using hi)]
    simp [pure, Except.pure]

theorem HasLayout_setSlot (c : ShaderResourceCacheVk) (sizes : List Nat)
    (h : c.HasLayout sizes) (i j : Nat) (hi : i < sizes.length) (hj : j < sizes.getD i 0) :
    c.setSlot i j = c.GetFirstResourcePtr[(sizes.take i).sum + j]? := by
  have hpos : sizes.getD i 0 > 0 := by omega
  simp only [ShaderResourceCacheVk.setSlot, HasLayout_GetDescriptorSet c sizes h i hi,
    DescriptorSet.resourceIndex, hj, hpos, if_true, pure, Except.pure]

theorem SameHeaders_trans (a b c : ShaderResourceCacheVk) (h1 : SameHeaders a b)
    (h2 : SameHeaders b c) : SameHeaders a c :=
  ⟨h1.1.trans h2.1, h1.2.1.trans h2.2.1, h1.2.2.1.trans h2.2.2.1,
    h1.2.2.2.1.trans h2.2.2.2.1, h1.2.2.2.2.trans h2.2.2.2.2⟩

theorem SameHeaders_HasLayout (c' c : ShaderResourceCacheVk) (sizes : List Nat)
    (hs : SameHeaders c' c) (h : c.HasLayout sizes) : c'.HasLayout sizes := by
  obtain ⟨h1, h2, h3, h4, h5⟩ := h
  obtain ⟨_, s2, s3, s4, s5⟩ := hs
  exact ⟨s2.trans h1, s3.trans h2, by rw [s4]; exact h3, s5.trans h4, h5⟩

theorem SameHeaders_GetDescriptorSet (c' c : ShaderResourceCacheVk) (hs : SameHeaders c' c)
    (i : Nat) : c'.GetDescriptorSet i = c.GetDescriptorSet i := by
  obtain ⟨_, _, _, s4, _⟩ := hs
  cases h' : c'.m_pMemory <;> cases h : c.m_pMemory <;>
    simp_all [ShaderResourceCacheVk.GetDescriptorSet]

/-- The placement construction of one slot changes that slot only. -/
theorem construct_eq (c : ShaderResourceCacheVk) (idx : Nat) (r : Resource)
    (hidx : idx < c.GetFirstResourcePtr.length) :
    ∃ c', c.construct idx r = .ok c' ∧ SameHeaders c' c ∧
      ∀ k, c'.GetFirstResourcePtr[k]?
        = if k = idx then some (some r) else c.GetFirstResourcePtr[k]? := by
  cases hm : c.m_pMemory with
  | none => simp [ShaderResourceCacheVk.GetFirstResourcePtr, hm] at hidx
  | some m =>
    have hlen : idx < m.Resources.length := by
      simpa [ShaderResourceCacheVk.GetFirstResourcePtr, hm] using hidx
    refine ⟨_, by simp only [ShaderResourceCacheVk.construct, hm, hlen, if_true]; rfl, ?_, ?_⟩
    · simp [SameHeaders, ShaderResourceCacheVk.GetFirstResourcePtr, hm]
    · intro k
      simp only [ShaderResourceCacheVk.GetFirstResourcePtr, hm, List.getElem?_set]
      by_cases hk : k = idx
      · subst hk; simp [hlen]
      · have hk' : ¬ idx = k := fun h => hk h.symm
        simp [hk, hk']

/-- The loop of `InitializeResources` on the layout of section 3: after `n` iterations
the slots `Offset .. Offset + n - 1` of the set hold the type tag and an empty reference
and nothing else has changed. -/
theorem InitializeResources_iterations_eq (c : ShaderResourceCacheVk) (sizes : List Nat)
    (Set Offset ArraySize : Nat) (T : ResourceType) (hlayout : c.HasLayout sizes)
    (hSet : Set < sizes.length) (hrange : Offset + ArraySize ≤ sizes.getD Set 0)
    (n : Nat) (hn : n ≤ ArraySize) :
    ∃ c', InitializeResources.iterations c
        { m_NumResources := sizes.getD Set 0
          m_pResources := if sizes.getD Set 0 > 0 then some (sizes.take Set).sum else none }
        Offset T n = .ok c' ∧
      SameHeaders c' c ∧
      ∀ k, c'.GetFirstResourcePtr[k]?
        = if (sizes.take Set).sum + Offset ≤ k ∧ k < (sizes.take Set).sum + Offset + n then
            some (some ⟨T, none⟩)
          else c.GetFirstResourcePtr[k]? := by
  induction n with
  | zero =>
    refine ⟨c, rfl, ⟨rfl, rfl, rfl, rfl, rfl⟩, fun k => ?_⟩
    rw [if_neg (by omega)]
  | succ n ih =>
    obtain ⟨c1, h1, hs1, hk1⟩ := ih (Nat.le_of_succ_le hn)
    have h32 : sizes.getD Set 0 < 2 ^ 32 := by
      apply hlayout.2.2.2.2
      rw [List.getD_eq_getElem?_getD, List.getElem?_eq_getElem hSet]
      exact List.getElem_mem _
    have hmod : (Offset + n) % 2 ^ 32 = Offset + n := Nat.mod_eq_of_lt (by omega)
    have hlt : Offset + n < sizes.getD Set 0 := by omega
    have hpos : sizes.getD Set 0 > 0 := by omega
    have hend := slice_end_le_sum sizes Set hSet
    have hidx : (sizes.take Set).sum + (Offset + n) < c1.GetFirstResourcePtr.length := by
      rw [hs1.2.2.2.2, hlayout.2.2.2.1]
      omega
    obtain ⟨c2, h2, hs2, hk2⟩ := construct_eq c1 _ ⟨T, none⟩ hidx
    refine ⟨c2, ?_, SameHeaders_trans _ _ _ hs2 hs1, ?_⟩
    · simp only [hpos, if_true] at h1
      simp only [InitializeResources.iterations, h1, bind, Except.bind,
        DescriptorSet.resourceIndex, hmod, hlt, hpos, if_true, pure, Except.pure]
      exact h2
    · intro k
      rw [hk2 k, hk1 k]
      by_cases hk : k = (sizes.take Set).sum + (Offset + n)
      · rw [if_pos hk, if_pos (by omega)]
      · rw [if_neg hk]
        by_cases hin : (sizes.take Set).sum + Offset ≤ k ∧ k < (sizes.take Set).sum + Offset + n
        · rw [if_pos hin, if_pos (by omega)]
        · rw [if_neg hin, if_neg (by omega)]

/-- One call of `InitializeResources` within a set of the layout of section 3. -/
theorem InitializeResources_spec (c : ShaderResourceCacheVk) (sizes : List Nat)
    (Set Offset ArraySize : Nat) (T : ResourceType) (hlayout : c.HasLayout sizes)
    (hSet : Set < sizes.length) (hrange : Offset + ArraySize ≤ sizes.getD Set 0) :
    ∃ c', InitializeResources c Set Offset ArraySize T = .ok c' ∧
      c'.HasLayout sizes ∧ SameHeaders c' c ∧
      (∀ j, Offset ≤ j → j < Offset + ArraySize →
        c'.setSlot Set j = some (some ⟨T, none⟩)) ∧
      (∀ set j, set < sizes.length → j < sizes.getD set 0 →
        ¬ (set = Set ∧ Offset ≤ j ∧ j < Offset + ArraySize) →
        c'.setSlot set j = c.setSlot set j) := by
  obtain ⟨c', h1, hs, hk⟩ := InitializeResources_iterations_eq c sizes Set Offset ArraySize T
    hlayout hSet hrange ArraySize le_rfl
  have hl' := SameHeaders_HasLayout c' c sizes hs hlayout
  refine ⟨c', ?_, hl', hs, ?_, ?_⟩
  · simp only [InitializeResources, HasLayout_GetDescriptorSet c sizes hlayout Set hSet, bind,
      Except.bind]
    exact h1
  · intro j hj1 hj2
    rw [HasLayout_setSlot c' sizes hl' Set j hSet (by omega), hk, if_pos (by omega)]
  · intro set j hset hj hne
    rw [HasLayout_setSlot c' sizes hl' set j hset hj,
      HasLayout_setSlot c sizes hlayout set j hset hj, hk, if_neg]
    rintro ⟨h1, h2⟩
    by_cases hs' : set = Set
    · subst hs'
      exact hne ⟨rfl, by omega, by omega⟩
    · have := slice_index_ne sizes set j Set
        ((sizes.take set).sum + j - (sizes.take Set).sum) hset hSet hj (by omega)
        (fun h => hs' h.1)
      omega

/-- A sequence of calls of `InitializeResources`, each within its set: every slot
either was constructed by one of the calls that cover it, with the type tag of that call
and an empty reference, or is covered by no call and is as it was. -/
theorem InitializeResourcesAll_spec (sizes : List Nat) (calls : List InitCall) :
    ∀ c : ShaderResourceCacheVk, c.HasLayout sizes →
      (∀ a ∈ calls, a.Set < sizes.length ∧ a.Offset + a.ArraySize ≤ sizes.getD a.Set 0) →
      ∃ c', InitializeResourcesAll c calls = .ok c' ∧ c'.HasLayout sizes ∧
        ∀ set j, set < sizes.length → j < sizes.getD set 0 →
          (∃ a ∈ calls, a.covers set j ∧ c'.setSlot set j = some (some ⟨a.Type_, none⟩)) ∨
          ((∀ a ∈ calls, ¬ a.covers set j) ∧ c'.setSlot set j = c.setSlot set j) := by
  induction calls with
  | nil =>
    intro c hl _
    exact ⟨c, rfl, hl, fun set j _ _ => Or.inr ⟨fun a ha => absurd ha (List.not_mem_nil a), rfl⟩⟩
  | cons a rest ih =>
    intro c hl hin
    obtain ⟨ha1, ha2⟩ := hin a (List.mem_cons_self _ _)
    obtain ⟨c1, h1, hl1, _, hcov, hframe⟩ :=
      InitializeResources_spec c sizes a.Set a.Offset a.ArraySize a.Type_ hl ha1 ha2
    obtain ⟨c2, h2, hl2, hslots⟩ := ih c1 hl1 (fun b hb => hin b (List.mem_cons_of_mem _ hb))
    refine ⟨c2, by simp only [InitializeResourcesAll, h1, bind, Except.bind]; exact h2, hl2, ?_⟩
    intro set j hset hj
    rcases hslots set j hset hj with ⟨b, hb, hbc, hbs⟩ | ⟨hnone, hsame⟩
    · exact Or.inl ⟨b, List.mem_cons_of_mem _ hb, hbc, hbs⟩
    · by_cases hac : a.covers set j
      · left
        refine ⟨a, List.mem_cons_self _ _, hac, ?_⟩
        obtain ⟨e1, e2, e3⟩ := hac
        subst e1
        rw [hsame]
        exact hcov j e2 e3
      · right
        refine ⟨?_, ?_⟩
        · intro b hb
          rcases List.mem_cons.mp hb with rfl | hb
          · exact hac
          · exact hnone b hb
        · rw [hsame]
          apply hframe set j hset hj
          rintro ⟨e1, e2, e3⟩
          exact hac ⟨e1.symm, e2, e3⟩

/-! ## Claims about `InitializeResources` -/

/-- C16: `InitializeResources(Set, Offset, ArraySize, Type)` on a cache with the layout
of section 3, with `Offset + ArraySize` within the size of the set, completes and leaves
the headers as they were, the slots `Offset .. Offset + ArraySize - 1` of that set each
with type tag `Type` and an empty object reference, and every other slot of that set and
every slot of every other set unchanged. -/
theorem InitializeResources_frame (c : ShaderResourceCacheVk) (sizes : List Nat)
    (Set Offset ArraySize : Nat) (T : ResourceType) (hlayout : c.HasLayout sizes)
    (hSet : Set < sizes.length) (hrange : Offset + ArraySize ≤ sizes.getD Set 0) :
    ∃ c', InitializeResources c Set Offset ArraySize T = .ok c' ∧
      c'.HasLayout sizes ∧ SameHeaders c' c ∧
      (∀ j, Offset ≤ j → j < Offset + ArraySize →
        c'.setSlot Set j = some (some ⟨T, none⟩)) ∧
      (∀ set j, set < sizes.length → j < sizes.getD set 0 →
        ¬ (set = Set ∧ Offset ≤ j ∧ j < Offset + ArraySize) →
        c'.setSlot set j = c.setSlot set j) :=
  InitializeResources_spec c sizes Set Offset ArraySize T hlayout hSet hrange

theorem InitializeResources_frame_witness :
    ∃ c', InitializeResources
        { m_pAllocator := some 1
          m_pMemory := some { Sets := [⟨2, some 0⟩, ⟨1, some 2⟩]
                              Resources := [none, some ⟨.SampledImage, none⟩, none] }
          m_NumSets := 2, m_TotalResources := 3 } 0 0 1 .UniformBuffer = .ok c' ∧
      c'.HasLayout [2, 1] ∧
      SameHeaders c'
        { m_pAllocator := some 1
          m_pMemory := some { Sets := [⟨2, some 0⟩, ⟨1, some 2⟩]
                              Resources := [none, some ⟨.SampledImage, none⟩, none] }
          m_NumSets := 2, m_TotalResources := 3 } ∧
      (∀ j, 0 ≤ j → j < 0 + 1 → c'.setSlot 0 j = some (some ⟨.UniformBuffer, none⟩)) ∧
      (∀ set j, set < [2, 1].length → j < [2, 1].getD set 0 →
        ¬ (set = 0 ∧ 0 ≤ j ∧ j < 0 + 1) →
        c'.setSlot set j = ShaderResourceCacheVk.setSlot
          { m_pAllocator := some 1
            m_pMemory := some { Sets := [⟨2, some 0⟩, ⟨1, some 2⟩]
                                Resources := [none, some ⟨.SampledImage, none⟩, none] }
            m_NumSets := 2, m_TotalResources := 3 } set j) :=
  InitializeResources_frame _ [2, 1] 0 0 1 .UniformBuffer (by decide) (by decide) (by decide)

theorem readSets_getD (c : ShaderResourceCacheVk) (sizes : List Nat) (i : Nat)
    (hi : i < sizes.length) :
    (c.readSets sizes).getD i []
      = (List.range (sizes.getD i 0)).map (fun j =>
          match c.setSlot i j with
          | some (some r) => r
          | _ => ⟨.UniformBuffer, none⟩) := by
  simp [ShaderResourceCacheVk.readSets, List.getD_eq_getElem?_getD, List.getElem?_map,
    List.getElem?_range hi]

/-- A cache with the layout of section 3 all of whose slots are constructed consists of
the sets read from it. -/
theorem readSets_HasSets (c : ShaderResourceCacheVk) (sizes : List Nat)
    (hl : c.HasLayout sizes)
    (hall : ∀ set j, set < sizes.length → j < sizes.getD set 0 →
      ∃ r, c.setSlot set j = some (some r)) :
    c.HasSets (c.readSets sizes) := by
  have hlen : (c.readSets sizes).length = sizes.length := by
    simp [ShaderResourceCacheVk.readSets]
  refine ⟨by rw [hlen]; exact hl.1, ?_⟩
  intro i hi
  rw [hlen] at hi
  rw [readSets_getD c sizes i hi]
  refine ⟨?_, ?_⟩
  · simp [HasLayout_GetDescriptorSet c sizes hl i hi, Except.toOption]
  · intro j hj
    have hj' : j < sizes.getD i 0 := by simpa using hj
    obtain ⟨r, hr⟩ := hall i j hi hj'
    rw [List.getElem?_map, List.getElem?_range hj', hr]
    simp only [Option.map_some', hr]

/-- C17, as stated, fails: two calls of `InitializeResources` that together cover the
one set of a cache, the first constructing slot 0 as `SampledImage` and the second slot 1
as `UniformBuffer`, leave a slot-type sequence that decreases in rank. -/
theorem covering_calls_need_not_be_canonical :
    ∃ c0 c, InitializeSets 24 16 emptyCache 1 1 [2] = .ok c0 ∧
      InitializeResourcesAll c0 [⟨0, 0, 1, .SampledImage⟩, ⟨0, 1, 1, .UniformBuffer⟩] = .ok c ∧
      (∀ j < 2, ∃ a ∈ [InitCall.mk 0 0 1 .SampledImage, InitCall.mk 0 1 1 .UniformBuffer],
        a.covers 0 j) ∧
      c.HasSets [[⟨.SampledImage, none⟩, ⟨.UniformBuffer, none⟩]] ∧
      ¬ CanonicalOrder [⟨.SampledImage, none⟩, ⟨.UniformBuffer, none⟩] :=
  ⟨_, _, rfl, rfl, by decide, by decide, by decide⟩

/-- C17, amended: after `InitializeSets` followed by `InitializeResources` calls that
stay within their sets, together cover every slot of every set, and pass the types in
canonical order (within a set, every run of a type of lower rank ends before every run
of a type of higher rank begins), the calls complete, every slot is constructed with an
empty reference, and the slot-type sequence of every set is non-decreasing in rank under
the ordering `UniformBuffer < StorageBuffer <` every other type. -/
theorem canonical_after_ordered_calls (sizeofDescriptorSet sizeofResource : Nat)
    (c c0 : ShaderResourceCacheVk) (MemAllocator : Nat) (SetSizes : List Nat)
    (calls : List InitCall)
    (hU32 : ∀ n ∈ SetSizes, n < 2 ^ 32)
    (hDS : 0 < sizeofDescriptorSet) (hRes : 0 < sizeofResource)
    (hfit : SetSizes.length * sizeofDescriptorSet + 2 ^ 32 * sizeofResource ≤ 2 ^ 64)
    (h0 : InitializeSets sizeofDescriptorSet sizeofResource c MemAllocator SetSizes.length
      SetSizes = .ok c0)
    (hin : ∀ a ∈ calls, a.Set < SetSizes.length ∧
      a.Offset + a.ArraySize ≤ SetSizes.getD a.Set 0)
    (hcover : ∀ set j, set < SetSizes.length → j < SetSizes.getD set 0 →
      ∃ a ∈ calls, a.covers set j)
    (horder : ∀ a ∈ calls, ∀ b ∈ calls, a.Set = b.Set → a.Type_.rank < b.Type_.rank →
      a.Offset + a.ArraySize ≤ b.Offset) :
    ∃ c' sets, InitializeResourcesAll c0 calls = .ok c' ∧ c'.HasSets sets ∧
      sets.map List.length = SetSizes ∧
      ∀ L ∈ sets, CanonicalOrder L ∧ ∀ r ∈ L, r.pObject = none := by
  have hl0 := InitializeSets_HasLayout sizeofDescriptorSet sizeofResource c c0 MemAllocator
    SetSizes.length SetSizes rfl hU32 hDS hRes hfit h0
  obtain ⟨c', h1, hl1, hslots⟩ := InitializeResourcesAll_spec SetSizes calls c0 hl0 hin
  have hcons : ∀ set j, set < SetSizes.length → j < SetSizes.getD set 0 →
      ∃ a ∈ calls, a.covers set j ∧ c'.setSlot set j = some (some ⟨a.Type_, none⟩) := by
    intro set j hset hj
    rcases hslots set j hset hj with h | ⟨hnone, _⟩
    · exact h
    · obtain ⟨a, ha, hac⟩ := hcover set j hset hj
      exact absurd hac (hnone a ha)
  refine ⟨c', c'.readSets SetSizes, h1, ?_, ?_, ?_⟩
  · apply readSets_HasSets c' SetSizes hl1
    intro set j hset hj
    obtain ⟨a, _, _, hs⟩ := hcons set j hset hj
    exact ⟨_, hs⟩
  · apply List.ext_getElem
    · simp [ShaderResourceCacheVk.readSets]
    · intro i h1 h2
      simp [ShaderResourceCacheVk.readSets, List.getD_eq_getElem?_getD,
        List.getElem?_eq_getElem h2]
  · intro L hL
    simp only [ShaderResourceCacheVk.readSets, List.mem_map, List.mem_range] at hL
    obtain ⟨i, hi, rfl⟩ := hL
    constructor
    · rw [CanonicalOrder, List.pairwise_map]
      apply List.Pairwise.imp_of_mem _ (List.pairwise_lt_range _)
      intro j j' hj hj' hlt
      rw [List.mem_range] at hj hj'
      obtain ⟨a, ha, hac, hsa⟩ := hcons i j hi hj
      obtain ⟨b, hb, hbc, hsb⟩ := hcons i j' hi hj'
      simp only [hsa, hsb]
      by_contra hnot
      have hlt' : b.Type_.rank < a.Type_.rank := by omega
      have := horder b hb a ha (hbc.1.trans hac.1.symm) hlt'
      obtain ⟨_, _, hb3⟩ := hbc
      obtain ⟨_, ha2, _⟩ := hac
      omega
    · intro r hr
      simp only [List.mem_map, List.mem_range] at hr
      obtain ⟨j, hj, rfl⟩ := hr
      obtain ⟨a, _, _, hsa⟩ := hcons i j hi hj
      simp only [hsa]

theorem canonical_after_ordered_calls_witness :
    ∃ c' sets, InitializeResourcesAll
        { m_pAllocator := some 1
          m_pMemory := some { Sets := [⟨2, some 0⟩, ⟨1, some 2⟩]
                              Resources := [none, none, none] }
          m_NumSets := 2, m_TotalResources := 3 }
        [⟨0, 0, 1, .UniformBuffer⟩, ⟨0, 1, 1, .SampledImage⟩, ⟨1, 0, 1, .StorageBuffer⟩]
        = .ok c' ∧
      c'.HasSets sets ∧ sets.map List.length = [2, 1] ∧
      ∀ L ∈ sets, CanonicalOrder L ∧ ∀ r ∈ L, r.pObject = none :=
  canonical_after_ordered_calls 24 16 emptyCache _ 1 [2, 1]
    [⟨0, 0, 1, .UniformBuffer⟩, ⟨0, 1, 1, .SampledImage⟩, ⟨1, 0, 1, .StorageBuffer⟩]
    (by decide) (by decide) (by decide) (by norm_num) rfl (by decide)
    (by
      intro set j hset hj
      have hset' : set < 2 := hset
      interval_cases set
      · have hj' : j < 2 := hj
        interval_cases j <;> decide
      · have hj' : j < 1 := hj
        interval_cases j
        decide)
    (by decide)


/-! ## Formatting of memory sizes -/

/-- C30 (as the code behaves): for a size below 1024 with no reference size, `FormatMsg`
appends the size in decimal followed by `" Byte"` when the size is greater than 1 and by
`" Bytes"` when it is 0 or 1; in particular the size 1 is written `1 Bytes` and the size
2 is written `2 Byte`. -/
theorem FormatMsg_unit_inverted (fixed : Nat → Nat → Nat → String) (precision : Nat) :
    (∀ ss size, size < 1024 →
      FormatMsg fixed ss (FormatMemorySize size precision 0)
        = ss ++ toString size ++ (if size > 1 then " Byte" else " Bytes")) ∧
    FormatMsg fixed "" (FormatMemorySize 1 precision 0) = "1 Bytes" ∧
    FormatMsg fixed "" (FormatMemorySize 2 precision 0) = "2 Byte" ∧
    FormatMsg fixed "" (FormatMemorySize 0 precision 0) = "0 Bytes" := by
  refine ⟨?_, ?_, ?_, ?_⟩
  · intro ss size h
    have h30 : ¬ size ≥ 1 <<< 30 := by
      have : (1 <<< 30 : Nat) = 1073741824 := by decide
      omega
    have h20 : ¬ size ≥ 1 <<< 20 := by
      have : (1 <<< 20 : Nat) = 1048576 := by decide
      omega
    have h10 : ¬ size ≥ 1 <<< 10 := by
      have : (1 <<< 10 : Nat) = 1024 := by decide
      omega
    simp only [FormatMsg, FormatMemorySize, ne_eq, not_true_eq_false, if_false, h30, h20, h10]
  · simp [FormatMsg, FormatMemorySize]
    decide
  · simp [FormatMsg, FormatMemorySize]
    decide
  · simp [FormatMsg, FormatMemorySize]
    decide

/-! ## The descriptor writers before and after a transition pass -/

theorem SameObjects_buffer (s t : State) (h : s.SameObjects t) (i : Nat) :
    (s.Buffers i).BindFlags = (t.Buffers i).BindFlags ∧
    (s.Buffers i).VkBuffer = (t.Buffers i).VkBuffer ∧
    (s.Buffers i).uiSizeInBytes = (t.Buffers i).uiSizeInBytes ∧
    (s.Buffers i).Name = (t.Buffers i).Name ∧
    (s.Buffers i).DynamicOffset = (t.Buffers i).DynamicOffset := by
  have e := h.1 i
  simp only [BufferVkImpl.mk.injEq, true_and] at e
  obtain ⟨h1, h2, h3, h4, h5⟩ := e
  exact ⟨h3, h4, h2, h1, h5⟩

theorem SameObjects_texture (s t : State) (h : s.SameObjects t) (i : Nat) :
    (s.Textures i).BindFlags = (t.Textures i).BindFlags ∧
    (s.Textures i).Name = (t.Textures i).Name := by
  have e := h.2 i
  simp only [TextureVkImpl.mk.injEq, and_true] at e
  exact ⟨e.2, e.1⟩

theorem SameObjects_refl (s : State) : s.SameObjects s := ⟨fun _ => rfl, fun _ => rfl⟩

theorem SameObjects_specStep (VerifyOnly : Bool) (s t : State) (q : Requirement)
    (h : s.SameObjects t) : (specStep VerifyOnly s q).SameObjects t := by
  obtain ⟨hb, ht⟩ := h
  cases q with
  | nothing => exact ⟨hb, ht⟩
  | access b m =>
      simp only [specStep]
      split_ifs
      · exact ⟨hb, ht⟩
      · exact ⟨hb, ht⟩
      · refine ⟨fun i => ?_, ht⟩
        simp only [BufferMemoryBarrier]
        split_ifs with hi
        · subst hi; exact hb i
        · exact hb i
  | layout x l =>
      simp only [specStep]
      split_ifs
      · exact ⟨hb, ht⟩
      · exact ⟨hb, ht⟩
      · refine ⟨hb, fun i => ?_⟩
        simp only [TransitionImageLayout]
        split_ifs with hi
        · subst hi; exact ht i
        · exact ht i

/-- Whatever the mode and however far the pass gets, `TransitionResources` leaves every
object the same up to its access state. -/
theorem TransitionResources_SameObjects (VerifyOnly : Bool) (c : ShaderResourceCacheVk)
    (s : State) : (TransitionResources VerifyOnly c s).state.SameObjects s :=
  iterations_invariant VerifyOnly c s (fun s' => s'.SameObjects s) (SameObjects_refl s)
    (fun s' q h => SameObjects_specStep VerifyOnly s' s q h) c.m_TotalResources

theorem uniform_write_congr (r : Resource) (s t : State) (h : s.SameObjects t) :
    (r.GetUniformBufferDescriptorWriteInfo s).outcome
      = (r.GetUniformBufferDescriptorWriteInfo t).outcome := by
  obtain ⟨ty, p⟩ := r
  have hb := fun i => SameObjects_buffer s t h i
  cases ty <;> rcases p with _ | (b | v | v | sm) <;>
    simp [Resource.GetUniformBufferDescriptorWriteInfo, VERIFY, derefBuffer, Result.outcome,
      bind, Except.bind, pure, Except.pure, hb]
  split_ifs <;> simp_all [Result.outcome]

theorem storage_write_congr (r : Resource) (s t : State) (h : s.SameObjects t) :
    (r.GetStorageBufferDescriptorWriteInfo s).outcome
      = (r.GetStorageBufferDescriptorWriteInfo t).outcome := by
  obtain ⟨ty, p⟩ := r
  have hb := fun i => SameObjects_buffer s t h i
  cases ty <;> rcases p with _ | (b | v | v | sm) <;>
    simp [Resource.GetStorageBufferDescriptorWriteInfo, VERIFY, derefBufferView,
      Result.outcome, bind, Except.bind, pure, Except.pure, hb]
  split_ifs <;> simp_all [Result.outcome]

theorem buffer_view_write_congr (r : Resource) (s t : State) :
    (r.GetBufferViewWriteInfo s).outcome = (r.GetBufferViewWriteInfo t).outcome := by
  obtain ⟨ty, p⟩ := r
  cases ty <;> rcases p with _ | (b | v | v | sm) <;>
    simp [Resource.GetBufferViewWriteInfo, VERIFY, derefBufferView,
      Result.outcome, bind, Except.bind, pure, Except.pure]

theorem sampler_write_congr (r : Resource) (s t : State) :
    (r.GetSamplerDescriptorWriteInfo s).outcome
      = (r.GetSamplerDescriptorWriteInfo t).outcome := by
  obtain ⟨ty, p⟩ := r
  cases ty <;> rcases p with _ | (b | v | v | sm) <;>
    simp [Resource.GetSamplerDescriptorWriteInfo, VERIFY, derefSampler,
      Result.outcome, bind, Except.bind, pure, Except.pure]

theorem image_write_congr (r : Resource) (imm : Bool) (s t : State) (h : s.SameObjects t) :
    (r.GetImageDescriptorWriteInfo imm s).outcome.map Prod.fst
      = (r.GetImageDescriptorWriteInfo imm t).outcome.map Prod.fst := by
  obtain ⟨ty, p⟩ := r
  have ht := fun i => (SameObjects_texture s t h i).1
  cases ty <;> rcases p with _ | (b | v | v | sm) <;>
    simp [Resource.GetImageDescriptorWriteInfo, VERIFY, derefTextureView,
      Result.outcome, bind, Except.bind, pure, Except.pure, Except.map, ht] <;>
    split_ifs <;> simp_all [Result.outcome, Except.map] <;>
    rcases v.pSampler with _ | sm <;> rfl

theorem image_write_frame (r : Resource) (imm : Bool) (s st : State)
    (info : VkDescriptorImageInfo) (h : r.GetImageDescriptorWriteInfo imm s = .ok (info, st)) :
    st.Buffers = s.Buffers ∧ st.Textures = s.Textures ∧ st.Requests = s.Requests := by
  obtain ⟨ty, p⟩ := r
  cases ty <;> rcases p with _ | (b | v | v | sm) <;>
    simp [Resource.GetImageDescriptorWriteInfo, VERIFY, derefTextureView,
      bind, Except.bind, pure, Except.pure] at h <;>
    split_ifs at h <;> simp_all [LOG_ERROR_MESSAGE] <;>
    (try (obtain ⟨-, rfl⟩ := h; rcases v.pSampler with _ | sm <;> exact ⟨rfl, rfl, rfl⟩))

/-- C21: the descriptor writer gives the same answer before and after a transition
pass and is read-only.  For every slot `r` and every cache and store, each of the five
write-info functions returns the same value (or stops at the same fault) in the store
left by `TransitionResources<false>` (whether the pass completed or stopped) as in the
store before it; and a call of the image writer, the only one that has an effect (it may
log), leaves every buffer, every texture and the requests of the context as they were.
The writers take the slot by value and return no cache. -/
theorem write_info_same_before_and_after_Apply (c : ShaderResourceCacheVk) (s : State)
    (r : Resource) (imm : Bool) :
    (r.GetUniformBufferDescriptorWriteInfo (TransitionResources false c s).state).outcome
      = (r.GetUniformBufferDescriptorWriteInfo s).outcome ∧
    (r.GetStorageBufferDescriptorWriteInfo (TransitionResources false c s).state).outcome
      = (r.GetStorageBufferDescriptorWriteInfo s).outcome ∧
    (r.GetBufferViewWriteInfo (TransitionResources false c s).state).outcome
      = (r.GetBufferViewWriteInfo s).outcome ∧
    (r.GetSamplerDescriptorWriteInfo (TransitionResources false c s).state).outcome
      = (r.GetSamplerDescriptorWriteInfo s).outcome ∧
    (r.GetImageDescriptorWriteInfo imm (TransitionResources false c s).state).outcome.map
        Prod.fst
      = (r.GetImageDescriptorWriteInfo imm s).outcome.map Prod.fst ∧
    (∀ (s0 : State) (info : VkDescriptorImageInfo) (st : State),
      r.GetImageDescriptorWriteInfo imm s0 = .ok (info, st) →
      st.Buffers = s0.Buffers ∧ st.Textures = s0.Textures ∧ st.Requests = s0.Requests) :=
  ⟨uniform_write_congr r _ s (TransitionResources_SameObjects false c s),
   storage_write_congr r _ s (TransitionResources_SameObjects false c s),
   buffer_view_write_congr r _ s,
   sampler_write_congr r _ s,
   image_write_congr r imm _ s (TransitionResources_SameObjects false c s),
   fun s0 info st h => image_write_frame r imm s0 st info h⟩

theorem write_info_same_before_and_after_Apply_witness :
    ((Resource.mk .UniformBuffer (some (.buffer 0))).GetUniformBufferDescriptorWriteInfo
        (TransitionResources false (scenarioCache 0 (some (.textureView exampleSRView))
          (some (.bufferView exampleBufferView))) offsetState).state).outcome
      = .ok { buffer := 1, offset := 0, range := 256 } ∧
    ((Resource.mk .UniformBuffer (some (.buffer 0))).GetUniformBufferDescriptorWriteInfo
        offsetState).outcome
      = .ok { buffer := 1, offset := 0, range := 256 } ∧
    (TransitionResources false (scenarioCache 0 (some (.textureView exampleSRView))
        (some (.bufferView exampleBufferView))) offsetState).state.Requests
      = [.BufferMemoryBarrier 0 VK_ACCESS_UNIFORM_READ_BIT,
         .TransitionImageLayout 0 VK_IMAGE_LAYOUT_SHADER_READ_ONLY_OPTIMAL,
         .BufferMemoryBarrier 1 (VK_ACCESS_SHADER_READ_BIT ||| VK_ACCESS_SHADER_WRITE_BIT)] :=
  ⟨(write_info_same_before_and_after_Apply
      (scenarioCache 0 (some (.textureView exampleSRView))
        (some (.bufferView exampleBufferView))) offsetState
      ⟨.UniformBuffer, some (.buffer 0)⟩ false).1.trans rfl,
   rfl, rfl⟩

/-! ## Destruction -/

theorem destructor_resources_eq (c : ShaderResourceCacheVk) (n : Nat)
    (h : ∀ res < n, slotConstructed (c.slot res) = true) :
    ShaderResourceCacheVk.destructor.resources c n
      = .ok ((List.range n).map Finalization.Resource) := by
  induction n with
  | zero => rfl
  | succ n ih =>
      have hn := h n (Nat.lt_succ_self n)
      obtain ⟨r, hr⟩ : ∃ r, c.slot n = some (some r) := by
        rcases hs : c.slot n with _ | _ | r
        · rw [hs] at hn; cases hn
        · rw [hs] at hn; cases hn
        · exact ⟨r, rfl⟩
      rw [ShaderResourceCacheVk.destructor.resources,
        ih (fun res hres => h res (Nat.lt_succ_of_lt hres)), hr]
      simp only [bind, Except.bind, pure, Except.pure, List.range_succ, List.map_append,
        List.map_cons, List.map_nil]

theorem destructor_sets_eq (c : ShaderResourceCacheVk) (n : Nat)
    (h : ∀ t < n, ∃ d, c.GetDescriptorSet t = .ok d) :
    ShaderResourceCacheVk.destructor.sets c n
      = .ok ((List.range n).map Finalization.DescriptorSet) := by
  induction n with
  | zero => rfl
  | succ n ih =>
      obtain ⟨d, hd⟩ := h n (Nat.lt_succ_self n)
      rw [ShaderResourceCacheVk.destructor.sets,
        ih (fun t ht => h t (Nat.lt_succ_of_lt ht)), hd]
      simp only [bind, Except.bind, pure, Except.pure, List.range_succ, List.map_append,
        List.map_cons, List.map_nil]

theorem destructor_eq (c : ShaderResourceCacheVk) (m : MemoryBlock) (allocator : Nat)
    (hmem : c.m_pMemory = some m) (halloc : c.m_pAllocator = some allocator)
    (hsets : c.m_NumSets ≤ m.Sets.length)
    (hslots : ∀ res < c.m_TotalResources, slotConstructed (c.slot res) = true) :
    c.destructor = .ok ((List.range c.m_TotalResources).map Finalization.Resource
      ++ (List.range c.m_NumSets).map Finalization.DescriptorSet
      ++ [Finalization.Free allocator]) := by
  have h2 : ∀ t < c.m_NumSets, ∃ d, c.GetDescriptorSet t = .ok d := by
    intro t ht
    have ht' : t < m.Sets.length := Nat.lt_of_lt_of_le ht hsets
    refine ⟨m.Sets[t], ?_⟩
    simp only [ShaderResourceCacheVk.GetDescriptorSet, hmem, List.getElem?_eq_getElem ht']
    rfl
  simp only [ShaderResourceCacheVk.destructor, hmem,
    destructor_resources_eq c c.m_TotalResources hslots,
    destructor_sets_eq c c.m_NumSets h2, halloc, bind, Except.bind, pure, Except.pure]

theorem finalization_trace_nodup (T N allocator : Nat) :
    ((List.range T).map Finalization.Resource
      ++ (List.range N).map Finalization.DescriptorSet
      ++ [Finalization.Free allocator]).Nodup := by
  have h1 : ((List.range T).map Finalization.Resource).Nodup :=
    (List.nodup_range T).map (fun a b h => by injection h)
  have h2 : ((List.range N).map Finalization.DescriptorSet).Nodup :=
    (List.nodup_range N).map (fun a b h => by injection h)
  rw [List.nodup_append]
  refine ⟨List.nodup_append.2 ⟨h1, h2, ?_⟩, List.nodup_singleton _, ?_⟩
  · intro x hx hy
    simp only [List.mem_map, List.mem_range] at hx hy
    obtain ⟨a, -, rfl⟩ := hx
    obtain ⟨b, -, hb⟩ := hy
    cases hb
  · intro x hx hy
    simp only [List.mem_append, List.mem_map, List.mem_range, List.mem_singleton] at hx hy
    subst hy
    rcases hx with ⟨a, -, ha⟩ | ⟨a, -, ha⟩ <;> cases ha

/-- C22: destroying an initialized cache (the block is allocated, its `m_NumSets` set
headers and its `m_TotalResources` slots are constructed) completes and performs exactly
these finalizations, in this order: the destructor of slot `0`, ..., of slot
`m_TotalResources - 1`, then the destructor of header `0`, ..., of header
`m_NumSets - 1`, then one `Free` of the block through the cache's allocator.  No slot or
header occurs twice in that sequence, every slot and header below the bound occurs once,
and no other finalization occurs. -/
theorem destructor_finalizes_each_once (c : ShaderResourceCacheVk) (m : MemoryBlock)
    (allocator : Nat) (hmem : c.m_pMemory = some m) (halloc : c.m_pAllocator = some allocator)
    (hsets : c.m_NumSets ≤ m.Sets.length)
    (hslots : ∀ res < c.m_TotalResources, slotConstructed (c.slot res) = true) :
    ∃ trace, c.destructor = .ok trace ∧
      trace = (List.range c.m_TotalResources).map Finalization.Resource
        ++ (List.range c.m_NumSets).map Finalization.DescriptorSet
        ++ [Finalization.Free allocator] ∧
      (∀ res, trace.count (Finalization.Resource res)
        = if res < c.m_TotalResources then 1 else 0) ∧
      (∀ t, trace.count (Finalization.DescriptorSet t) = if t < c.m_NumSets then 1 else 0) ∧
      (∀ a, trace.count (Finalization.Free a) = if a = allocator then 1 else 0) := by
  refine ⟨_, destructor_eq c m allocator hmem halloc hsets hslots, rfl, ?_, ?_, ?_⟩
  · intro res
    rw [List.count_eq_of_nodup (finalization_trace_nodup c.m_TotalResources c.m_NumSets allocator)]
    simp
  · intro t
    rw [List.count_eq_of_nodup (finalization_trace_nodup c.m_TotalResources c.m_NumSets allocator)]
    simp
  · intro a
    rw [List.count_eq_of_nodup (finalization_trace_nodup c.m_TotalResources c.m_NumSets allocator)]
    simp

theorem destructor_finalizes_each_once_witness :
    ∃ trace, (scenarioCache 0 none none).destructor = .ok trace ∧
      trace = [.Resource 0, .Resource 1, .Resource 2, .DescriptorSet 0, .DescriptorSet 1,
               .Free 0] ∧
      (∀ res, trace.count (Finalization.Resource res) = if res < 3 then 1 else 0) ∧
      (∀ t, trace.count (Finalization.DescriptorSet t) = if t < 2 then 1 else 0) ∧
      (∀ a, trace.count (Finalization.Free a) = if a = 0 then 1 else 0) :=
  destructor_finalizes_each_once (scenarioCache 0 none none)
    { Sets := [{ m_NumResources := 2, m_pResources := some 0 },
               { m_NumResources := 1, m_pResources := some 2 }]
      Resources := [some ⟨.UniformBuffer, some (.buffer 0)⟩,
                    some ⟨.SampledImage, none⟩,
                    some ⟨.StorageBuffer, none⟩] }
    0 rfl rfl (by decide) (by decide)

/-! ## When `InitializeSets` allocates -/

/-- On a fresh cache, for set sizes whose sum fits the 32-bit counter and whose block
size fits `size_t`, `InitializeSets` completes; it allocates the block of the layout when
the memory size is positive and no block otherwise. -/
theorem InitializeSets_eq (sizeofDescriptorSet sizeofResource : Nat)
    (c : ShaderResourceCacheVk) (MemAllocator : Nat) (SetSizes : List Nat)
    (hfresh : c.m_pAllocator = none ∧ c.m_pMemory = none)
    (hsum : SetSizes.sum < 2 ^ 32)
    (hfit : SetSizes.length * sizeofDescriptorSet + SetSizes.sum * sizeofResource < 2 ^ 64) :
    GetRequiredMemorySize sizeofDescriptorSet sizeofResource SetSizes.length SetSizes
      = .ok (SetSizes.length * sizeofDescriptorSet + SetSizes.sum * sizeofResource) ∧
    InitializeSets sizeofDescriptorSet sizeofResource c MemAllocator SetSizes.length SetSizes
      = .ok { m_pAllocator := some MemAllocator
              m_pMemory :=
                if SetSizes.length * sizeofDescriptorSet + SetSizes.sum * sizeofResource > 0
                then some { Sets := specHeaders SetSizes
                            Resources := List.replicate SetSizes.sum none }
                else none
              m_NumSets := SetSizes.length
              m_TotalResources := SetSizes.sum } := by
  have hT := TotalResourcesLoop_eq SetSizes SetSizes.length le_rfl
  have hH := headers_eq SetSizes SetSizes.length le_rfl
  rw [List.take_length] at hT hH
  have hlenH : (specHeaders SetSizes).length = SetSizes.length := by simp [specHeaders]
  rw [List.take_of_length_le (le_of_eq hlenH)] at hH
  rw [Nat.mod_eq_of_lt hsum] at hT
  have hV : VERIFY_EXPR (decide (c.m_pAllocator = none ∧ c.m_pMemory = none))
      "Cache already initialized" = .ok () := by
    simp [VERIFY_EXPR, hfresh.1, hfresh.2, pure, Except.pure]
  have hG : GetRequiredMemorySize sizeofDescriptorSet sizeofResource SetSizes.length SetSizes
      = .ok (SetSizes.length * sizeofDescriptorSet + SetSizes.sum * sizeofResource) := by
    simp only [GetRequiredMemorySize, hT, bind, Except.bind, pure, Except.pure,
      Nat.mod_eq_of_lt hfit]
  refine ⟨hG, ?_⟩
  unfold InitializeSets
  rw [hV, hT, hG]
  simp only [bind, Except.bind, pure, Except.pure, Nat.mod_eq_of_lt hfit, hH, VERIFY_EXPR,
    decide_True, if_true]
  split_ifs <;> rfl

/-- C28: `InitializeSets` allocates if and only if the computed memory size is not zero.
On a fresh cache, with `sizeof(DescriptorSet) > 0` and set sizes whose sum fits the
32-bit counter: the call completes and the cache holds a block exactly when
`GetRequiredMemorySize` is not 0; with zero sets there is no block and the destructor
then performs no finalization and no `Free`; with at least one set there is a block, also
when every set size is 0, and the header of every set of size 0 has no slots and a null
resource pointer. -/
theorem InitializeSets_allocates_iff_nonzero (sizeofDescriptorSet sizeofResource : Nat)
    (c : ShaderResourceCacheVk) (MemAllocator : Nat) (SetSizes : List Nat)
    (hfresh : c.m_pAllocator = none ∧ c.m_pMemory = none)
    (hDS : 0 < sizeofDescriptorSet)
    (hsum : SetSizes.sum < 2 ^ 32)
    (hfit : SetSizes.length * sizeofDescriptorSet + SetSizes.sum * sizeofResource < 2 ^ 64) :
    ∃ c1 MemorySize,
      GetRequiredMemorySize sizeofDescriptorSet sizeofResource SetSizes.length SetSizes
        = .ok MemorySize ∧
      InitializeSets sizeofDescriptorSet sizeofResource c MemAllocator SetSizes.length
        SetSizes = .ok c1 ∧
      (c1.m_pMemory.isSome = true ↔ MemorySize ≠ 0) ∧
      (SetSizes.length = 0 → c1.m_pMemory = none ∧ c1.destructor = .ok []) ∧
      (0 < SetSizes.length → c1.m_pMemory.isSome = true ∧
        ∀ t < SetSizes.length, SetSizes.getD t 0 = 0 →
          c1.GetDescriptorSet t = .ok { m_NumResources := 0, m_pResources := none }) := by
  obtain ⟨hG, hI⟩ := InitializeSets_eq sizeofDescriptorSet sizeofResource c MemAllocator
    SetSizes hfresh hsum hfit
  refine ⟨_, _, hG, hI, ?_, ?_, ?_⟩
  · by_cases hM : SetSizes.length * sizeofDescriptorSet + SetSizes.sum * sizeofResource > 0
    · simp only [hM, if_true, Option.isSome_some, true_iff]
      omega
    · simp only [hM, if_false, Option.isSome_none]
      constructor
      · intro h; cases h
      · intro h; omega
  · intro h0
    have hnil : SetSizes = [] := List.length_eq_zero.mp h0
    subst hnil
    simp [ShaderResourceCacheVk.destructor, pure, Except.pure]
  · intro hpos
    have hM : SetSizes.length * sizeofDescriptorSet + SetSizes.sum * sizeofResource > 0 := by
      have := Nat.mul_pos hpos hDS
      omega
    simp only [hM, if_true, Option.isSome_some, true_and]
    intro t ht hz
    have hz' : SetSizes[t]?.getD 0 = 0 := by simpa [List.getD_eq_getElem?_getD] using hz
    simp [ShaderResourceCacheVk.GetDescriptorSet, specHeaders, List.getElem?_map,
      List.getElem?_range ht, hz', pure, Except.pure]

theorem InitializeSets_allocates_iff_nonzero_witness :
    (∃ c1 MemorySize,
      GetRequiredMemorySize 24 16 0 [] = .ok MemorySize ∧
      InitializeSets 24 16 emptyCache 1 0 [] = .ok c1 ∧
      (c1.m_pMemory.isSome = true ↔ MemorySize ≠ 0) ∧
      (([] : List Nat).length = 0 → c1.m_pMemory = none ∧ c1.destructor = .ok []) ∧
      (0 < ([] : List Nat).length → c1.m_pMemory.isSome = true ∧
        ∀ t < ([] : List Nat).length, ([] : List Nat).getD t 0 = 0 →
          c1.GetDescriptorSet t = .ok { m_NumResources := 0, m_pResources := none })) ∧
    (∃ c1 MemorySize,
      GetRequiredMemorySize 24 16 2 [0, 0] = .ok MemorySize ∧
      InitializeSets 24 16 emptyCache 1 2 [0, 0] = .ok c1 ∧
      (c1.m_pMemory.isSome = true ↔ MemorySize ≠ 0) ∧
      ([0, 0].length = 0 → c1.m_pMemory = none ∧ c1.destructor = .ok []) ∧
      (0 < [0, 0].length → c1.m_pMemory.isSome = true ∧
        ∀ t < [0, 0].length, [0, 0].getD t 0 = 0 →
          c1.GetDescriptorSet t = .ok { m_NumResources := 0, m_pResources := none })) :=
  ⟨InitializeSets_allocates_iff_nonzero 24 16 emptyCache 1 [] ⟨rfl, rfl⟩ (by decide)
      (by decide) (by decide),
   InitializeSets_allocates_iff_nonzero 24 16 emptyCache 1 [0, 0] ⟨rfl, rfl⟩ (by decide)
      (by decide) (by decide)⟩

/-! ## What `GetDynamicBufferOffsets` writes -/

/-- C29: `GetDynamicBufferOffsets` writes only the first `n` entries of the caller's
vector, `n` being its return value.  On a cache that consists of the sets `sets`, whose
leading dynamic slots are bound (in a debug build: whose other slots pass the ordering
assertion), the call stays in bounds and completes whenever the vector is at least as
long as the leading `UniformBuffer` run plus the following `StorageBuffer` run summed
over all sets; `n` is that number, the vector keeps its length, every entry at an index
`>= n` is unchanged, and the first `n` entries are the collected offsets. -/
theorem GetDynamicBufferOffsets_writes_first_entries (DEBUG : Bool) (c : ShaderResourceCacheVk)
    (CtxId : Nat) (s : State) (sets : List (List Resource)) (offs : List Nat)
    (hsets : c.HasSets sets)
    (hready : ∀ L ∈ sets, ∀ r ∈ leadingDynamicSlots L, r.Ready = true)
    (hdebug : DEBUG = true → ∀ L ∈ sets, ∀ r ∈ trailingSlots L,
      r.Type_ ≠ .UniformBuffer ∧ r.Type_ ≠ .StorageBuffer)
    (hroom : (sets.flatMap leadingDynamicSlots).length ≤ offs.length)
    (h32 : (sets.flatMap leadingDynamicSlots).length < 2 ^ 32) :
    ∃ n W, GetDynamicBufferOffsets DEBUG c CtxId offs s = .ok (n, W) ∧
      n = (sets.flatMap leadingDynamicSlots).length ∧
      W.length = offs.length ∧
      (∀ k, n ≤ k → W[k]? = offs[k]?) ∧
      W.take n = (sets.flatMap leadingDynamicSlots).map (Resource.dynamicOffset s CtxId) := by
  refine ⟨_, _, GetDynamicBufferOffsets_eq DEBUG c CtxId s sets offs hsets hready hdebug
    hroom h32, rfl, ?_, ?_, ?_⟩
  · simp only [List.length_append, List.length_map, List.length_drop]
    omega
  · intro k hk
    rw [List.getElem?_append_right (by simpa using hk)]
    simp only [List.length_map, List.getElem?_drop]
    congr 1
    omega
  · exact List.take_left' (by simp)

theorem GetDynamicBufferOffsets_writes_first_entries_witness :
    ∃ n W, GetDynamicBufferOffsets true
        (scenarioCache 0 (some (.textureView exampleSRView))
          (some (.bufferView exampleBufferView))) 0 [7, 8, 9] offsetState = .ok (n, W) ∧
      n = ([[(⟨.UniformBuffer, some (.buffer 0)⟩ : Resource),
             ⟨.SampledImage, some (.textureView exampleSRView)⟩],
            [⟨.StorageBuffer, some (.bufferView exampleBufferView)⟩]].flatMap
          leadingDynamicSlots).length ∧
      W.length = [7, 8, 9].length ∧
      (∀ k, n ≤ k → W[k]? = [7, 8, 9][k]?) ∧
      W.take n = ([[(⟨.UniformBuffer, some (.buffer 0)⟩ : Resource),
             ⟨.SampledImage, some (.textureView exampleSRView)⟩],
            [⟨.StorageBuffer, some (.bufferView exampleBufferView)⟩]].flatMap
          leadingDynamicSlots).map (Resource.dynamicOffset offsetState 0) :=
  GetDynamicBufferOffsets_writes_first_entries true
    (scenarioCache 0 (some (.textureView exampleSRView))
      (some (.bufferView exampleBufferView))) 0 offsetState
    [[⟨.UniformBuffer, some (.buffer 0)⟩, ⟨.SampledImage, some (.textureView exampleSRView)⟩],
     [⟨.StorageBuffer, some (.bufferView exampleBufferView)⟩]]
    [7, 8, 9] (by decide) (by decide) (by decide) (by decide) (by decide)

/-! ## The ordering assertion of the debug build -/

theorem length_takeWhile_le_countP {α : Type} (p : α → Bool) (L : List α) :
    (L.takeWhile p).length ≤ L.countP p := by
  induction L with
  | nil => simp
  | cons a L ih =>
      by_cases h : p a = true
      · simp only [List.takeWhile_cons, h, if_true, List.length_cons, List.countP_cons_of_pos]
        omega
      · simp [List.takeWhile_cons, h]

theorem length_leading_le_count (L : List Resource) :
    (leadingDynamicSlots L).length
      ≤ L.countP (fun r => r.Type_ = .UniformBuffer)
        + L.countP (fun r => r.Type_ = .StorageBuffer) := by
  have h1 := length_takeWhile_le_countP (fun r : Resource => decide (r.Type_ = .UniformBuffer)) L
  have h2 := length_takeWhile_le_countP (fun r : Resource => decide (r.Type_ = .StorageBuffer))
    (L.dropWhile (fun r => decide (r.Type_ = .UniformBuffer)))
  have h3 : (L.dropWhile (fun r => decide (r.Type_ = .UniformBuffer))).countP
      (fun r => decide (r.Type_ = .StorageBuffer))
      ≤ L.countP (fun r => decide (r.Type_ = .StorageBuffer)) :=
    List.Sublist.countP_le _ (List.dropWhile_sublist _)
  simp only [leadingDynamicSlots, List.length_append]
  omega

theorem length_flatMap_leading_le_count (sets : List (List Resource)) :
    (sets.flatMap leadingDynamicSlots).length ≤ specDynamicCount sets := by
  induction sets with
  | nil => simp [specDynamicCount]
  | cons L sets ih =>
      have h := length_leading_le_count L
      simp only [specDynamicCount, List.flatMap_cons, List.length_append, List.map_cons,
        List.sum_cons] at ih ⊢
      omega

/-- A set is canonically ordered exactly when no slot behind its leading uniform and
storage runs is a `UniformBuffer` or `StorageBuffer` slot. -/
theorem canonical_iff_trailing (L : List Resource) :
    CanonicalOrder L ↔
      ∀ r ∈ trailingSlots L, r.Type_ ≠ .UniformBuffer ∧ r.Type_ ≠ .StorageBuffer := by
  constructor
  · exact fun hc => (canonical_leading L hc).2
  · intro h
    have hL : L = L.takeWhile (fun r => decide (r.Type_ = .UniformBuffer))
        ++ ((L.dropWhile (fun r => decide (r.Type_ = .UniformBuffer))).takeWhile
              (fun r => decide (r.Type_ = .StorageBuffer))
            ++ trailingSlots L) := by
      simp only [trailingSlots, List.takeWhile_append_dropWhile]
    have hU : ∀ r ∈ L.takeWhile (fun r => decide (r.Type_ = .UniformBuffer)),
        r.Type_.rank = 0 := by
      intro r hr
      have := List.mem_takeWhile_imp hr
      simp only [decide_eq_true_eq] at this
      rw [this]; rfl
    have hS : ∀ r ∈ (L.dropWhile (fun r => decide (r.Type_ = .UniformBuffer))).takeWhile
        (fun r => decide (r.Type_ = .StorageBuffer)), r.Type_.rank = 1 := by
      intro r hr
      have := List.mem_takeWhile_imp hr
      simp only [decide_eq_true_eq] at this
      rw [this]; rfl
    have hT : ∀ r ∈ trailingSlots L, r.Type_.rank = 2 := by
      intro r hr
      obtain ⟨h1, h2⟩ := h r hr
      have := rank_le_two r.Type_
      have h0 : r.Type_.rank ≠ 0 := fun e => h1 ((rank_eq_zero_iff _).1 e)
      have h1' : r.Type_.rank ≠ 1 := fun e => h2 ((rank_eq_one_iff _).1 e)
      omega
    unfold CanonicalOrder
    rw [hL, List.pairwise_append, List.pairwise_append]
    refine ⟨List.pairwise_of_forall_mem_list (fun a ha b hb => by rw [hU a ha, hU b hb]),
      ⟨List.pairwise_of_forall_mem_list (fun a ha b hb => by rw [hS a ha, hS b hb]),
       List.pairwise_of_forall_mem_list (fun a ha b hb => by rw [hT a ha, hT b hb]),
       fun a ha b hb => by rw [hS a ha, hT b hb]; omega⟩, ?_⟩
    intro a ha b hb
    rw [hU a ha]
    exact Nat.zero_le _

theorem debugLoop_fails (c : ShaderResourceCacheVk) (s : State)
    (d : DescriptorSet) (L : List Resource) (hsize : d.m_NumResources = L.length)
    (hget : ∀ j (hj : j < L.length), c.GetResource d j = .ok (L[j]))
    (k : Nat) (hk : k ≤ L.length)
    (hbad : ∃ r ∈ L.drop (L.length - k),
      ¬ (r.Type_ ≠ .UniformBuffer ∧ r.Type_ ≠ .StorageBuffer)) :
    GetDynamicBufferOffsets.debugLoop c s d k
      = .error (.assertionFailed
          "All uniform and storage buffers are expected to go first in the beginning of each descriptor set",
          s) := by
  induction k with
  | zero =>
      obtain ⟨r, hr, -⟩ := hbad
      simp only [Nat.sub_zero, List.drop_length, List.not_mem_nil] at hr
  | succ k ih =>
    have hres : L.length - (k + 1) < L.length := by omega
    have hdrop : L.drop (L.length - (k + 1))
        = L[L.length - (k + 1)] :: L.drop (L.length - k) := by
      rw [List.drop_eq_getElem_cons hres]
      congr 2
      omega
    rw [hdrop] at hbad
    by_cases h1 : L[L.length - (k + 1)].Type_ ≠ .UniformBuffer
        ∧ L[L.length - (k + 1)].Type_ ≠ .StorageBuffer
    · simp only [GetDynamicBufferOffsets.debugLoop, hsize, hget _ hres, liftFault, bind,
        Except.bind, VERIFY, h1, ne_eq, not_false_eq_true, and_self, decide_True, if_true,
        pure, Except.pure]
      apply ih (by omega)
      obtain ⟨r, hr, hrbad⟩ := hbad
      rcases List.mem_cons.1 hr with e | hr'
      · subst e; exact absurd h1 hrbad
      · exact ⟨r, hr', hrbad⟩
    · simp only [GetDynamicBufferOffsets.debugLoop, hsize, hget _ hres, liftFault, bind,
        Except.bind, VERIFY, h1, decide_False, if_false, Bool.false_eq_true]

theorem mem_of_mem_leading (L : List Resource) (r : Resource)
    (h : r ∈ leadingDynamicSlots L) : r ∈ L := by
  simp only [leadingDynamicSlots, List.mem_append] at h
  rcases h with h | h
  · exact (List.takeWhile_sublist _).subset h
  · exact (List.dropWhile_sublist _).subset ((List.takeWhile_sublist _).subset h)

/-- The body of the loop over the sets in a debug build, on a set with a
`UniformBuffer` or `StorageBuffer` slot behind its leading runs: the two collecting loops
complete and the checking loop stops at the ordering assertion. -/
theorem GetDynamicBufferOffsets_body_fails (c : ShaderResourceCacheVk)
    (CtxId : Nat) (s : State) (i : Nat) (d : DescriptorSet) (L : List Resource)
    (hd : c.GetDescriptorSet i = .ok d) (hsize : d.m_NumResources = L.length)
    (hget : ∀ j (hj : j < L.length), c.GetResource d j = .ok (L[j]))
    (hready : ∀ r ∈ leadingDynamicSlots L, r.Ready = true)
    (hbad : ∃ r ∈ trailingSlots L, ¬ (r.Type_ ≠ .UniformBuffer ∧ r.Type_ ≠ .StorageBuffer))
    (W : List Nat) (ind : Nat) (hroom : ind + (leadingDynamicSlots L).length ≤ W.length)
    (h32 : ind + (leadingDynamicSlots L).length < 2 ^ 32) :
    GetDynamicBufferOffsets.body true c CtxId s i ind W
      = .error (.assertionFailed
          "All uniform and storage buffers are expected to go first in the beginning of each descriptor set",
          s) := by
  simp only [leadingDynamicSlots, trailingSlots, List.length_append, List.mem_append]
    at hready hbad hroom h32
  generalize hU : L.takeWhile (fun r => decide (r.Type_ = .UniformBuffer)) = U at *
  generalize hD : L.dropWhile (fun r => decide (r.Type_ = .UniformBuffer)) = D at *
  generalize hS : D.takeWhile (fun r => decide (r.Type_ = .StorageBuffer)) = S at *
  have hUD : U.length + D.length = L.length := by
    rw [← hU, ← hD]; exact length_takeWhile_add_dropWhile _ L
  have hSD : S.length + (D.dropWhile (fun r => decide (r.Type_ = .StorageBuffer))).length
      = D.length := by
    rw [← hS]; exact length_takeWhile_add_dropWhile _ D
  have hdropU : L.drop U.length = D := by
    rw [← hU, ← hD]; exact drop_length_takeWhile _ L
  have hdropS : L.drop (U.length + S.length)
      = D.dropWhile (fun r => decide (r.Type_ = .StorageBuffer)) := by
    rw [← List.drop_drop, hdropU, ← hS]
    exact drop_length_takeWhile _ D
  have h1 := uniformLoop_eq c CtxId s d L hsize hget L.length le_rfl ind W
    (by simpa [hU] using fun r hr => hready r (Or.inl hr))
    (by simp only [Nat.sub_self, List.drop_zero, hU]; omega)
    (by simp only [Nat.sub_self, List.drop_zero, hU]; omega)
  simp only [Nat.sub_self, List.drop_zero, hU, Nat.zero_add] at h1
  have hk2 : L.length - (L.length - U.length) = U.length := by omega
  have hlenW1 := length_write W ind U.length (U.map (Resource.dynamicOffset s CtxId))
    (by simp) (by omega)
  have h2 := storageLoop_eq c CtxId s d L hsize hget (L.length - U.length) (by omega)
    (ind + U.length)
    (W.take ind ++ U.map (Resource.dynamicOffset s CtxId) ++ W.drop (ind + U.length))
    (by rw [hk2, hdropU, hS]; exact fun r hr => hready r (Or.inr hr))
    (by rw [hk2, hdropU, hS, hlenW1]; omega) (by rw [hk2, hdropU, hS]; omega)
  rw [hk2, hdropU, hS] at h2
  have h3 := debugLoop_fails c s d L hsize hget (L.length - (U.length + S.length)) (by omega)
    (by
      rw [show L.length - (L.length - (U.length + S.length)) = U.length + S.length by omega,
        hdropS]
      exact hbad)
  simp only [GetDynamicBufferOffsets.body, hd, liftFault, bind, Except.bind, hsize, h1, h2,
    if_true, h3]

/-- The loop over the sets in a debug build: after `n` sets it has either collected the
offsets of these sets, all of which are canonically ordered, or stopped at the ordering
assertion, one of these sets not being canonically ordered. -/
theorem GetDynamicBufferOffsets_debug_iterations (c : ShaderResourceCacheVk)
    (CtxId : Nat) (s : State) (sets : List (List Resource)) (offs : List Nat)
    (hsets : c.HasSets sets)
    (hready : ∀ L ∈ sets, ∀ r ∈ leadingDynamicSlots L, r.Ready = true)
    (hroom : (sets.flatMap leadingDynamicSlots).length ≤ offs.length)
    (h32 : (sets.flatMap leadingDynamicSlots).length < 2 ^ 32) (n : Nat) (hn : n ≤ sets.length) :
    ((∀ L ∈ sets.take n, CanonicalOrder L) ∧
      GetDynamicBufferOffsets.iterations true c CtxId s offs n
        = .ok (((sets.take n).flatMap leadingDynamicSlots).length,
               ((sets.take n).flatMap leadingDynamicSlots).map (Resource.dynamicOffset s CtxId)
                 ++ offs.drop ((sets.take n).flatMap leadingDynamicSlots).length)) ∨
    ((∃ L ∈ sets.take n, ¬ CanonicalOrder L) ∧
      GetDynamicBufferOffsets.iterations true c CtxId s offs n
        = .error (.assertionFailed
            "All uniform and storage buffers are expected to go first in the beginning of each descriptor set",
            s)) := by
  induction n with
  | zero =>
      left
      simp [GetDynamicBufferOffsets.iterations, pure, Except.pure]
  | succ n ih =>
    have hlt : n < sets.length := hn
    have htake : sets.take (n + 1) = sets.take n ++ [sets[n]] := by
      rw [List.take_succ, List.getElem?_eq_getElem hlt]
      rfl
    rcases ih (Nat.le_of_succ_le hn) with ⟨hcan, ihn⟩ | ⟨⟨L, hL, hLbad⟩, ihn⟩
    · obtain ⟨d, hd, hsize, hget⟩ := HasSets_get c sets hsets n hlt
      have hmem : sets[n] ∈ sets := List.getElem_mem _
      have hsucc := flatMap_take_succ sets n hlt
      have hle := flatMap_take_length_le sets (n + 1)
      rw [hsucc, List.length_append] at hle
      generalize hV : (sets.take n).flatMap leadingDynamicSlots = V at *
      have hWlen : (V.map (Resource.dynamicOffset s CtxId) ++ offs.drop V.length).length
          = offs.length := by
        simp only [List.length_append, List.length_map, List.length_drop]
        omega
      by_cases hc : CanonicalOrder sets[n]
      · left
        refine ⟨?_, ?_⟩
        · intro L hL
          rw [htake, List.mem_append, List.mem_singleton] at hL
          rcases hL with hL | rfl
          · exact hcan L hL
          · exact hc
        have hb := GetDynamicBufferOffsets_body_eq true c CtxId s n d sets[n] hd hsize hget
          (hready _ hmem) (fun _ => (canonical_iff_trailing _).1 hc)
          (V.map (Resource.dynamicOffset s CtxId) ++ offs.drop V.length) V.length
          (by rw [hWlen]; omega) (by omega)
        simp only [GetDynamicBufferOffsets.iterations, ihn, bind, Except.bind, hb, hsucc]
        refine congrArg Except.ok (Prod.ext ?_ ?_)
        · simp only [List.length_append]
        · simp only [List.length_append, List.map_append]
          have e1 : List.take V.length
              (V.map (Resource.dynamicOffset s CtxId) ++ offs.drop V.length)
              = V.map (Resource.dynamicOffset s CtxId) :=
            List.take_left' (by simp)
          have e2 : List.drop (V.length + (leadingDynamicSlots sets[n]).length)
              (V.map (Resource.dynamicOffset s CtxId) ++ offs.drop V.length)
              = offs.drop (V.length + (leadingDynamicSlots sets[n]).length) := by
            have e : V.length + (leadingDynamicSlots sets[n]).length
                = (V.map (Resource.dynamicOffset s CtxId)).length
                  + (leadingDynamicSlots sets[n]).length := by simp
            rw [e, List.drop_append, List.drop_drop]
            simp
          rw [e1, e2]
      · right
        refine ⟨⟨sets[n], ?_, hc⟩, ?_⟩
        · rw [htake]
          exact List.mem_append_right _ (List.mem_singleton_self _)
        have hbad : ∃ r ∈ trailingSlots sets[n],
            ¬ (r.Type_ ≠ .UniformBuffer ∧ r.Type_ ≠ .StorageBuffer) := by
          by_contra hno
          push_neg at hno
          exact hc ((canonical_iff_trailing _).2 (fun r hr => by
            have := hno r hr
            exact this))
        have hb := GetDynamicBufferOffsets_body_fails c CtxId s n d sets[n] hd hsize hget
          (hready _ hmem) hbad
          (V.map (Resource.dynamicOffset s CtxId) ++ offs.drop V.length) V.length
          (by rw [hWlen]; omega) (by omega)
        simp only [GetDynamicBufferOffsets.iterations, ihn, bind, Except.bind, hb]
    · right
      refine ⟨⟨L, ?_, hLbad⟩, ?_⟩
      · rw [htake]; exact List.mem_append_left _ hL
      · simp only [GetDynamicBufferOffsets.iterations, ihn, bind, Except.bind]

/-- C25: in a debug build, on a fully bound cache that consists of the sets `sets` (and
with a vector that has room for one offset per dynamic slot), `GetDynamicBufferOffsets`
stops at the assertion "All uniform and storage buffers are expected to go first ..." if
and only if some set is not canonically ordered; when every set is canonically ordered
the call completes. -/
theorem debug_assertion_iff_not_canonical (c : ShaderResourceCacheVk) (CtxId : Nat)
    (s : State) (sets : List (List Resource)) (offs : List Nat)
    (hsets : c.HasSets sets) (hready : ∀ L ∈ sets, ∀ r ∈ L, r.Ready = true)
    (hroom : specDynamicCount sets ≤ offs.length) (h32 : specDynamicCount sets < 2 ^ 32) :
    (GetDynamicBufferOffsets true c CtxId offs s
        = .error (.assertionFailed
            "All uniform and storage buffers are expected to go first in the beginning of each descriptor set",
            s)
      ↔ ∃ L ∈ sets, ¬ CanonicalOrder L) ∧
    ((∀ L ∈ sets, CanonicalOrder L) →
      ∃ n W, GetDynamicBufferOffsets true c CtxId offs s = .ok (n, W)) := by
  have hle := length_flatMap_leading_le_count sets
  have h := GetDynamicBufferOffsets_debug_iterations c CtxId s sets offs hsets
    (fun L hL r hr => hready L hL r (mem_of_mem_leading L r hr)) (by omega) (by omega)
    sets.length le_rfl
  rw [List.take_length] at h
  rw [GetDynamicBufferOffsets, hsets.1]
  rcases h with ⟨hcan, hok⟩ | ⟨hbad, herr⟩
  · refine ⟨⟨fun he => ?_, fun ⟨L, hL, hLbad⟩ => absurd (hcan L hL) hLbad⟩,
      fun _ => ⟨_, _, hok⟩⟩
    rw [hok] at he
    cases he
  · refine ⟨⟨fun _ => hbad, fun _ => herr⟩, fun hcan => ?_⟩
    obtain ⟨L, hL, hLbad⟩ := hbad
    exact absurd (hcan L hL) hLbad

theorem debug_assertion_iff_not_canonical_witness :
    ((GetDynamicBufferOffsets true nonCanonicalCache 0 [7] exampleState
        = .error (.assertionFailed
            "All uniform and storage buffers are expected to go first in the beginning of each descriptor set",
            exampleState)
      ↔ ∃ L ∈ [[(⟨.SampledImage, some (.textureView exampleSRView)⟩ : Resource),
                ⟨.UniformBuffer, some (.buffer 0)⟩]], ¬ CanonicalOrder L) ∧
    ((∀ L ∈ [[(⟨.SampledImage, some (.textureView exampleSRView)⟩ : Resource),
              ⟨.UniformBuffer, some (.buffer 0)⟩]], CanonicalOrder L) →
      ∃ n W, GetDynamicBufferOffsets true nonCanonicalCache 0 [7] exampleState = .ok (n, W))) ∧
    GetDynamicBufferOffsets true nonCanonicalCache 0 [7] exampleState
        = .error (.assertionFailed
            "All uniform and storage buffers are expected to go first in the beginning of each descriptor set",
            exampleState) ∧
    ¬ CanonicalOrder [(⟨.SampledImage, some (.textureView exampleSRView)⟩ : Resource),
                      ⟨.UniformBuffer, some (.buffer 0)⟩] :=
  ⟨debug_assertion_iff_not_canonical nonCanonicalCache 0 exampleState
      [[⟨.SampledImage, some (.textureView exampleSRView)⟩, ⟨.UniformBuffer, some (.buffer 0)⟩]]
      [7] (by decide) (by decide) (by decide) (by decide),
   rfl, by decide⟩

/-! ## The two modes of the pass on a cache without shared objects -/

theorem specStep_other_buffer (VerifyOnly : Bool) (s : State) (q : Requirement) (b : Nat)
    (h : ∀ m, q ≠ .access b m) : (specStep VerifyOnly s q).Buffers b = s.Buffers b := by
  cases q with
  | nothing => rfl
  | access b' m =>
      have hne : b ≠ b' := fun e => h m (by rw [e])
      simp only [specStep]
      split_ifs <;> simp [LOG_ERROR_MESSAGE, BufferMemoryBarrier, hne]
  | layout t l =>
      simp only [specStep]
      split_ifs <;> simp [LOG_ERROR_MESSAGE, TransitionImageLayout]

theorem specStep_other_texture (VerifyOnly : Bool) (s : State) (q : Requirement) (t : Nat)
    (h : ∀ l, q ≠ .layout t l) : (specStep VerifyOnly s q).Textures t = s.Textures t := by
  cases q with
  | nothing => rfl
  | access b m =>
      simp only [specStep]
      split_ifs <;> simp [LOG_ERROR_MESSAGE, BufferMemoryBarrier]
  | layout t' l =>
      have hne : t ≠ t' := fun e => h l (by rw [e])
      simp only [specStep]
      split_ifs <;> simp [LOG_ERROR_MESSAGE, TransitionImageLayout, hne]

theorem slot_of_ready (c : ShaderResourceCacheVk) (hready : c.Ready) (res : Nat)
    (hres : res < c.m_TotalResources) : ∃ r, c.slot res = some (some r) ∧ r.Ready = true := by
  have h := hready res hres
  rcases hs : c.slot res with _ | _ | r
  · rw [hs] at h; cases h
  · rw [hs] at h; cases h
  · rw [hs] at h; exact ⟨r, rfl, h⟩

/-- On a fully bound cache the first `n` iterations of a pass in `Apply` mode complete;
they leave every object the same up to its access state and do not touch an object that
is behind none of the first `n` slots. -/
theorem iterations_apply_untouched (c : ShaderResourceCacheVk) (s : State) (hready : c.Ready)
    (n : Nat) (hn : n ≤ c.m_TotalResources) :
    ∃ sA, TransitionResources.iterations false c n s = .ok sA ∧ sA.SameObjects s ∧
      (∀ b, (∀ i < n, ∀ r, c.slot i = some (some r) → r.buffer? ≠ some b) →
        sA.Buffers b = s.Buffers b) ∧
      (∀ t, (∀ i < n, ∀ r, c.slot i = some (some r) → r.texture? ≠ some t) →
        sA.Textures t = s.Textures t) := by
  induction n with
  | zero => exact ⟨s, rfl, SameObjects_refl s, fun _ _ => rfl, fun _ _ => rfl⟩
  | succ n ih =>
      obtain ⟨sA, hA, hsame, hB, hT⟩ := ih (Nat.le_of_succ_le hn)
      obtain ⟨r, hslot, hr⟩ := slot_of_ready c hready n hn
      refine ⟨specStep false sA (specRequirement sA r), ?_, ?_, ?_, ?_⟩
      · rw [iterations_succ_of_ok false c n s sA hA, hslot]
        exact body_ready false r sA hr
      · exact SameObjects_specStep false sA s _ hsame
      · intro b hb
        rw [specStep_other_buffer false sA _ b]
        · exact hB b (fun i hi r' hr' => hb i (Nat.lt_succ_of_lt hi) r' hr')
        · intro m hq
          exact hb n (Nat.lt_succ_self n) r hslot (requirement_access_inv sA r b m hq).1
      · intro t ht
        rw [specStep_other_texture false sA _ t]
        · exact hT t (fun i hi r' hr' => ht i (Nat.lt_succ_of_lt hi) r' hr')
        · intro l hq
          exact ht n (Nat.lt_succ_self n) r hslot (requirement_layout_inv sA r t l hq).1

/-- On a fully bound cache the first `n` iterations of a pass in `VerifyOnly` mode
complete and leave every buffer and texture as it was. -/
theorem iterations_verify_ok (c : ShaderResourceCacheVk) (s : State) (hready : c.Ready)
    (n : Nat) (hn : n ≤ c.m_TotalResources) :
    ∃ sV, TransitionResources.iterations true c n s = .ok sV ∧
      sV.Buffers = s.Buffers ∧ sV.Textures = s.Textures := by
  have hframe := iterations_verify_frame c s n
  induction n with
  | zero => exact ⟨s, rfl, rfl, rfl⟩
  | succ n ih =>
      obtain ⟨sV, hV, -, -⟩ := ih (Nat.le_of_succ_le hn) (iterations_verify_frame c s n)
      obtain ⟨r, hslot, hr⟩ := slot_of_ready c hready n hn
      have hnext : TransitionResources.iterations true c (n + 1) s
          = .ok (specStep true sV (specRequirement sV r)) := by
        rw [iterations_succ_of_ok true c n s sV hV, hslot]
        exact body_ready true r sV hr
      rw [hnext] at hframe
      exact ⟨_, hnext, hframe.1, hframe.2.1⟩

theorem unshared_buffer (c : ShaderResourceCacheVk) (hun : c.Unshared) (res i : Nat)
    (hres : res < c.m_TotalResources) (hi : i < res) (r r' : Resource)
    (hr : c.slot res = some (some r)) (hr' : c.slot i = some (some r')) (b : Nat)
    (hb : r.buffer? = some b) : r'.buffer? ≠ some b := by
  have h := hun res hres i (Nat.lt_trans hi hres) (Nat.ne_of_gt hi)
  rw [hr, hr'] at h
  simp only [slotShares, Resource.shares, hb, Option.isSome_some, Bool.true_and,
    Bool.or_eq_false_iff, beq_eq_false_iff_ne, ne_eq] at h
  exact fun e => h.1 e.symm

theorem unshared_texture (c : ShaderResourceCacheVk) (hun : c.Unshared) (res i : Nat)
    (hres : res < c.m_TotalResources) (hi : i < res) (r r' : Resource)
    (hr : c.slot res = some (some r)) (hr' : c.slot i = some (some r')) (t : Nat)
    (ht : r.texture? = some t) : r'.texture? ≠ some t := by
  have h := hun res hres i (Nat.lt_trans hi hres) (Nat.ne_of_gt hi)
  rw [hr, hr'] at h
  simp only [slotShares, Resource.shares, ht, Option.isSome_some, Bool.true_and,
    Bool.or_eq_false_iff, beq_eq_false_iff_ne, ne_eq] at h
  exact fun e => h.2 e.symm

/-- C27: on a fully bound cache in which no buffer or texture is reachable from more
than one slot, from every starting store, both modes of `TransitionResources` reach
every slot `res`, compute for it the required state that the table gives in the starting
store, and either both do nothing there (the starting state of the object satisfies the
requirement), or `Apply` appends exactly one request and `VerifyOnly` exactly one
diagnostic, both carrying that same required state of that same object. -/
theorem Apply_and_VerifyOnly_flag_same_slots (c : ShaderResourceCacheVk) (s : State)
    (hready : c.Ready) (hun : c.Unshared) (res : Nat) (hres : res < c.m_TotalResources) :
    ∃ r sA sA' sV sV',
      c.slot res = some (some r) ∧
      TransitionResources.iterations false c res s = .ok sA ∧
      TransitionResources.iterations false c (res + 1) s = .ok sA' ∧
      TransitionResources.iterations true c res s = .ok sV ∧
      TransitionResources.iterations true c (res + 1) s = .ok sV' ∧
      specRequirement sA r = specRequirement s r ∧
      specRequirement sV r = specRequirement s r ∧
      (((specRequirement s r).holds s = true ∧ sA' = sA ∧ sV' = sV) ∨
       (∃ b m, specRequirement s r = .access b m ∧
          (s.Buffers b).CheckAccessFlags m = false ∧
          sA'.Requests = sA.Requests ++ [.BufferMemoryBarrier b m] ∧ sA'.Log = sA.Log ∧
          sV'.Log = sV.Log
            ++ [.bufferState (s.Buffers b).Name m (s.Buffers b).m_AccessFlags] ∧
          sV'.Requests = sV.Requests) ∨
       (∃ t l, specRequirement s r = .layout t l ∧
          (s.Textures t).m_Layout ≠ l ∧
          sA'.Requests = sA.Requests ++ [.TransitionImageLayout t l] ∧ sA'.Log = sA.Log ∧
          sV'.Log = sV.Log
            ++ [.textureState (s.Textures t).Name l (s.Textures t).m_Layout] ∧
          sV'.Requests = sV.Requests)) := by
  obtain ⟨r, hslot, hr⟩ := slot_of_ready c hready res hres
  obtain ⟨sA, hA, hsame, hB, hT⟩ := iterations_apply_untouched c s hready res (Nat.le_of_lt hres)
  obtain ⟨sV, hV, hVB, hVT⟩ := iterations_verify_ok c s hready res (Nat.le_of_lt hres)
  have hqA : specRequirement sA r = specRequirement s r :=
    specRequirement_of_BindFlags sA s r (fun i => (SameObjects_texture sA s hsame i).1)
  have hqV : specRequirement sV r = specRequirement s r := specRequirement_congr sV s r hVT
  have hA' : TransitionResources.iterations false c (res + 1) s
      = .ok (specStep false sA (specRequirement s r)) := by
    rw [iterations_succ_of_ok false c res s sA hA, hslot, body_ready false r sA hr, hqA]
  have hV' : TransitionResources.iterations true c (res + 1) s
      = .ok (specStep true sV (specRequirement s r)) := by
    rw [iterations_succ_of_ok true c res s sV hV, hslot, body_ready true r sV hr, hqV]
  refine ⟨r, sA, _, sV, _, hslot, hA, hA', hV, hV', hqA, hqV, ?_⟩
  rcases hq : specRequirement s r with _ | ⟨b, m⟩ | ⟨t, l⟩
  · left
    exact ⟨rfl, rfl, rfl⟩
  · have hbuf := (requirement_access_inv s r b m hq).1
    have hAb : sA.Buffers b = s.Buffers b :=
      hB b (fun i hi r' hr' => unshared_buffer c hun res i hres hi r r' hslot hr' b hbuf)
    have hVb : sV.Buffers b = s.Buffers b := by rw [hVB]
    by_cases hc : (s.Buffers b).CheckAccessFlags m = true
    · left
      refine ⟨by simpa [Requirement.holds] using hc, ?_, ?_⟩
      · simp [specStep, hAb, hc]
      · simp [specStep, hVb, hc]
    · right; left
      refine ⟨b, m, rfl, by simpa using hc, ?_, ?_, ?_, ?_⟩
      · simp [specStep, hAb, hc, BufferMemoryBarrier]
      · simp [specStep, hAb, hc, BufferMemoryBarrier]
      · simp [specStep, hVb, hc, LOG_ERROR_MESSAGE]
      · simp [specStep, hVb, hc, LOG_ERROR_MESSAGE]
  · have htex := (requirement_layout_inv s r t l hq).1
    have hAt : sA.Textures t = s.Textures t :=
      hT t (fun i hi r' hr' => unshared_texture c hun res i hres hi r r' hslot hr' t htex)
    have hVt : sV.Textures t = s.Textures t := by rw [hVT]
    by_cases hc : (s.Textures t).m_Layout = l
    · left
      refine ⟨by simpa [Requirement.holds] using hc, ?_, ?_⟩
      · simp [specStep, hAt, hc]
      · simp [specStep, hVt, hc]
    · right; right
      refine ⟨t, l, rfl, hc, ?_, ?_, ?_, ?_⟩
      · simp [specStep, hAt, hc, TransitionImageLayout]
      · simp [specStep, hAt, hc, TransitionImageLayout]
      · simp [specStep, hVt, hc, LOG_ERROR_MESSAGE]
      · simp [specStep, hVt, hc, LOG_ERROR_MESSAGE]

theorem Apply_and_VerifyOnly_flag_same_slots_witness :
    (scenarioCache 0 (some (.textureView exampleSRView))
        (some (.bufferView exampleBufferView))).Ready ∧
    (scenarioCache 0 (some (.textureView exampleSRView))
        (some (.bufferView exampleBufferView))).Unshared ∧
    ∃ r sA sA' sV sV',
      (scenarioCache 0 (some (.textureView exampleSRView))
        (some (.bufferView exampleBufferView))).slot 0 = some (some r) ∧
      TransitionResources.iterations false (scenarioCache 0 (some (.textureView exampleSRView))
        (some (.bufferView exampleBufferView))) 0 scenarioState = .ok sA ∧
      TransitionResources.iterations false (scenarioCache 0 (some (.textureView exampleSRView))
        (some (.bufferView exampleBufferView))) (0 + 1) scenarioState = .ok sA' ∧
      TransitionResources.iterations true (scenarioCache 0 (some (.textureView exampleSRView))
        (some (.bufferView exampleBufferView))) 0 scenarioState = .ok sV ∧
      TransitionResources.iterations true (scenarioCache 0 (some (.textureView exampleSRView))
        (some (.bufferView exampleBufferView))) (0 + 1) scenarioState = .ok sV' ∧
      specRequirement sA r = specRequirement scenarioState r ∧
      specRequirement sV r = specRequirement scenarioState r ∧
      (((specRequirement scenarioState r).holds scenarioState = true ∧ sA' = sA ∧ sV' = sV) ∨
       (∃ b m, specRequirement scenarioState r = .access b m ∧
          (scenarioState.Buffers b).CheckAccessFlags m = false ∧
          sA'.Requests = sA.Requests ++ [.BufferMemoryBarrier b m] ∧ sA'.Log = sA.Log ∧
          sV'.Log = sV.Log
            ++ [.bufferState (scenarioState.Buffers b).Name m
                  (scenarioState.Buffers b).m_AccessFlags] ∧
          sV'.Requests = sV.Requests) ∨
       (∃ t l, specRequirement scenarioState r = .layout t l ∧
          (scenarioState.Textures t).m_Layout ≠ l ∧
          sA'.Requests = sA.Requests ++ [.TransitionImageLayout t l] ∧ sA'.Log = sA.Log ∧
          sV'.Log = sV.Log
            ++ [.textureState (scenarioState.Textures t).Name l
                  (scenarioState.Textures t).m_Layout] ∧
          sV'.Requests = sV.Requests)) :=
  ⟨by decide, by decide,
   Apply_and_VerifyOnly_flag_same_slots
    (scenarioCache 0 (some (.textureView exampleSRView))
      (some (.bufferView exampleBufferView))) scenarioState (by decide) (by decide) 0
    (by decide)⟩

/-! ## The reflection consumer -/

theorem placeNext_ok (P : ReflectionParams) (st st' : ShaderResourcesD3D12)
    (k : ResourceCategory) (A : D3DShaderResourceAttribs) (SamplerId : Nat)
    (h : st.placeNext P k A SamplerId = .ok st') :
    st'.NumResources = st.NumResources ∧ st.Curr k < st.NumResources k ∧
    st'.Curr = Function.update st.Curr k ((st.Curr k + 1) % 2 ^ 32) ∧
    st'.NamesRemainingSize + P.CopyStringSize A.Name = st.NamesRemainingSize := by
  simp only [ShaderResourcesD3D12.placeNext, ShaderResourcesD3D12.GetResAttribs,
    ShaderResourcesD3D12.construct] at h
  by_cases h1 : st.Curr k < st.NumResources k
  · by_cases h2 : P.CopyStringSize A.Name ≤ st.NamesRemainingSize
    · simp only [h1, h2, if_true, bind, Except.bind, pure, Except.pure] at h
      injection h with h
      subst h
      refine ⟨rfl, h1, rfl, ?_⟩
      simp only
      omega
    · simp only [h1, h2, if_true, if_false, bind, Except.bind, pure, Except.pure] at h
      cases h
  · simp only [h1, if_false, bind, Except.bind] at h
    cases h

theorem OnNewResource_ok (P : ReflectionParams) (st st' : ShaderResourcesD3D12)
    (r : ReflectedResource) (h : st.OnNewResource P r = .ok st') :
    st'.NumResources = st.NumResources ∧ st.Curr r.category < st.NumResources r.category ∧
    st'.Curr = Function.update st.Curr r.category ((st.Curr r.category + 1) % 2 ^ 32) ∧
    st'.NamesRemainingSize + P.CopyStringSize r.Attribs.Name = st.NamesRemainingSize := by
  cases r with
  | CB a => exact placeNext_ok P st st' _ a _ h
  | TexUAV a => exact placeNext_ok P st st' _ a _ h
  | BufUAV a => exact placeNext_ok P st st' _ a _ h
  | BufSRV a => exact placeNext_ok P st st' _ a _ h
  | Sampler a => exact placeNext_ok P st st' _ a _ h
  | TexSRV a =>
      simp only [ShaderResourcesD3D12.OnNewResource, ShaderResourcesD3D12.OnNewTexSRV,
        except_bind_eq_ok] at h
      obtain ⟨_, _, h⟩ := h
      exact placeNext_ok P st st' _ a _ h

/-- A stream that is consumed without a fault leaves the declared counts as they were,
has advanced each counter by the number of streamed resources of its category, and has
taken the bytes of their names from the name pool. -/
theorem stream_ok (P : ReflectionParams) (resources : List ReflectedResource) :
    ∀ st st' : ShaderResourcesD3D12, (∀ k, st.NumResources k < 2 ^ 32) →
      ShaderResourcesD3D12.stream P st resources = .ok st' →
      st'.NumResources = st.NumResources ∧
      (∀ k, st'.Curr k = st.Curr k + streamedCount k resources) ∧
      st'.NamesRemainingSize + streamedNameBytes P resources = st.NamesRemainingSize := by
  induction resources with
  | nil =>
      intro st st' _ h
      simp only [ShaderResourcesD3D12.stream, pure, Except.pure] at h
      injection h with h
      subst h
      simp [streamedCount, streamedNameBytes]
  | cons r rest ih =>
      intro st st' hU h
      simp only [ShaderResourcesD3D12.stream, except_bind_eq_ok] at h
      obtain ⟨st1, h1, h2⟩ := h
      obtain ⟨hN, hlt, hC, hR⟩ := OnNewResource_ok P st st1 r h1
      obtain ⟨hN', hC', hR'⟩ := ih st1 st' (by rw [hN]; exact hU) h2
      refine ⟨hN'.trans hN, ?_, ?_⟩
      · intro k
        rw [hC' k, hC]
        have hmod : (st.Curr r.category + 1) % 2 ^ 32 = st.Curr r.category + 1 :=
          Nat.mod_eq_of_lt (by have := hU r.category; omega)
        by_cases hk : r.category = k
        · subst hk
          simp only [Function.update_same, hmod, streamedCount, List.countP_cons_of_pos,
            decide_True]
          omega
        · have hk' : k ≠ r.category := fun e => hk e.symm
          simp only [Function.update_noteq hk', streamedCount]
          rw [List.countP_cons_of_neg]
          simpa using hk
      · simp only [streamedNameBytes, List.map_cons, List.sum_cons] at hR' ⊢
        omega

theorem Initialize_U32 (NumCBs NumTexSRVs NumTexUAVs NumBufSRVs NumBufUAVs NumSamplers
    ResourceNamesPoolSize : Nat)
    (hU32 : NumCBs < 2 ^ 32 ∧ NumTexSRVs < 2 ^ 32 ∧ NumTexUAVs < 2 ^ 32 ∧ NumBufSRVs < 2 ^ 32 ∧
      NumBufUAVs < 2 ^ 32 ∧ NumSamplers < 2 ^ 32) (k : ResourceCategory) :
    (ShaderResourcesD3D12.Initialize NumCBs NumTexSRVs NumTexUAVs NumBufSRVs NumBufUAVs
      NumSamplers ResourceNamesPoolSize).NumResources k < 2 ^ 32 := by
  obtain ⟨h1, h2, h3, h4, h5, h6⟩ := hU32
  cases k <;> simp only [ShaderResourcesD3D12.Initialize] <;> assumption

theorem stream_le (P : ReflectionParams) (resources : List ReflectedResource) :
    ∀ st st' : ShaderResourcesD3D12, (∀ k, st.NumResources k < 2 ^ 32) →
      (∀ k, st.Curr k ≤ st.NumResources k) →
      ShaderResourcesD3D12.stream P st resources = .ok st' →
      ∀ k, st'.Curr k ≤ st'.NumResources k := by
  induction resources with
  | nil =>
      intro st st' _ hle h
      simp only [ShaderResourcesD3D12.stream, pure, Except.pure] at h
      injection h with h
      subst h
      exact hle
  | cons r rest ih =>
      intro st st' hU hle h
      simp only [ShaderResourcesD3D12.stream, except_bind_eq_ok] at h
      obtain ⟨st1, h1, h2⟩ := h
      obtain ⟨hN, hlt, hC, -⟩ := OnNewResource_ok P st st1 r h1
      refine ih st1 st' (by rw [hN]; exact hU) ?_ h2
      intro k
      rw [hC, hN]
      have hmod : (st.Curr r.category + 1) % 2 ^ 32 = st.Curr r.category + 1 :=
        Nat.mod_eq_of_lt (by have := hU r.category; omega)
      by_cases hk : r.category = k
      · subst hk
        simp only [Function.update_same, hmod]
        omega
      · have hk' : k ≠ r.category := fun e => hk e.symm
        simp only [Function.update_noteq hk']
        exact hle k

theorem stream_append (P : ReflectionParams) (a b : List ReflectedResource) :
    ∀ st : ShaderResourcesD3D12,
      ShaderResourcesD3D12.stream P st (a ++ b)
        = (ShaderResourcesD3D12.stream P st a >>= fun st' =>
            ShaderResourcesD3D12.stream P st' b) := by
  induction a with
  | nil => intro st; rfl
  | cons r rest ih =>
      intro st
      simp only [List.cons_append, ShaderResourcesD3D12.stream]
      cases h : st.OnNewResource P r with
      | error e => rfl
      | ok st1 =>
          simp only [bind, Except.bind]
          exact ih st1

/-- C23: the check of the texture SRV callback.  After the counts have been reported
and a stream `streamed` has been consumed without a fault, the check "All samplers must
be initialized before texture SRVs" passes if and only if the number of samplers in
`streamed` equals the declared sampler count; when fewer samplers have been streamed the
callback for a texture SRV stops at that assertion, and so does every stream that
continues `streamed` with a texture SRV. -/
theorem texture_SRV_needs_all_samplers (P : ReflectionParams)
    (NumCBs NumTexSRVs NumTexUAVs NumBufSRVs NumBufUAVs NumSamplers ResourceNamesPoolSize : Nat)
    (hU32 : NumCBs < 2 ^ 32 ∧ NumTexSRVs < 2 ^ 32 ∧ NumTexUAVs < 2 ^ 32 ∧ NumBufSRVs < 2 ^ 32 ∧
      NumBufUAVs < 2 ^ 32 ∧ NumSamplers < 2 ^ 32)
    (streamed : List ReflectedResource) (st : ShaderResourcesD3D12)
    (hstream : ShaderResourcesD3D12.stream P
      (ShaderResourcesD3D12.Initialize NumCBs NumTexSRVs NumTexUAVs NumBufSRVs NumBufUAVs
        NumSamplers ResourceNamesPoolSize) streamed = .ok st)
    (TexAttribs : D3DShaderResourceAttribs) :
    streamedCount .Sampler streamed ≤ NumSamplers ∧
    (st.samplersInitialized = .ok () ↔ streamedCount .Sampler streamed = NumSamplers) ∧
    (streamedCount .Sampler streamed < NumSamplers →
      st.OnNewTexSRV P TexAttribs
        = .error (.assertionFailed "All samplers must be initialized before texture SRVs") ∧
      ∀ rest, ShaderResourcesD3D12.stream P
        (ShaderResourcesD3D12.Initialize NumCBs NumTexSRVs NumTexUAVs NumBufSRVs NumBufUAVs
          NumSamplers ResourceNamesPoolSize) (streamed ++ .TexSRV TexAttribs :: rest)
        = .error (.assertionFailed "All samplers must be initialized before texture SRVs")) := by
  have hU := Initialize_U32 NumCBs NumTexSRVs NumTexUAVs NumBufSRVs NumBufUAVs NumSamplers
    ResourceNamesPoolSize hU32
  obtain ⟨hN, hC, -⟩ := stream_ok P streamed _ st hU hstream
  have hle := stream_le P streamed _ st hU (fun k => Nat.zero_le _) hstream .Sampler
  have hNS : st.NumResources .Sampler = NumSamplers := by rw [hN]; rfl
  have hCS : st.Curr .Sampler = streamedCount .Sampler streamed := by
    rw [hC .Sampler]
    simp [ShaderResourcesD3D12.Initialize]
  rw [hNS, hCS] at hle
  have hcheck : st.samplersInitialized = .ok ()
      ↔ streamedCount .Sampler streamed = NumSamplers := by
    simp only [ShaderResourcesD3D12.samplersInitialized, ShaderResourcesD3D12.GetNumSamplers,
      VERIFY_EXPR_eq_ok, hNS, hCS, decide_eq_true_eq]
  refine ⟨hle, hcheck, fun hlt => ?_⟩
  have hne : ¬ streamedCount .Sampler streamed = NumSamplers := by omega
  have hfail : st.OnNewTexSRV P TexAttribs
      = .error (.assertionFailed "All samplers must be initialized before texture SRVs") := by
    simp only [ShaderResourcesD3D12.OnNewTexSRV, ShaderResourcesD3D12.samplersInitialized,
      ShaderResourcesD3D12.GetNumSamplers, VERIFY_EXPR, hNS, hCS, hne, decide_False,
      Bool.false_eq_true, if_false, bind, Except.bind]
  refine ⟨hfail, fun rest => ?_⟩
  rw [stream_append, hstream]
  simp only [bind, Except.bind, ShaderResourcesD3D12.stream,
    ShaderResourcesD3D12.OnNewResource, hfail]

theorem texture_SRV_needs_all_samplers_witness :
    streamedCount .Sampler [.CB ⟨"cbPerFrame", 0⟩] ≤ 1 ∧
    ((streamedState exampleParams 1 1 0 0 0 1 36 [.CB ⟨"cbPerFrame", 0⟩]).samplersInitialized
        = .ok () ↔ streamedCount .Sampler [.CB ⟨"cbPerFrame", 0⟩] = 1) ∧
    (streamedCount .Sampler [.CB ⟨"cbPerFrame", 0⟩] < 1 →
      (streamedState exampleParams 1 1 0 0 0 1 36 [.CB ⟨"cbPerFrame", 0⟩]).OnNewTexSRV
          exampleParams ⟨"g_Texture", 0⟩
        = .error (.assertionFailed "All samplers must be initialized before texture SRVs") ∧
      ∀ rest, ShaderResourcesD3D12.stream exampleParams
        (ShaderResourcesD3D12.Initialize 1 1 0 0 0 1 36)
        ([.CB ⟨"cbPerFrame", 0⟩] ++ .TexSRV ⟨"g_Texture", 0⟩ :: rest)
        = .error (.assertionFailed "All samplers must be initialized before texture SRVs")) :=
  texture_SRV_needs_all_samplers exampleParams 1 1 0 0 0 1 36
    (by decide) [.CB ⟨"cbPerFrame", 0⟩]
    (streamedState exampleParams 1 1 0 0 0 1 36 [.CB ⟨"cbPerFrame", 0⟩]) rfl ⟨"g_Texture", 0⟩

theorem finalChecks_ok_or_assertion (st : ShaderResourcesD3D12) :
    st.finalChecks = .ok () ∨ ∃ msg, st.finalChecks = .error (.assertionFailed msg) := by
  simp only [ShaderResourcesD3D12.finalChecks, VERIFY_EXPR, bind, Except.bind, pure,
    Except.pure, throw, throwThe, MonadExceptOf.throw]
  split_ifs <;> simp

/-- C24: the final checks of the reflection consumer.  After the counts have been
reported and the stream `resources` has been consumed without a fault, the final checks
pass if and only if for each of the six categories the number of streamed resources
equals the declared count and the names of the streamed resources take exactly the
declared byte budget; when they do not pass they stop at an assertion, and the
constructor ends the way the final checks end. -/
theorem final_checks_iff_counts_match (P : ReflectionParams)
    (NumCBs NumTexSRVs NumTexUAVs NumBufSRVs NumBufUAVs NumSamplers ResourceNamesPoolSize : Nat)
    (hU32 : NumCBs < 2 ^ 32 ∧ NumTexSRVs < 2 ^ 32 ∧ NumTexUAVs < 2 ^ 32 ∧ NumBufSRVs < 2 ^ 32 ∧
      NumBufUAVs < 2 ^ 32 ∧ NumSamplers < 2 ^ 32)
    (resources : List ReflectedResource) (st : ShaderResourcesD3D12)
    (hstream : ShaderResourcesD3D12.stream P
      (ShaderResourcesD3D12.Initialize NumCBs NumTexSRVs NumTexUAVs NumBufSRVs NumBufUAVs
        NumSamplers ResourceNamesPoolSize) resources = .ok st) :
    (st.finalChecks = .ok () ↔
      streamedCount .CB resources = NumCBs ∧
      streamedCount .TexSRV resources = NumTexSRVs ∧
      streamedCount .TexUAV resources = NumTexUAVs ∧
      streamedCount .BufSRV resources = NumBufSRVs ∧
      streamedCount .BufUAV resources = NumBufUAVs ∧
      streamedCount .Sampler resources = NumSamplers ∧
      streamedNameBytes P resources = ResourceNamesPoolSize) ∧
    (st.finalChecks = .ok () ∨ ∃ msg, st.finalChecks = .error (.assertionFailed msg)) ∧
    ShaderResourcesD3D12.constructor P NumCBs NumTexSRVs NumTexUAVs NumBufSRVs NumBufUAVs
        NumSamplers ResourceNamesPoolSize resources
      = (st.finalChecks >>= fun _ => pure st) := by
  have hU := Initialize_U32 NumCBs NumTexSRVs NumTexUAVs NumBufSRVs NumBufUAVs NumSamplers
    ResourceNamesPoolSize hU32
  obtain ⟨hN, hC, hR⟩ := stream_ok P resources _ st hU hstream
  have hR' : st.NamesRemainingSize + streamedNameBytes P resources = ResourceNamesPoolSize := hR
  have hCk : ∀ k, st.Curr k = streamedCount k resources := by
    intro k
    rw [hC k]
    simp [ShaderResourcesD3D12.Initialize]
  refine ⟨?_, finalChecks_ok_or_assertion st, ?_⟩
  · simp only [ShaderResourcesD3D12.finalChecks, except_bind_eq_ok, VERIFY_EXPR_eq_ok,
      exists_const, decide_eq_true_eq, ShaderResourcesD3D12.GetNumCBs,
      ShaderResourcesD3D12.GetNumTexSRV, ShaderResourcesD3D12.GetNumTexUAV,
      ShaderResourcesD3D12.GetNumBufSRV, ShaderResourcesD3D12.GetNumBufUAV,
      ShaderResourcesD3D12.GetNumSamplers, hN, hCk, ShaderResourcesD3D12.Initialize]
    constructor
    · rintro ⟨h0, h1, h2, h3, h4, h5, h6⟩
      exact ⟨h1, h2, h3, h4, h5, h6, by omega⟩
    · rintro ⟨h1, h2, h3, h4, h5, h6, h7⟩
      exact ⟨by omega, h1, h2, h3, h4, h5, h6⟩
  · simp only [ShaderResourcesD3D12.constructor, hstream, bind, Except.bind]

theorem final_checks_iff_counts_match_witness :
    ((streamedState exampleParams 1 1 0 0 0 1 39
        [.CB ⟨"cbPerFrame", 0⟩, .Sampler ⟨"g_Texture_sampler", 0⟩,
         .TexSRV ⟨"g_Texture", 0⟩]).finalChecks = .ok ()) ∧
    ((streamedState exampleParams 1 1 0 0 0 1 39
        [.CB ⟨"cbPerFrame", 0⟩, .Sampler ⟨"g_Texture_sampler", 0⟩]).finalChecks
      = .error (.assertionFailed "m_ResourceNames.GetRemainingSize() == 0")) ∧
    ¬ (streamedCount .TexSRV [.CB ⟨"cbPerFrame", 0⟩, .Sampler ⟨"g_Texture_sampler", 0⟩] = 1) :=
  ⟨(final_checks_iff_counts_match exampleParams 1 1 0 0 0 1 39 (by decide)
      [.CB ⟨"cbPerFrame", 0⟩, .Sampler ⟨"g_Texture_sampler", 0⟩, .TexSRV ⟨"g_Texture", 0⟩]
      (streamedState exampleParams 1 1 0 0 0 1 39
        [.CB ⟨"cbPerFrame", 0⟩, .Sampler ⟨"g_Texture_sampler", 0⟩,
         .TexSRV ⟨"g_Texture", 0⟩]) rfl).1.2
      ⟨by decide, by decide, by decide, by decide, by decide, by decide, by decide⟩,
   rfl, by decide⟩

end Diligent
